import Mathlib

/-!
# DMTCP coordinator: a shallow embedding of `src/dmtcp_coordinator.cpp`

The coordinator is single-threaded: every handler runs to completion on the
event-loop thread.  Its module-level variables and the members of
`DmtcpCoordinator` are gathered in one record `Coord`, and every handler of the
source is a function on that record.  What a handler writes to a socket is
appended to `Coord.sent`; what it passes to `recordEvent` is appended to
`Coord.events`.

Conventions.
* A C++ `std::string` is a Lean `String`; one `Char` stands for one C `char`.
* The C `int` counters are unbounded `Int`s: none of them can come near
  `2^31` in a run of the coordinator.
* `JASSERT` failure, `exit` and a loop that never ends are the three ways a
  handler does not return; they are constructors of `Halt`.  A fourth
  constructor stands for a statement whose behaviour C++ leaves undefined.
* `JTRACE`, `JNOTE`, `JWARNING`, the `JTIMER`s and what is printed to the
  terminal change no coordinator variable and are left out.
-/

namespace Dmtcp

/-! ## Data model -/

/-- Modelled from the spec: `workerstate.h` is not among the sources.  The
worker states, in the order the spec gives (section 3); their position in the
enumeration is `WorkerState.toInt`. -/
inductive WorkerState
  | UNKNOWN
  | RUNNING
  | PRESUSPEND
  | SUSPENDED
  | CHECKPOINTING
  | CHECKPOINTED
  | RESTARTING
  deriving DecidableEq, Repr

/-- The integer value of a worker state. -/
def WorkerState.toInt : WorkerState → Int
  | .UNKNOWN => 0
  | .RUNNING => 1
  | .PRESUSPEND => 2
  | .SUSPENDED => 3
  | .CHECKPOINTING => 4
  | .CHECKPOINTED => 5
  | .RESTARTING => 6

/-- Modelled from the spec: `WorkerState::_MAX`, the enumerator that follows the
last worker state; `getStatus` starts its minimum there. -/
def WorkerState.MAX : Int := 7

/-- The cast `(WorkerState::eWorkerState) n` of `getStatus`; it is only applied
to the value of some worker state. -/
def WorkerState.ofInt (n : Int) : WorkerState :=
  if n = 1 then .RUNNING
  else if n = 2 then .PRESUSPEND
  else if n = 3 then .SUSPENDED
  else if n = 4 then .CHECKPOINTING
  else if n = 5 then .CHECKPOINTED
  else if n = 6 then .RESTARTING
  else .UNKNOWN

/-- The message kinds of `dmtcpmessagetypes.h`. -/
inductive DmtcpMessageType
  | DMT_NULL
  | DMT_NEW_WORKER
  | DMT_NAME_SERVICE_WORKER
  | DMT_RESTART_WORKER
  | DMT_ACCEPT
  | DMT_REJECT_NOT_RESTARTING
  | DMT_REJECT_WRONG_COMP
  | DMT_REJECT_NOT_RUNNING
  | DMT_UPDATE_PROCESS_INFO_AFTER_FORK
  | DMT_UPDATE_PROCESS_INFO_AFTER_INIT_OR_EXEC
  | DMT_GET_CKPT_DIR
  | DMT_GET_CKPT_DIR_RESULT
  | DMT_UPDATE_CKPT_DIR
  | DMT_CKPT_FILENAME
  | DMT_UNIQUE_CKPT_FILENAME
  | DMT_USER_CMD
  | DMT_USER_CMD_RESULT
  | DMT_DO_CHECKPOINT
  | DMT_BARRIER
  | DMT_BARRIER_RELEASED
  | DMT_WORKER_RESUMING
  | DMT_KILL_PEER
  | DMT_KVDB_REQUEST
  | DMT_KVDB_RESPONSE
  deriving DecidableEq, Repr

/-- The codes of `CoordCmdStatus::ErrorCodes`. -/
def CoordCmdStatus.NOERROR : Int := 0

/-- The code `CoordCmdStatus::ERROR_INVALID_COMMAND`. -/
def CoordCmdStatus.ERROR_INVALID_COMMAND : Int := -1

/-- The code `CoordCmdStatus::ERROR_NOT_RUNNING_STATE`. -/
def CoordCmdStatus.ERROR_NOT_RUNNING_STATE : Int := -2

/-- Modelled from the spec: `uniquepid.h` is not among the sources.  A
`UniquePid` is host id, pid, wall time and generation (spec, section 3). -/
structure UniquePid where
  hostid : Int
  pid : Int
  time : Int
  computationGeneration : Int
  deriving DecidableEq, Repr

/-- The zero group `UniquePid(0, 0, 0)`, which is also `UniquePid()`. -/
def UniquePid.zero : UniquePid := ⟨0, 0, 0, 0⟩

/-- Modelled from the spec: `UniquePid::incrementGeneration` is not among the
sources; the spec says the generation is incremented, once, per checkpoint. -/
def UniquePid.incrementGeneration (u : UniquePid) : UniquePid :=
  { u with computationGeneration := u.computationGeneration + 1 }

/-- The fields of `struct DmtcpMessage` that the coordinator reads or writes
(`src` is the field `from` of the source).  The magic bits, the message size
and the key-value fields belong to the wire codec and the lookup service.
`coordCmd` is the 32-bit unsigned field of the source: a command letter is
there as its character code. -/
structure DmtcpMessage where
  type : DmtcpMessageType
  state : WorkerState
  src : UniquePid
  compGroup : UniquePid
  virtualPid : Int
  realPid : Int
  barrier : String
  extraBytes : Nat
  numPeers : Nat
  isRunning : Nat
  coordCmd : Nat
  coordCmdStatus : Int
  coordTimeStamp : Int
  theCheckpointInterval : Int
  ipAddr : Int
  exitAfterCkpt : Bool
  deriving DecidableEq, Repr

/-- Modelled from the spec: the constructor `DmtcpMessage(t)` is defined in a
file that is not among the sources.  It is taken to set the kind and to leave
every other field at its neutral value; no theorem below reads a field that
the coordinator has not set itself. -/
def DmtcpMessage.new (t : DmtcpMessageType) : DmtcpMessage :=
  { type := t, state := .UNKNOWN, src := UniquePid.zero, compGroup := UniquePid.zero,
    virtualPid := -1, realPid := -1, barrier := "", extraBytes := 0, numPeers := 0,
    isRunning := 0, coordCmd := 0, coordCmdStatus := CoordCmdStatus.NOERROR,
    coordTimeStamp := 0, theCheckpointInterval := 0, ipAddr := 0, exitAfterCkpt := false }

/-- The members of `CoordClient`.  `sock` is the descriptor of the socket the
client owns. -/
structure CoordClient where
  sock : Int
  clientNumber : Int
  identity : UniquePid
  realPid : Int
  virtualPid : Int
  hostname : String
  progname : String
  ip : Int
  state : WorkerState
  barrier : String
  isNSWorker : Bool
  deriving DecidableEq, Repr

/-- The snapshot `ComputationStatus` (without its timestamp). -/
structure ComputationStatus where
  numPeers : Int
  minimumState : WorkerState
  maximumState : WorkerState
  minimumStateUnanimous : Bool
  deriving DecidableEq, Repr

/-- The fields of `CoordFlags` that the handlers read. -/
structure CoordFlags where
  exitOnLast : Bool
  killAfterCkpt : Bool
  writeKvData : Bool
  ckptDir : String
  thePort : Int
  deriving DecidableEq, Repr

/-- One write on a socket: a message header and the bytes that follow it. -/
structure Sent where
  sock : Int
  msg : DmtcpMessage
  extra : List Char
  deriving DecidableEq, Repr

/-- The coordinator state: the module-level variables of
`dmtcp_coordinator.cpp`, the members of `DmtcpCoordinator`, and logs of what
the coordinator did: `sent` (socket writes), `closed` (sockets closed),
`dataSockets` (sockets handed to `addDataSocket`), `events` (`recordEvent`)
and `scripts` (the accumulators passed to `RestartScript::writeScript`).
`lookupClients` holds the client objects of the name-service connections:
`onConnect` hands them to `addDataSocket` without entering them in `clients`,
and the event loop reaches them through the pointer it stored with the
socket. -/
structure Coord where
  flags : CoordFlags
  blockUntilDone : Bool
  killAfterCkptOnce : Bool
  blockUntilDoneRemote : Int
  workersRunningAndSuspendMsgSent : Bool
  killInProgress : Bool
  uniqueCkptFilenames : Bool
  workersAtCurrentBarrier : Int
  currentBarrier : String
  prevBarrier : String
  eventId : Int
  compId : UniquePid
  numRestartPeers : Int
  curTimeStamp : Int
  ckptTimeStamp : Int
  nextVirtualPid : Int
  theNextClientNumber : Int
  clients : List CoordClient
  virtualPidToClientMap : List (Int × Int)
  restartFilenames : List (String × List String)
  rshCmdFileNames : List (String × List String)
  sshCmdFileNames : List (String × List String)
  numRestartFilenames : Int
  numCkptWorkers : Int
  checkpointQueued : Bool
  theCheckpointInterval : Int
  localhostIPAddr : Int
  replyData : String
  dataSockets : List Int
  lookupClients : List CoordClient
  sent : List Sent
  closed : List Int
  events : List (Int × String)
  scripts : List (List (String × List String) × List (String × List String)
                    × List (String × List String))
  deriving Repr

/-- The ways a handler does not return: `exit(code)` (with the state at that
point), a failed `JASSERT`, and a loop that never ends; and `undefined` for a
handler that reaches a statement whose behaviour C++ leaves undefined, after
which nothing is known about the coordinator. -/
inductive Halt
  | exit (code : Int) (final : Coord)
  | assertFail (what : String)
  | diverge
  | undefined (what : String)
  deriving Repr

/-- The state of a freshly started coordinator: the static initialisers of the
source, an empty registry and empty logs. -/
def Coord.init (flags : CoordFlags) : Coord :=
  { flags := flags, blockUntilDone := false, killAfterCkptOnce := false,
    blockUntilDoneRemote := -1, workersRunningAndSuspendMsgSent := false,
    killInProgress := false, uniqueCkptFilenames := false,
    workersAtCurrentBarrier := 0, currentBarrier := "", prevBarrier := "",
    eventId := 0, compId := UniquePid.zero, numRestartPeers := -1,
    curTimeStamp := -1, ckptTimeStamp := -1, nextVirtualPid := 40000,
    theNextClientNumber := 1, clients := [], virtualPidToClientMap := [],
    restartFilenames := [], rshCmdFileNames := [], sshCmdFileNames := [],
    numRestartFilenames := 0, numCkptWorkers := 0, checkpointQueued := false,
    theCheckpointInterval := 0, localhostIPAddr := 0, replyData := "",
    dataSockets := [], lookupClients := [], sent := [], closed := [], events := [],
    scripts := [] }

/-! ## Handlers -/

/-- Source function `DmtcpCoordinator::recordEvent`: the event counter goes up and the numbered
event is stored.  (The store is the lookup service, keyed by a timestamp; here
it is the log `events`.) -/
def recordEvent (event : String) (s : Coord) : Coord :=
  { s with eventId := s.eventId + 1, events := s.events ++ [(s.eventId + 1, event)] }

/-- The loop of `DmtcpCoordinator::getStatus` over the clients that are left to
visit, on the local variables `min`, `max`, `count` and `unanimous`. -/
def getStatusLoop : List CoordClient → Int → Int → Int → Bool → Int × Int × Int × Bool
  | [], min, max, count, unanimous => (min, max, count, unanimous)
  | c :: rest, min, max, count, unanimous =>
    let cliState := c.state.toInt
    let count := count + 1
    let unanimous := unanimous && (min == cliState || min == WorkerState.MAX)
    let min := if cliState < min then cliState else min
    let max := if cliState > max then cliState else max
    getStatusLoop rest min max count unanimous

/-- Source function `DmtcpCoordinator::getStatus` (without the timestamp, whose
clock call is taken to succeed). -/
def getStatus (s : Coord) : ComputationStatus :=
  let INITIAL_MIN := WorkerState.MAX
  let INITIAL_MAX := WorkerState.UNKNOWN.toInt
  let (min, max, count, unanimous) := getStatusLoop s.clients INITIAL_MIN INITIAL_MAX 0 true
  let minimumState := if min = INITIAL_MIN then WorkerState.UNKNOWN else WorkerState.ofInt min
  let minimumStateUnanimous :=
    if minimumState = WorkerState.RESTARTING ∧ count < s.numRestartPeers then false
    else unanimous
  let maximumState := if max = INITIAL_MAX then WorkerState.UNKNOWN else WorkerState.ofInt max
  { numPeers := count, minimumState := minimumState, maximumState := maximumState,
    minimumStateUnanimous := minimumStateUnanimous }

/-- One write of a header and its trailing bytes on socket `sock`. -/
def send (sock : Int) (msg : DmtcpMessage) (extra : List Char) (s : Coord) : Coord :=
  { s with sent := s.sent ++ [⟨sock, msg, extra⟩] }

/-- The sending loop of `broadcastMessage`: one header per client, in registry
order, followed by the extra bytes when there are any. -/
def broadcastLoop (msg : DmtcpMessage) (extraBytes : Nat) (extraData : List Char) :
    List CoordClient → Coord → Coord
  | [], s => s
  | c :: rest, s =>
    broadcastLoop msg extraBytes extraData rest
      (send c.sock msg (if extraBytes > 0 then extraData.take extraBytes else []) s)

/-- The header `msg` that `broadcastMessage` fills in before it sends it. -/
def broadcastHeader (type : DmtcpMessageType) (extraBytes : Nat) (s : Coord) : DmtcpMessage :=
  { DmtcpMessage.new .DMT_NULL with
    type := type
    compGroup := s.compId
    numPeers := s.clients.length % 4294967296
    exitAfterCkpt := s.flags.killAfterCkpt || s.killAfterCkptOnce
    extraBytes := extraBytes % 4294967296 }

/-- Source function `DmtcpCoordinator::broadcastMessage`. -/
def broadcastMessage (type : DmtcpMessageType) (extraBytes : Nat) (extraData : List Char)
    (s : Coord) : Coord :=
  let msg := broadcastHeader type extraBytes s
  let s := if type = .DMT_KILL_PEER ∧ s.clients.length > 0 then
      { s with killInProgress := true } else s
  let s := broadcastLoop msg extraBytes extraData s.clients s
  { s with workersAtCurrentBarrier := 0 }

/-- Source function `DmtcpCoordinator::startCheckpoint`; `now` is what `time()` returns. -/
def startCheckpoint (now : Int) (s : Coord) : Bool × Coord :=
  let st := getStatus s
  if st.minimumState = WorkerState.RUNNING ∧ st.minimumStateUnanimous = true
      ∧ s.workersRunningAndSuspendMsgSent = false then
    let s := { s with uniqueCkptFilenames := false, ckptTimeStamp := now }
    let s := recordEvent "Ckpt-Start" s
    let s := { s with numRestartFilenames := 0, numRestartPeers := -1,
                      restartFilenames := [], rshCmdFileNames := [], sshCmdFileNames := [] }
    let s := { s with compId := s.compId.incrementGeneration }
    let s := broadcastMessage .DMT_DO_CHECKPOINT 0 [] s
    let s := { s with workersRunningAndSuspendMsgSent := true }
    (true, s)
  else
    (false, s)

/-- The call `prevBarrier.c_str()`: the characters of the string and the NUL byte that
ends them. -/
def c_str (str : String) : List Char := str.toList ++ [Char.ofNat 0]

/-- Source function `DmtcpCoordinator::releaseBarrier`. -/
def releaseBarrier (barrier : String) (s : Coord) : Coord :=
  let status := getStatus s
  if s.workersAtCurrentBarrier = status.numPeers then
    if s.numRestartPeers > 0 ∧ status.numPeers ≠ s.numRestartPeers then
      s
    else
      let s := recordEvent ("Barrier-" ++ barrier) s
      let s := { s with prevBarrier := s.currentBarrier }
      let s := { s with currentBarrier := "" }
      let s := { s with workersAtCurrentBarrier := 0 }
      let s := { s with numCkptWorkers := status.numPeers }
      broadcastMessage .DMT_BARRIER_RELEASED (s.prevBarrier.length + 1) (c_str s.prevBarrier) s
  else
    s

/-- Source function `DmtcpCoordinator::processBarrier`. -/
def processBarrier (barrier : String) (s : Coord) : Except Halt Coord :=
  if s.currentBarrier = "" then
    let s := { s with currentBarrier := barrier }
    let s := { s with workersAtCurrentBarrier := s.workersAtCurrentBarrier + 1 }
    .ok (releaseBarrier barrier s)
  else if barrier = s.currentBarrier then
    let s := { s with workersAtCurrentBarrier := s.workersAtCurrentBarrier + 1 }
    .ok (releaseBarrier barrier s)
  else
    .error (.assertFail "barrier == currentBarrier")

/-- The text of `DmtcpCoordinator::printList`, one line per client.  (How a
`UniquePid` and a worker state are printed is defined outside the sources; the
identity is rendered by its four numbers and the state by its value.) -/
def printList (s : Coord) : String :=
  "Client List:\n#, PROG[virtPID:realPID]@HOST, DMTCP-UNIQUEPID, STATE, BARRIER\n"
    ++ String.join (s.clients.map fun c =>
      toString c.clientNumber ++ ", " ++ c.progname ++ "[" ++ toString c.identity.pid ++ ":"
        ++ toString c.realPid ++ "]@" ++ c.hostname ++ ", "
        ++ toString c.identity.hostid ++ "-" ++ toString c.identity.pid ++ "-"
        ++ toString c.identity.time ++ "-" ++ toString c.identity.computationGeneration
        ++ ", " ++ toString c.state.toInt ++ ", " ++ c.barrier ++ "\n")
    ++ "\n"

/-- Source function `DmtcpCoordinator::handleUserCommand`; `reply` is `none` for the null
pointer, `now` is the clock reading `startCheckpoint` takes.  The result holds
the reply as the handler leaves it.  (On `q`, closing the listener, removing
files and writing the key-value snapshot are outside the model.) -/
def handleUserCommand (now : Int) (cmd : String) (reply : Option DmtcpMessage) (s : Coord) :
    Except Halt (Option DmtcpMessage × Coord) :=
  let reply := reply.map fun r => { r with coordCmdStatus := CoordCmdStatus.NOERROR }
  if cmd = "bc" ∨ cmd = "kc" ∨ cmd = "ck" ∨ cmd = "K" ∨ cmd = "c" then
    let s :=
      if cmd = "bc" then { s with blockUntilDone := true }
      else if cmd = "kc" ∨ cmd = "ck" ∨ cmd = "K" then { s with killAfterCkptOnce := true }
      else s
    let r := startCheckpoint now s
    if r.1 = true then
      .ok (reply.map fun m => { m with numPeers := (getStatus r.2).numPeers.toNat }, r.2)
    else
      .ok (reply.map fun m =>
        { m with coordCmdStatus := CoordCmdStatus.ERROR_NOT_RUNNING_STATE }, r.2)
  else if cmd = "l" ∨ cmd = "t" then
    match reply with
    | some m =>
      let s := { s with replyData := printList s }
      .ok (some { m with extraBytes := s.replyData.length }, s)
    | none => .ok (none, s)
  else if cmd = "u" then
    .ok (reply, s)
  else if cmd = "q" then
    let s := broadcastMessage .DMT_KILL_PEER 0 [] s
    let s := { s with closed := s.closed ++ s.clients.map fun c => c.sock }
    let s := recordEvent "Exiting" s
    .error (.exit 0 s)
  else if cmd = "i" then
    .ok (reply, s)
  else if cmd = "k" then
    .ok (reply, broadcastMessage .DMT_KILL_PEER 0 [] s)
  else if cmd = "h" ∨ cmd = "?" then
    .ok (reply, s)
  else if cmd = "s" then
    let st := getStatus s
    let running := st.minimumStateUnanimous && decide (st.minimumState = WorkerState.RUNNING)
    .ok (reply.map fun m =>
      { m with numPeers := st.numPeers.toNat, isRunning := if running then 1 else 0,
               theCheckpointInterval := s.theCheckpointInterval }, s)
  else
    .ok (reply.map fun m =>
      { m with coordCmdStatus := CoordCmdStatus.ERROR_INVALID_COMMAND }, s)

/-- The loop of `onDisconnect` that erases the first registry entry that is the
disconnecting client.  (The source compares pointers; two entries of the model
are the same object when all their members agree.) -/
def eraseClient (client : CoordClient) : List CoordClient → List CoordClient
  | [] => []
  | c :: rest => if c = client then rest else c :: eraseClient client rest

/-- The erasure `_virtualPidToClientMap.erase(pid)`. -/
def mapErase (pid : Int) (m : List (Int × Int)) : List (Int × Int) :=
  m.filter fun kv => kv.1 ≠ pid

/-- The assignment `_virtualPidToClientMap[pid] = client`; the client is
recorded by its number. -/
def mapInsert (pid : Int) (client : Int) (m : List (Int × Int)) : List (Int × Int) :=
  if m.any (fun kv => kv.1 = pid) then
    m.map fun kv => if kv.1 = pid then (pid, client) else kv
  else m ++ [(pid, client)]

/-- Source function `DmtcpCoordinator::onDisconnect`.  (`CoordPluginMgr::clientDisconnected` is
defined outside the sources and is taken to leave the coordinator variables
alone.) -/
def onDisconnect (now : Int) (client : CoordClient) (s : Coord) : Except Halt Coord :=
  if client.isNSWorker then
    .ok { s with closed := s.closed ++ [client.sock] }
  else
    let s := { s with clients := eraseClient client s.clients }
    let s := { s with closed := s.closed ++ [client.sock] }
    let s := { s with virtualPidToClientMap := mapErase client.virtualPid s.virtualPidToClientMap }
    let st := getStatus s
    if st.numPeers < 1 then
      if s.flags.exitOnLast then
        match handleUserCommand now "q" none s with
        | .error h => .error h
        | .ok r => .ok { r.2 with killInProgress := false }
      else
        .ok { s with killInProgress := false }
    else
      if s.currentBarrier ≠ "" then
        let s :=
          if client.barrier = s.currentBarrier then
            { s with workersAtCurrentBarrier := s.workersAtCurrentBarrier - 1 }
          else s
        .ok (releaseBarrier s.currentBarrier s)
      else
        .ok s

/-- Source function `DmtcpCoordinator::initializeComputation`. -/
def initializeComputation (s : Coord) : Coord :=
  { s with
    workersRunningAndSuspendMsgSent := false
    killInProgress := false
    compId := UniquePid.zero
    curTimeStamp := 0
    numRestartPeers := -1
    blockUntilDone := false
    killAfterCkptOnce := false
    workersAtCurrentBarrier := 0
    prevBarrier := ""
    currentBarrier := "" }

/-- The constants `INITIAL_VIRTUAL_PID`, `VIRTUAL_PID_STEP` and
`MAX_VIRTUAL_PID` of `constants.h`. -/
def INITIAL_VIRTUAL_PID : Int := 40000

/-- The constant `VIRTUAL_PID_STEP`. -/
def VIRTUAL_PID_STEP : Int := 1000

/-- The constant `MAX_VIRTUAL_PID`. -/
def MAX_VIRTUAL_PID : Int := 1000000

/-- The `while (1)` loop of `getNewVirtualPid`, run for at most `fuel` rounds;
`none` when the rounds are used up. -/
def getNewVirtualPidLoop : Nat → Coord → Option (Int × Coord)
  | 0, _ => none
  | fuel + 1, s =>
    let pid := s.nextVirtualPid
    let next := s.nextVirtualPid + VIRTUAL_PID_STEP
    let s := { s with nextVirtualPid := if next > MAX_VIRTUAL_PID then INITIAL_VIRTUAL_PID else next }
    if s.virtualPidToClientMap.all (fun kv => kv.1 ≠ pid) then some (pid, s)
    else getNewVirtualPidLoop fuel s

/-- A number of rounds after which the loop of `getNewVirtualPid` has seen every
candidate it will ever see: the rounds it takes the cursor to wrap, and one
full cycle of candidates after that. -/
def getNewVirtualPidFuel (s : Coord) : Nat :=
  (if s.nextVirtualPid ≤ MAX_VIRTUAL_PID then
      ((MAX_VIRTUAL_PID - s.nextVirtualPid) / VIRTUAL_PID_STEP).toNat + 1 else 1)
    + ((MAX_VIRTUAL_PID - INITIAL_VIRTUAL_PID) / VIRTUAL_PID_STEP).toNat + 1

/-- Source function `DmtcpCoordinator::getNewVirtualPid`.  The map does not change while the
loop runs, so a loop that has not stopped after `getNewVirtualPidFuel` rounds
never stops. -/
def getNewVirtualPid (s : Coord) : Except Halt (Int × Coord) :=
  if ¬ ((s.virtualPidToClientMap.length : Int) < MAX_VIRTUAL_PID) then
    .error (.assertFail "_virtualPidToClientMap.size() < MAX_VIRTUAL_PID")
  else
    match getNewVirtualPidLoop (getNewVirtualPidFuel s) s with
    | none => .error .diverge
    | some r => .ok r

/-- The buffer `buf` holds a NUL at or after position `off`: the C string that
starts at `off` ends inside the buffer. -/
def terminated (buf : List Char) (off : Nat) : Prop :=
  Char.ofNat 0 ∈ buf.drop off

/-- The string that starts at position `off` of a buffer of `char`, as the
constructor `std::string(const char *)` reads it: the characters up to the
first NUL.  The value is what the source computes when `terminated buf off`
holds.  Without a NUL in the buffer the source reads on past the end of the
allocation, which C++ leaves undefined; the characters up to the end of the
buffer, which are the value here, then stand for no outcome of the source. -/
def cstrAt (buf : List Char) (off : Nat) : String :=
  String.mk ((buf.drop off).takeWhile fun ch => ch ≠ Char.ofNat 0)

/-- The `CoordClient` constructor: the client takes the next client number.
`onConnect` calls it with four arguments, for a worker and for a name-service
connection alike; the default of the fifth, `isNSWorker`, is declared in a
header outside the sources and is taken to be 0.  The constructor does not set
the virtual pid, which is -1 here until `onConnect` assigns one. -/
def CoordClient.new (sock : Int) (addr : Int) (hello : DmtcpMessage) (s : Coord) :
    CoordClient × Coord :=
  ({ sock := sock, clientNumber := s.theNextClientNumber, identity := hello.src,
     realPid := hello.realPid, virtualPid := -1, hostname := "", progname := "",
     ip := addr, state := hello.state, barrier := "", isNSWorker := false },
   { s with theNextClientNumber := s.theNextClientNumber + 1 })

/-- Source function `CoordClient::readProcessInfo`: host name and program name are the first
two strings of the extra bytes. -/
def CoordClient.readProcessInfo (client : CoordClient) (msg : DmtcpMessage)
    (extraData : List Char) : CoordClient :=
  if msg.extraBytes > 0 then
    let hostname := cstrAt extraData 0
    { client with hostname := hostname, progname := cstrAt extraData (hostname.length + 1) }
  else client

/-- Whether an IPv4 address, as a number, starts with `127.`. -/
def isLoopback (addr : Int) : Bool := addr / 16777216 = 127

/-- Source function `DmtcpCoordinator::minimumState` (declared in the header): the minimum
state of `getStatus`. -/
def minimumState (s : Coord) : WorkerState := (getStatus s).minimumState

/-- The conversion of the 32-bit unsigned `hello.numPeers` to the `int`
`numRestartPeers`. -/
def toInt32 (n : Nat) : Int :=
  if n % 4294967296 < 2147483648 then (n % 4294967296 : Nat) else (n % 4294967296 : Nat) - 4294967296

/-- Source function `DmtcpCoordinator::validateRestartingWorkerProcess`; `now` is the reading
of `getCurrTimestamp`. -/
def validateRestartingWorkerProcess (now : Int) (hello : DmtcpMessage) (remote : Int)
    (remoteAddr : Int) (s : Coord) : Except Halt (Bool × Coord) :=
  if hello.state ≠ WorkerState.RESTARTING then
    .ok (false, { s with closed := s.closed ++ [remote] })
  else
    let hello_local := DmtcpMessage.new .DMT_ACCEPT
    let accept (s : Coord) : Except Halt (Bool × Coord) :=
      if s.curTimeStamp = 0 then .error (.assertFail "curTimeStamp != 0")
      else
        let hello_local := { hello_local with coordTimeStamp := s.curTimeStamp }
        let hello_local := { hello_local with
          ipAddr := if isLoopback remoteAddr then s.localhostIPAddr else remoteAddr }
        .ok (true, send remote hello_local [] s)
    if s.compId = UniquePid.zero then
      let s := recordEvent "Restarting-Computation" s
      if minimumState s ≠ WorkerState.UNKNOWN then
        .error (.assertFail "minimumState() == WorkerState::UNKNOWN")
      else
        let s := { s with compId := hello.compGroup }
        let s := { s with numRestartPeers := toInt32 hello.numPeers }
        let s := { s with curTimeStamp := now }
        let s := recordEvent "Restart-Start" s
        accept s
    else if minimumState s ≠ WorkerState.RESTARTING then
      let s := send remote { hello_local with type := .DMT_REJECT_NOT_RESTARTING } [] s
      .ok (false, { s with closed := s.closed ++ [remote] })
    else if hello.compGroup ≠ s.compId then
      let s := send remote { hello_local with type := .DMT_REJECT_WRONG_COMP } [] s
      .ok (false, { s with closed := s.closed ++ [remote] })
    else
      accept s

/-- Source function `DmtcpCoordinator::ResendDoCheckpointMsgToWorker`. -/
def ResendDoCheckpointMsgToWorker (client : CoordClient) (s : Coord) : Except Halt Coord :=
  if s.workersRunningAndSuspendMsgSent = false then
    .error (.assertFail "workersRunningAndSuspendMsgSent")
  else
    let st := getStatus s
    if ¬ (st.numPeers > 0) then .error (.assertFail "s.numPeers > 0")
    else if st.minimumState = WorkerState.SUSPENDED then
      .error (.assertFail "s.minimumState != WorkerState::SUSPENDED")
    else
      let suspendMsg := { DmtcpMessage.new .DMT_DO_CHECKPOINT with compGroup := s.compId }
      .ok (send client.sock suspendMsg [] s)

/-- The header `hello_local` of `validateNewWorkerProcess` as it is when it is
sent back with kind `type`: the virtual pid is always set; the computation
group, the timestamp and the address are set on the accepting paths only. -/
def helloLocal (type : DmtcpMessageType) (virtualPid : Int) (compGroup : UniquePid)
    (coordTimeStamp : Int) (ipAddr : Int) : DmtcpMessage :=
  { DmtcpMessage.new .DMT_ACCEPT with
    type := type
    virtualPid := virtualPid
    compGroup := compGroup
    coordTimeStamp := coordTimeStamp
    ipAddr := ipAddr }

/-- The branch of `validateNewWorkerProcess` that creates the computation group
when the first process connects (`compId == UniquePid(0, 0, 0)`). -/
def createComputationGroup (now : Int) (hello : DmtcpMessage) (virtualPid : Int) (s : Coord) :
    Coord :=
  if s.compId = UniquePid.zero then
    recordEvent "Initializing-Computation"
      { s with
        compId := ⟨hello.src.hostid, virtualPid, hello.src.time, hello.src.computationGeneration⟩
        curTimeStamp := now
        numRestartPeers := -1 }
  else s

/-- Source function `DmtcpCoordinator::validateNewWorkerProcess`; `now` is the reading of
`getCurrTimestamp`.  The result holds the client as the function leaves it
(with its virtual pid once one was assigned). -/
def validateNewWorkerProcess (now : Int) (hello : DmtcpMessage) (remote : Int)
    (client : CoordClient) (remoteAddr : Int) (s : Coord) :
    Except Halt (Bool × CoordClient × Coord) :=
  if hello.state ≠ WorkerState.RUNNING ∧ hello.state ≠ WorkerState.UNKNOWN then
    .ok (false, client, s)
  else if hello.virtualPid ≠ -1 then
    .ok (false, client, s)
  else
    match getNewVirtualPid s with
    | .error h => .error h
    | .ok (pid, s) =>
      if s.workersRunningAndSuspendMsgSent = true then
        match ResendDoCheckpointMsgToWorker { client with virtualPid := pid }
            (send remote (helloLocal .DMT_ACCEPT pid s.compId 0 0) [] s) with
        | .error h => .error h
        | .ok s => .ok (true, { client with virtualPid := pid }, s)
      else if (getStatus s).numPeers > 0 ∧ (getStatus s).minimumState ≠ WorkerState.RUNNING
          ∧ (getStatus s).minimumState ≠ WorkerState.UNKNOWN then
        .ok (false, { client with virtualPid := pid },
          { send remote (helloLocal .DMT_REJECT_NOT_RUNNING pid UniquePid.zero 0 0) [] s with
            closed := s.closed ++ [remote] })
      else if hello.compGroup ≠ UniquePid.zero then
        .ok (false, { client with virtualPid := pid },
          { send remote (helloLocal .DMT_REJECT_WRONG_COMP pid UniquePid.zero 0 0) [] s with
            closed := s.closed ++ [remote] })
      else
        .ok (true, { client with virtualPid := pid },
          send remote
            (helloLocal .DMT_ACCEPT pid (createComputationGroup now hello pid s).compId
              (createComputationGroup now hello pid s).curTimeStamp
              (if isLoopback remoteAddr then s.localhostIPAddr else remoteAddr)) []
            (createComputationGroup now hello pid s))

/-- The command string `string cmd(1, hello_remote.coordCmd)` of
`processDmtUserCmd`: one `char`, which is the low byte of the 32-bit field. -/
def cmdOf (hello : DmtcpMessage) : String :=
  String.mk [Char.ofNat (hello.coordCmd % 256)]

/-- Source function `DmtcpCoordinator::processDmtUserCmd`.  The command string is built from
the low byte of `coordCmd`; the comparisons with `'c'` and `'i'` are on the
whole field. -/
def processDmtUserCmd (now : Int) (hello : DmtcpMessage) (remote : Int) (s : Coord) :
    Except Halt Coord :=
  if s.blockUntilDone = true ∧ s.blockUntilDoneRemote = -1 ∧ hello.coordCmd = 'c'.toNat then
    match handleUserCommand now (cmdOf hello)
        (some (DmtcpMessage.new .DMT_USER_CMD_RESULT)) { s with blockUntilDoneRemote := remote } with
    | .error h => .error h
    | .ok r => .ok r.2
  else if hello.coordCmd = 'i'.toNat then
    match handleUserCommand now (cmdOf hello)
        (some (DmtcpMessage.new .DMT_USER_CMD_RESULT)) s with
    | .error h => .error h
    | .ok r =>
      .ok { send remote (r.1.getD (DmtcpMessage.new .DMT_USER_CMD_RESULT)) [] r.2 with
            closed := r.2.closed ++ [remote] }
  else
    match handleUserCommand now (cmdOf hello)
        (some (DmtcpMessage.new .DMT_USER_CMD_RESULT)) s with
    | .error h => .error h
    | .ok r =>
      .ok { send remote (r.1.getD (DmtcpMessage.new .DMT_USER_CMD_RESULT))
              (if (r.1.getD (DmtcpMessage.new .DMT_USER_CMD_RESULT)).extraBytes > 0 then
                (c_str r.2.replyData).take
                  (r.1.getD (DmtcpMessage.new .DMT_USER_CMD_RESULT)).extraBytes
               else []) r.2 with
            closed := r.2.closed ++ [remote] }

/-- The client object that `onConnect` builds for a worker: the constructor,
then `readProcessInfo` when the hello message has extra bytes. -/
def helloClient (remote : Int) (remoteAddr : Int) (hello : DmtcpMessage)
    (extraData : List Char) (s : Coord) : CoordClient :=
  if hello.extraBytes > 0 then
    (CoordClient.new remote remoteAddr hello s).1.readProcessInfo hello extraData
  else (CoordClient.new remote remoteAddr hello s).1

/-- The end of `onConnect` for a worker that was accepted: the client enters
the virtual-pid map and the registry, and its socket is handed to
`addDataSocket`. -/
def registerClient (client : CoordClient) (s : Coord) : Coord :=
  { s with
    virtualPidToClientMap :=
      mapInsert client.virtualPid client.clientNumber s.virtualPidToClientMap
    clients := s.clients ++ [client]
    dataSockets := s.dataSockets ++ [client.sock] }

/-- The part of `onConnect` that follows the creation of the client object,
for a state in which the computation was initialised if it had to be and the
client number was taken. -/
def onConnectWorker (now : Int) (remote : Int) (remoteAddr : Int) (hello : DmtcpMessage)
    (client : CoordClient) (s : Coord) : Except Halt Coord :=
  if hello.type = .DMT_RESTART_WORKER then
    match validateRestartingWorkerProcess now hello remote remoteAddr s with
    | .error h => .error h
    | .ok r =>
      if r.1 = true then .ok (registerClient { client with virtualPid := hello.src.pid } r.2)
      else .ok r.2
  else if hello.type = .DMT_NEW_WORKER then
    match validateNewWorkerProcess now hello remote client remoteAddr s with
    | .error h => .error h
    | .ok r =>
      if r.1 = true then .ok (registerClient r.2.1 r.2.2)
      else .ok r.2.2
  else
    .ok { s with closed := s.closed ++ [remote] }

/-- The state in which `onConnect` creates the client object of a worker: the
computation is initialised first when the registry is empty. -/
def initializedIfEmpty (s : Coord) : Coord :=
  if s.clients.length = 0 then initializeComputation s else s

/-- Source function `DmtcpCoordinator::onConnect` for a connection that was accepted on socket
`remote` from address `remoteAddr` and whose hello message `hello`, with the
extra bytes `extraData`, was read; `now` is the clock.
(`CoordPluginMgr::clientConnected` is defined outside the sources and is taken
to leave the coordinator variables alone.) -/
def onConnect (now : Int) (remote : Int) (remoteAddr : Int) (hello : DmtcpMessage)
    (extraData : List Char) (s : Coord) : Except Halt Coord :=
  if hello.type = .DMT_NAME_SERVICE_WORKER then
    .ok { (CoordClient.new remote remoteAddr hello s).2 with
          dataSockets := s.dataSockets ++ [remote]
          lookupClients := s.lookupClients ++ [(CoordClient.new remote remoteAddr hello s).1] }
  else if hello.type = .DMT_USER_CMD then
    processDmtUserCmd now hello remote s
  else if s.killInProgress = true then
    .ok { send remote (DmtcpMessage.new .DMT_KILL_PEER) [] s with closed := s.closed ++ [remote] }
  else
    onConnectWorker now remote remoteAddr hello
      (helloClient remote remoteAddr hello extraData (initializedIfEmpty s))
      (CoordClient.new remote remoteAddr hello (initializedIfEmpty s)).2

/-- The change a handler makes to the object `old` through its pointer, seen in
the registry: the first entry that is `old` becomes `new`. -/
def updateClient (old new : CoordClient) : List CoordClient → List CoordClient
  | [] => []
  | c :: rest => if c = old then new :: rest else c :: updateClient old new rest

/-- The statement `acc[hostname].push_back(ckptFilename)` on one of the
accumulators of restart file names. -/
def pushFilename (hostname ckptFilename : String) :
    List (String × List String) → List (String × List String)
  | [] => [(hostname, [ckptFilename])]
  | (h, fs) :: rest =>
    if h = hostname then (h, fs ++ [ckptFilename]) :: rest
    else (h, fs) :: pushFilename hostname ckptFilename rest

/-- Source function `DmtcpCoordinator::recordCkptFilename`; `extraData` is `none` for the null
pointer.  (`RestartScript::writeScript` is defined outside the sources: the
accumulators it is given are logged in `scripts`.) -/
def recordCkptFilename (client : CoordClient) (extraData : Option (List Char)) (s : Coord) :
    Except Halt Coord :=
  let client1 := { client with state := WorkerState.CHECKPOINTED }
  let s := { s with clients := updateClient client client1 s.clients }
  match extraData with
  | none => .error (.assertFail "extraData != NULL")
  | some extraData =>
    let ckptFilename := cstrAt extraData 0
    let shellType := cstrAt extraData (ckptFilename.length + 1)
    let hostname := cstrAt extraData (shellType.length + 1 + ckptFilename.length + 1)
    let stored : Except Halt Coord :=
      if shellType = "" then
        .ok { s with restartFilenames := pushFilename hostname ckptFilename s.restartFilenames }
      else if shellType = "rsh" then
        .ok { s with rshCmdFileNames := pushFilename hostname ckptFilename s.rshCmdFileNames }
      else if shellType = "ssh" then
        .ok { s with sshCmdFileNames := pushFilename hostname ckptFilename s.sshCmdFileNames }
      else .error (.assertFail "Shell command not supported")
    match stored with
    | .error h => .error h
    | .ok s =>
      let s := { s with numRestartFilenames := s.numRestartFilenames + 1 }
      if s.numRestartFilenames = s.numCkptWorkers then
        let s := { s with scripts :=
          s.scripts ++ [(s.restartFilenames, s.rshCmdFileNames, s.sshCmdFileNames)] }
        let s := recordEvent "Ckpt-Complete" s
        let s :=
          if s.blockUntilDone = true then
            let s := send s.blockUntilDoneRemote (DmtcpMessage.new .DMT_USER_CMD_RESULT) [] s
            let s := { s with closed := s.closed ++ [s.blockUntilDoneRemote] }
            let s := { s with blockUntilDone := false }
            { s with blockUntilDoneRemote := -1 }
          else s
        let s := { s with killAfterCkptOnce := false }
        let s := { s with numRestartFilenames := 0 }
        let s := { s with numCkptWorkers := 0 }
        .ok { s with workersRunningAndSuspendMsgSent := false }
      else .ok s

/-- Source function `DmtcpCoordinator::onData` for a message `msg` that was read from `client`
and passed `assertValid`, with the bytes `extra` that follow it on the socket.
(`lookupService.processRequest` and the resume hooks of `CoordPluginMgr` are
defined outside the sources and are taken to leave the coordinator variables
alone.) -/
def onData (now : Int) (client : CoordClient) (msg : DmtcpMessage) (extra : List Char)
    (s : Coord) : Except Halt Coord :=
  let extraData : Option (List Char) :=
    if msg.extraBytes > 0 then some (extra.take msg.extraBytes) else none
  let prevClientState := client.state
  let client1 := { client with state := msg.state }
  let s := { s with clients := updateClient client client1 s.clients }
  match msg.type with
  | .DMT_WORKER_RESUMING =>
    let client2 := { client1 with barrier := "" }
    let s := { s with clients := updateClient client1 client2 s.clients }
    let st := getStatus s
    if st.minimumStateUnanimous = true ∧ st.minimumState = WorkerState.RUNNING then
      if prevClientState = WorkerState.RESTARTING then
        .ok (recordEvent "Restart-Complete" s)
      else .ok s
    else .ok s
  | .DMT_BARRIER =>
    let barrier := msg.barrier
    let client2 := { client1 with barrier := barrier }
    let s := { s with clients := updateClient client1 client2 s.clients }
    processBarrier barrier s
  | .DMT_UNIQUE_CKPT_FILENAME =>
    let s := { s with uniqueCkptFilenames := true }
    recordCkptFilename client1 extraData s
  | .DMT_CKPT_FILENAME =>
    recordCkptFilename client1 extraData s
  | .DMT_GET_CKPT_DIR =>
    let reply := { DmtcpMessage.new .DMT_GET_CKPT_DIR_RESULT with
      extraBytes := (s.flags.ckptDir.length + 1) % 4294967296 }
    .ok (send client1.sock reply ((c_str s.flags.ckptDir).take reply.extraBytes) s)
  | .DMT_UPDATE_CKPT_DIR =>
    match extraData with
    | none => .error (.assertFail "extraData != 0")
    | some d =>
      if s.flags.ckptDir ≠ cstrAt d 0 then
        .ok { s with flags := { s.flags with ckptDir := cstrAt d 0 } }
      else .ok s
  | .DMT_UPDATE_PROCESS_INFO_AFTER_FORK =>
    let client2 := { client1 with identity := msg.src, realPid := msg.realPid }
    .ok { s with clients := updateClient client1 client2 s.clients }
  | .DMT_UPDATE_PROCESS_INFO_AFTER_INIT_OR_EXEC =>
    match extraData with
    | none => .error (.undefined "string progname = extraData, with extraData == 0")
    | some d =>
      let client2 := { client1 with progname := cstrAt d 0, identity := msg.src }
      let s := { s with clients := updateClient client1 client2 s.clients }
      if s.workersRunningAndSuspendMsgSent = true then
        ResendDoCheckpointMsgToWorker client2 s
      else .ok s
  | .DMT_KVDB_REQUEST => .ok s
  | _ => onDisconnect now client1 s

/-! ## The event loop, one event at a time -/

/-- What `eventLoop` reacts to: a connection with its hello message, a
`DMT_BARRIER` message on the data socket of the client whose number is
`client`, the hang-up of a client, a command line typed on the terminal (as
`eventLoop` passes it to `handleUserCommand`), and a checkpoint that the
interval timer has queued.  The client of a message or a hang-up is a
registered worker or a name-service connection: `eventLoop` calls `onData` and
`onDisconnect` on the object of any data socket. -/
inductive Event
  | connect (now : Int) (remote : Int) (remoteAddr : Int) (hello : DmtcpMessage)
      (extraData : List Char)
  | barrier (now : Int) (client : Int) (name : String) (state : WorkerState)
  | disconnect (now : Int) (client : Int)
  | userCommand (now : Int) (cmd : String)
  | queuedCheckpoint (now : Int)
  deriving Repr

/-- The registered client with a given client number: the object the event
loop finds behind the socket that became readable. -/
def findClient (n : Int) (s : Coord) : Option CoordClient :=
  s.clients.find? fun c => c.clientNumber = n

/-- The `DMT_BARRIER` message with a given name and state. -/
def barrierMsg (name : String) (state : WorkerState) : DmtcpMessage :=
  { DmtcpMessage.new .DMT_BARRIER with barrier := name, state := state }

/-- The client object of the name-service connection with a given client
number. -/
def findLookup (n : Int) (s : Coord) : Option CoordClient :=
  s.lookupClients.find? fun c => c.clientNumber = n

/-- One round of `eventLoop` for one event.  The logs `sent` and `closed` are
emptied first, so that afterwards they hold what this event made the
coordinator write and close.  A message or a hang-up is handled by `onData` or
`onDisconnect` on the object of its client, which is a registered worker or a
name-service connection; an event whose client number belongs to no data
socket has no handler to run.  What `onData` writes into the object of a
name-service connection (its state and its barrier name) is kept in
`lookupClients`, and the object is dropped from there when the connection
hangs up.  (The constructor leaves the virtual pid of such an object unset;
here it is the -1 of `CoordClient.new`.) -/
def step (s : Coord) (e : Event) : Except Halt Coord :=
  let s := { s with sent := [], closed := [] }
  match e with
  | .connect now remote remoteAddr hello extraData =>
    onConnect now remote remoteAddr hello extraData s
  | .barrier now n name state =>
    match findClient n s with
    | some c => onData now c (barrierMsg name state) [] s
    | none =>
      match findLookup n s with
      | some c =>
        match onData now c (barrierMsg name state) [] s with
        | .error h => .error h
        | .ok t =>
          .ok { t with lookupClients :=
                  updateClient c { c with state := state, barrier := name } t.lookupClients }
      | none => .ok s
  | .disconnect now n =>
    match findClient n s with
    | some c => onDisconnect now c s
    | none =>
      match findLookup n s with
      | some c =>
        match onDisconnect now c s with
        | .error h => .error h
        | .ok t => .ok { t with lookupClients := eraseClient c t.lookupClients }
      | none => .ok s
  | .userCommand now cmd =>
    if cmd ≠ "" then
      match handleUserCommand now cmd none s with
      | .error h => .error h
      | .ok r => .ok r.2
    else .ok s
  | .queuedCheckpoint now => .ok (startCheckpoint now { s with checkpointQueued := false }).2

/-! ## Sample states -/

/-- A registered worker with client number `n`, in state `st`, whose last
barrier message named `barrier`. -/
def sampleClient (n : Int) (st : WorkerState) (barrier : String) : CoordClient :=
  { sock := 10 + n, clientNumber := n, identity := ⟨7, 40000 + 1000 * n, 5, 0⟩,
    realPid := 500 + n, virtualPid := 40000 + 1000 * n, hostname := "hostA",
    progname := "a.out", ip := 2130706433, state := st, barrier := barrier,
    isNSWorker := false }

/-- Two RUNNING workers B and C of a computation that was restarted from two
images and has checkpoint file names left over from an earlier checkpoint. -/
def sampleRunning : Coord :=
  { Coord.init ⟨false, true, false, "/tmp", 7779⟩ with
    clients := [sampleClient 2 .RUNNING "", sampleClient 3 .RUNNING ""]
    virtualPidToClientMap := [(42000, 2), (43000, 3)]
    theNextClientNumber := 4
    compId := ⟨7, 41000, 5, 3⟩
    curTimeStamp := 99
    numRestartPeers := 2
    restartFilenames := [("hostA", ["/tmp/ckpt_a.dmtcp"])]
    rshCmdFileNames := [("hostB", ["/tmp/ckpt_b.dmtcp"])]
    sshCmdFileNames := [("hostC", ["/tmp/ckpt_c.dmtcp"])]
    numRestartFilenames := 3 }

/-- The state `sampleRunning` after a checkpoint was started and before any
worker has answered. -/
def sampleCheckpointing : Coord := (startCheckpoint 100 sampleRunning).2

/-- A computation at the barrier `x`, with `numRestartPeers = nrp`, the given
registry and the given number of arrivals counted so far. -/
def sampleAtBarrier (nrp : Int) (clients : List CoordClient) (count : Int) : Coord :=
  { Coord.init ⟨false, false, false, "/tmp", 7779⟩ with
    clients := clients
    virtualPidToClientMap := clients.map fun c => (c.virtualPid, c.clientNumber)
    theNextClientNumber := 4
    compId := ⟨7, 41000, 5, 3⟩
    curTimeStamp := 99
    numRestartPeers := nrp
    currentBarrier := "x"
    workersAtCurrentBarrier := count }

/-- What `recordEvent` logs when the barrier `barrier` is released: the release
is seen in the event log as the next numbered event `Barrier-<barrier>`. -/
@[reducible]
def released (barrier : String) (s s' : Coord) : Prop :=
  s'.events = s.events ++ [(s.eventId + 1, "Barrier-" ++ barrier)]

/-- A handler that started in state `s` did not release a barrier: if it
returned, or ended in `exit`, it wrote nothing on any socket, `prevBarrier` is
what it was and the open barrier is `name`; if it returned, no event was
recorded either. -/
def keepsBarrier (s : Coord) (name : String) : Except Halt Coord → Prop
  | .ok s' => s'.sent = s.sent ∧ s'.events = s.events ∧ s'.prevBarrier = s.prevBarrier
      ∧ s'.currentBarrier = name
  | .error (.exit _ f) => f.sent = s.sent ∧ f.prevBarrier = s.prevBarrier
      ∧ f.currentBarrier = name
  | .error _ => True

/-- The state in which `onDisconnect` calls `releaseBarrier` when a client of
the main registry hangs up, another client remains and a barrier is open: the
client is erased, its socket is closed, and the counter is one lower if the
client was registered at the open barrier. -/
def afterDeparture (client : CoordClient) (s : Coord) : Coord :=
  { s with
    clients := eraseClient client s.clients
    closed := s.closed ++ [client.sock]
    virtualPidToClientMap := mapErase client.virtualPid s.virtualPidToClientMap
    workersAtCurrentBarrier :=
      s.workersAtCurrentBarrier - (if client.barrier = s.currentBarrier then 1 else 0) }

/-! ## Histories: who has arrived since the last release -/

/-- The coordinator state together with a record that the coordinator itself
does not keep: `arrived` lists, newest first, the `DMT_BARRIER` messages that
registered clients have sent since a barrier was last released, each as the
number of the sending client and the barrier name of the message. -/
structure Hist where
  coord : Coord
  arrived : List (Int × String)

/-- The history of a freshly started coordinator. -/
def Hist.init (flags : CoordFlags) : Hist := ⟨Coord.init flags, []⟩

/-- The barrier that the event just handled released, if it released one: the
name carried by the first `DMT_BARRIER_RELEASED` message among what the event
made the coordinator write (the extra bytes without the NUL that ends them). -/
def releasedName (s' : Coord) : Option String :=
  (s'.sent.find? fun m => m.msg.type = .DMT_BARRIER_RELEASED).map
    fun m => String.mk m.extra.dropLast

/-- The record of arrivals once the event `e` is counted: a `DMT_BARRIER`
message from a registered client is added to it. -/
def Hist.arrivedWith (h : Hist) : Event → List (Int × String)
  | .barrier _ n name _ =>
    if (findClient n h.coord).isSome then (n, name) :: h.arrived else h.arrived
  | _ => h.arrived

/-- One event on a history: the coordinator handles the event, and the record
of arrivals starts afresh when the event released a barrier. -/
def Hist.step (h : Hist) (e : Event) : Except Halt Hist :=
  match Dmtcp.step h.coord e with
  | .error x => .error x
  | .ok s' => .ok ⟨s', if (releasedName s').isSome then [] else h.arrivedWith e⟩

/-- An event is orderly in a history when, if it is a `DMT_BARRIER` message, its
barrier name is not empty, its sender has not sent a `DMT_BARRIER` message
since the last release, and its sender is not a name-service connection.
Connections of every kind, hang-ups of every client, terminal commands and
queued checkpoints are always orderly. -/
def Event.orderly (h : Hist) : Event → Bool
  | .barrier _ n name _ =>
    decide (name ≠ "") && decide (n ∉ h.arrived.map Prod.fst)
      && ((findClient n h.coord).isSome || (findLookup n h.coord).isNone)
  | _ => true

/-- The history reached from `h` by a list of events, when every event is
orderly at the moment it is handled and the coordinator handles each without
halting; `none` otherwise. -/
def Hist.run (h : Hist) : List Event → Option Hist
  | [] => some h
  | e :: es =>
    if e.orderly h then
      match h.step e with
      | .ok h' => Hist.run h' es
      | .error _ => none
    else none

/-- The hello message of a new worker with the given identity. -/
def sampleHello (pid : Int) : DmtcpMessage :=
  { DmtcpMessage.new .DMT_NEW_WORKER with
    state := .RUNNING, src := ⟨7, pid, 5, 0⟩, realPid := pid }

/-- Two workers connect, with client numbers 1 and 2, and client 1 sends
`DMT_BARRIER` for the barrier `x`. -/
def sampleEvents : List Event :=
  [.connect 50 11 2130706433 (sampleHello 501) [],
   .connect 51 12 2130706433 (sampleHello 502) [],
   .barrier 52 1 "x" .RUNNING]

/-- The history after `sampleEvents`. -/
def sampleHist : Hist :=
  (Hist.run (Hist.init ⟨false, false, false, "/tmp", 7779⟩) sampleEvents).getD
    (Hist.init ⟨false, false, false, "/tmp", 7779⟩)

/-- Nothing that was written is a `DMT_BARRIER_RELEASED` message. -/
def noReleaseSent (s : Coord) : Prop :=
  ∀ m ∈ s.sent, m.msg.type ≠ DmtcpMessageType.DMT_BARRIER_RELEASED

/-- A handler that took the coordinator from `s` to `s'` left the barrier engine
alone: same registry, same open barrier, the counter as it was or reset to
zero, no client number taken back and no release written. -/
structure Calm (s s' : Coord) : Prop where
  clients : s'.clients = s.clients
  cur : s'.currentBarrier = s.currentBarrier
  count : s'.workersAtCurrentBarrier = s.workersAtCurrentBarrier
    ∨ s'.workersAtCurrentBarrier = 0
  next : s.theNextClientNumber ≤ s'.theNextClientNumber
  quiet : noReleaseSent s → noReleaseSent s'

/-- The invariant of histories.  Client numbers are below the next client
number and pairwise distinct in the registry; so are the numbers in the record
of arrivals; when the registry is not empty the counter is at most the number
of registered clients that have arrived; and a registered client that has
arrived named the open barrier, which is also the barrier name the registry
holds for it. -/
structure Hist.Inv (h : Hist) : Prop where
  below : ∀ c ∈ h.coord.clients, c.clientNumber < h.coord.theNextClientNumber
  nodup : (h.coord.clients.map fun c => c.clientNumber).Nodup
  arrivedBelow : ∀ p ∈ h.arrived, p.1 < h.coord.theNextClientNumber
  counted : h.coord.clients ≠ [] →
    h.coord.workersAtCurrentBarrier
      ≤ (h.coord.clients.countP fun c => decide (c.clientNumber ∈ h.arrived.map Prod.fst) : Nat)
  named : ∀ c ∈ h.coord.clients, ∀ n : String, (c.clientNumber, n) ∈ h.arrived →
    n = h.coord.currentBarrier ∧ c.barrier = h.coord.currentBarrier
      ∧ h.coord.currentBarrier ≠ ""

/-- The hello message of a restarting worker of the computation group
`(7, 41000, 5, 3)` that was checkpointed with `n` peers. -/
def restartHello (pid : Int) (n : Nat) : DmtcpMessage :=
  { DmtcpMessage.new .DMT_RESTART_WORKER with
    state := .RESTARTING, src := ⟨7, pid, 5, 0⟩, realPid := pid,
    compGroup := ⟨7, 41000, 5, 3⟩, numPeers := n }

/-- The state of a coordinator that was started, accepted two restarting
workers that both announced one peer, and received `DMT_BARRIER(x)` from
both. -/
def sampleRestartOver : Coord :=
  ((Hist.run (Hist.init ⟨false, false, false, "/tmp", 7779⟩)
      [.connect 50 11 2130706433 (restartHello 41000 1) [],
       .connect 51 12 2130706433 (restartHello 42000 1) [],
       .barrier 52 1 "x" .RESTARTING,
       .barrier 53 2 "x" .RESTARTING]).getD
    (Hist.init ⟨false, false, false, "/tmp", 7779⟩)).coord

/-- The state of a coordinator that was started, accepted three restarting
workers that announced three peers, and received `DMT_BARRIER(x)` from the
first two. -/
def sampleRestartWaiting : Coord :=
  ((Hist.run (Hist.init ⟨false, false, false, "/tmp", 7779⟩)
      [.connect 50 11 2130706433 (restartHello 41000 3) [],
       .connect 51 12 2130706433 (restartHello 42000 3) [],
       .connect 52 13 2130706433 (restartHello 43000 3) [],
       .barrier 53 1 "x" .RESTARTING,
       .barrier 54 2 "x" .RESTARTING]).getD
    (Hist.init ⟨false, false, false, "/tmp", 7779⟩)).coord

/-- The coordinator handles a list of events, one after the other, and stops at
the first one that halts it. -/
def runEvents : Coord → List Event → Except Halt Coord
  | s, [] => .ok s
  | s, e :: rest =>
    match step s e with
    | .ok s' => runEvents s' rest
    | .error h => .error h

/-- The hello message of a name-service connection. -/
def lookupHello : DmtcpMessage := DmtcpMessage.new .DMT_NAME_SERVICE_WORKER

/-- Two workers connect, with client numbers 1 and 2, then a name-service
connection, with client number 3, and client 1 sends `DMT_BARRIER` for the
barrier `x`. -/
def sampleLookupEvents : List Event :=
  [.connect 50 11 2130706433 (sampleHello 501) [],
   .connect 51 12 2130706433 (sampleHello 502) [],
   .connect 52 13 2130706433 lookupHello [],
   .barrier 53 1 "x" .RUNNING]

/-- The history after `sampleLookupEvents`. -/
def sampleLookupHist : Hist :=
  (Hist.run (Hist.init ⟨false, false, false, "/tmp", 7779⟩) sampleLookupEvents).getD
    (Hist.init ⟨false, false, false, "/tmp", 7779⟩)

/-- The state after client 2 also sends `DMT_BARRIER` for `x` in the history
`sampleLookupHist`. -/
def sampleLookupReleased : Coord :=
  ((step sampleLookupHist.coord (.barrier 54 2 "x" .RUNNING)).toOption).getD
    sampleLookupHist.coord

/-- A restarting worker that announces two peers connects, with client number
1, then a name-service connection, with client number 2, and the worker sends
`DMT_BARRIER` for the barrier `x`. -/
def sampleLookupRestart : List Event :=
  [.connect 50 11 2130706433 (restartHello 41000 2) [],
   .connect 51 12 2130706433 lookupHello [],
   .barrier 52 1 "x" .RESTARTING]

/-! ## The event loop on every kind of input -/

/-- What `eventLoop` reacts to when a registered client may send any message:
a connection with its hello message, a message `msg` (followed by the bytes
`extra`) on the socket of the client whose number is `client`, the hang-up of
a client, a command line typed on the terminal, and a checkpoint that the
interval timer has queued.  The clients of `data` and `disconnect` are the
registered workers.  (The event loop runs `onData` and `onDisconnect` on the
object of a name-service connection too; those rounds are not inputs here.
`Event` and `step` have them for `DMT_BARRIER` messages and hang-ups.) -/
inductive Input
  | connect (now : Int) (remote : Int) (remoteAddr : Int) (hello : DmtcpMessage)
      (extraData : List Char)
  | data (now : Int) (client : Int) (msg : DmtcpMessage) (extra : List Char)
  | disconnect (now : Int) (client : Int)
  | userCommand (now : Int) (cmd : String)
  | queuedCheckpoint (now : Int)
  deriving Repr

/-- The state in which a round of `eventLoop` starts: the logs `sent` and
`closed` are emptied, so that after the round they hold what the input made
the coordinator write and close. -/
def freshLogs (s : Coord) : Coord := { s with sent := [], closed := [] }

/-- One round of `eventLoop` for one input.  The client of a `data` or
`disconnect` input is looked up among the registered workers; an input that
names no registered worker stands for no round of the source and is passed
over. -/
def react (s : Coord) (i : Input) : Except Halt Coord :=
  match i with
  | .connect now remote remoteAddr hello extraData =>
    onConnect now remote remoteAddr hello extraData (freshLogs s)
  | .data now n msg extra =>
    match findClient n s with
    | some c => onData now c msg extra (freshLogs s)
    | none => .ok (freshLogs s)
  | .disconnect now n =>
    match findClient n s with
    | some c => onDisconnect now c (freshLogs s)
    | none => .ok (freshLogs s)
  | .userCommand now cmd =>
    if cmd ≠ "" then
      match handleUserCommand now cmd none (freshLogs s) with
      | .error h => .error h
      | .ok r => .ok r.2
    else .ok (freshLogs s)
  | .queuedCheckpoint now =>
    .ok (startCheckpoint now { freshLogs s with checkpointQueued := false }).2

/-- The coordinator handles a list of inputs, one after the other, and stops at
the first one that halts it. -/
def runInputs : Coord → List Input → Except Halt Coord
  | s, [] => .ok s
  | s, i :: rest =>
    match react s i with
    | .ok s' => runInputs s' rest
    | .error h => .error h

/-! ## Checkpoint file names -/

/-- The number of file names in one of the accumulators, summed over the host
names. -/
def countFilenames (acc : List (String × List String)) : Int :=
  ((acc.map fun p => p.2.length).sum : Nat)

/-- The number of file names stored in `_restartFilenames`, `_rshCmdFileNames`
and `_sshCmdFileNames` together. -/
def storedFilenames (s : Coord) : Int :=
  countFilenames s.restartFilenames + countFilenames s.rshCmdFileNames
    + countFilenames s.sshCmdFileNames

/-- The shell type that `recordCkptFilename` reads in the extra bytes: the
second of the three strings. -/
def shellTypeOf (extraData : List Char) : String :=
  cstrAt extraData ((cstrAt extraData 0).length + 1)

/-- Whether the input is a checkpoint file name (`DMT_CKPT_FILENAME` or
`DMT_UNIQUE_CKPT_FILENAME`) from a client that is registered in `s`. -/
def Input.isFilename (s : Coord) : Input → Bool
  | .data _ n msg _ =>
    (findClient n s).isSome
      && (decide (msg.type = .DMT_CKPT_FILENAME) || decide (msg.type = .DMT_UNIQUE_CKPT_FILENAME))
  | _ => false

/-- The inputs that the coordinator handles while a checkpoint is in progress,
that is, while `workersRunningAndSuspendMsgSent` stays true: the state reached
and the number of checkpoint file names among the inputs.  The result is `none`
when an input halts the coordinator or leaves the flag false. -/
def runCheckpoint : Coord → List Input → Option (Coord × Int)
  | s, [] => some (s, 0)
  | s, i :: rest =>
    match react s i with
    | .ok s' =>
      if s'.workersRunningAndSuspendMsgSent = true then
        (runCheckpoint s' rest).map fun r => (r.1, r.2 + (if i.isFilename s then 1 else 0))
      else none
    | .error _ => none

/-- A handler that took the coordinator from `s` to `s'` completed a checkpoint:
the restart script was written from the accumulators, `Ckpt-Complete` is the
last event recorded, the flag is cleared and the counters are back at zero. -/
def completed (s s' : Coord) : Prop :=
  s'.scripts = s.scripts ++ [(s'.restartFilenames, s'.rshCmdFileNames, s'.sshCmdFileNames)]
    ∧ s'.events = s.events ++ [(s.eventId + 1, "Ckpt-Complete")]
    ∧ s'.workersRunningAndSuspendMsgSent = false
    ∧ s'.numRestartFilenames = 0 ∧ s'.numCkptWorkers = 0
    ∧ s'.killAfterCkptOnce = false

/-- A handler that took the coordinator from `s` to `s'` counted a file name
without completing a checkpoint: no script, no event, the flag, the number of
checkpoint workers and `killAfterCkptOnce` as they were. -/
def recorded (s s' : Coord) : Prop :=
  s'.scripts = s.scripts ∧ s'.events = s.events
    ∧ s'.workersRunningAndSuspendMsgSent = s.workersRunningAndSuspendMsgSent
    ∧ s'.numRestartFilenames = s.numRestartFilenames + 1
    ∧ s'.numCkptWorkers = s.numCkptWorkers
    ∧ s'.killAfterCkptOnce = s.killAfterCkptOnce

/-- The message with which a worker in state `CHECKPOINTED` reports a
checkpoint file name; `n` is the number of extra bytes. -/
def filenameMsg (type : DmtcpMessageType) (n : Nat) : DmtcpMessage :=
  { DmtcpMessage.new type with state := .CHECKPOINTED, extraBytes := n }

/-- The extra bytes of a file-name message: file name, shell type and host
name, each ended by a NUL. -/
def filenameBytes (file shell host : String) : List Char :=
  c_str file ++ c_str shell ++ c_str host

/-- The flags of the sample runs. -/
def sampleFlags : CoordFlags := ⟨false, false, false, "/tmp", 7779⟩

/-- The state a run of the sample coordinator ends in (the initial state when
the run halts). -/
def sampleRun (ins : List Input) : Coord :=
  match runInputs (Coord.init sampleFlags) ins with
  | .ok s => s
  | .error _ => Coord.init sampleFlags

/-- The solo checkpoint of the spec (section 8, scenario 1): worker A connects,
the command `c` is typed, A passes the three checkpoint barriers and reports
its checkpoint file. -/
def soloCheckpoint : List Input :=
  [.connect 50 11 2130706433 (sampleHello 501) [],
   .userCommand 51 "c",
   .data 52 1 (barrierMsg "DMT:SUSPEND" .PRESUSPEND) [],
   .data 53 1 (barrierMsg "DMT:CHECKPOINT" .SUSPENDED) [],
   .data 54 1 (barrierMsg "DMT:WriteCkpt" .CHECKPOINTED) [],
   .data 55 1 (filenameMsg .DMT_CKPT_FILENAME 25)
     (filenameBytes "/tmp/ckpt_A.dmtcp" "" "hostA")]

/-- A checkpoint that a second worker joins: worker A connects, the command `c`
is typed, worker B connects (a child of A, say) and is sent
`DMT_DO_CHECKPOINT` too, both pass the three barriers, and A reports its
checkpoint file. -/
def joinedCheckpoint : List Input :=
  [.connect 50 11 2130706433 (sampleHello 501) [],
   .userCommand 51 "c",
   .connect 52 12 2130706433 (sampleHello 502) [],
   .data 53 1 (barrierMsg "DMT:SUSPEND" .PRESUSPEND) [],
   .data 54 2 (barrierMsg "DMT:SUSPEND" .PRESUSPEND) [],
   .data 55 1 (barrierMsg "DMT:CHECKPOINT" .SUSPENDED) [],
   .data 56 2 (barrierMsg "DMT:CHECKPOINT" .SUSPENDED) [],
   .data 57 1 (barrierMsg "DMT:WriteCkpt" .CHECKPOINTED) [],
   .data 58 2 (barrierMsg "DMT:WriteCkpt" .CHECKPOINTED) [],
   .data 59 1 (filenameMsg .DMT_CKPT_FILENAME 25)
     (filenameBytes "/tmp/ckpt_A.dmtcp" "" "hostA")]

/-- The file name that worker B reports after `joinedCheckpoint`. -/
def joinedLast : Input :=
  .data 60 2 (filenameMsg .DMT_CKPT_FILENAME 25) (filenameBytes "/tmp/ckpt_B.dmtcp" "" "hostA")

/-! ## Connections while the computation is being killed -/

/-- A worker connects and the command `k` is typed: the kill message is
broadcast and `killInProgress` is set. -/
def sampleKilling : Coord :=
  sampleRun [.connect 50 11 2130706433 (sampleHello 501) [], .userCommand 51 "k"]

/-- The hello message of a `dmtcp_command` that asks for the status. -/
def statusHello : DmtcpMessage :=
  { DmtcpMessage.new .DMT_USER_CMD with coordCmd := 's'.toNat }

/-! ## The virtual-pid allocator -/

/-- Spec wording: the candidate that follows `pid` in the cyclic candidate
sequence: it advances by `VIRTUAL_PID_STEP` and wraps back to
`INITIAL_VIRTUAL_PID` once it passes `MAX_VIRTUAL_PID`. -/
def nextCandidate (pid : Int) : Int :=
  if pid + VIRTUAL_PID_STEP > MAX_VIRTUAL_PID then INITIAL_VIRTUAL_PID
  else pid + VIRTUAL_PID_STEP

/-- Spec wording: the `k`-th element of the cyclic candidate sequence that
starts at `cursor`. -/
def candidate (cursor : Int) : Nat → Int
  | 0 => cursor
  | k + 1 => nextCandidate (candidate cursor k)

/-- The keys of the virtual-pid map. -/
def mapKeys (m : List (Int × Int)) : List Int := m.map Prod.fst

/-- The values the cursor `_nextVirtualPid` takes: `INITIAL_VIRTUAL_PID` plus a
multiple of `VIRTUAL_PID_STEP`, up to `MAX_VIRTUAL_PID`, which is included. -/
@[reducible]
def isCandidate (pid : Int) : Prop :=
  INITIAL_VIRTUAL_PID ≤ pid ∧ pid ≤ MAX_VIRTUAL_PID
    ∧ (pid - INITIAL_VIRTUAL_PID) % VIRTUAL_PID_STEP = 0

/-- The number of values the cursor takes: 961. -/
def numCandidates : Nat :=
  ((MAX_VIRTUAL_PID - INITIAL_VIRTUAL_PID) / VIRTUAL_PID_STEP).toNat + 1

/-- A virtual-pid map in which every candidate is taken: 961 workers, numbered
from 1, hold the pids 40000, 41000, ..., 1000000. -/
def saturatedMap : List (Int × Int) :=
  (List.range numCandidates).map fun k : Nat =>
    (INITIAL_VIRTUAL_PID + VIRTUAL_PID_STEP * (k : Int), (k : Int) + 1)

/-- A coordinator whose virtual-pid map is `saturatedMap`. -/
def sampleSaturated : Coord :=
  { Coord.init sampleFlags with
    virtualPidToClientMap := saturatedMap
    theNextClientNumber := 962 }

/-- A worker connects and hangs up, `n` times over: every connection is given
the next candidate, whether or not the earlier workers are still there. -/
def churn (n : Nat) : List Input :=
  (List.range n).flatMap fun k : Nat =>
    [.connect 50 11 2130706433 (sampleHello 501) [], .disconnect 51 ((k : Int) + 1)]

/-- Whether the input, if it is the hello message of a restarting worker,
carries a pid (`hello.from.pid`) that no registered client has as its virtual
pid. -/
def Input.freshPid (s : Coord) : Input → Bool
  | .connect _ _ _ hello _ =>
    decide (hello.type = .DMT_RESTART_WORKER → hello.src.pid ∉ s.clients.map fun c => c.virtualPid)
  | _ => true

/-- The state reached by a list of inputs when every restarting worker brings
a pid that is fresh at the moment it connects and no input halts the
coordinator; `none` otherwise. -/
def runFresh : Coord → List Input → Option Coord
  | s, [] => some s
  | s, i :: rest =>
    if i.freshPid s then
      match react s i with
      | .ok s' => runFresh s' rest
      | .error _ => none
    else none

/-! ## Restarting workers of another computation -/

/-- The hello message of a restarting worker of another computation group. -/
def foreignHello : DmtcpMessage :=
  { restartHello 45000 1 with compGroup := ⟨9, 40000, 6, 1⟩ }

/-- A restarting worker is accepted, passes the restart barrier and resumes:
the computation is RUNNING. -/
def sampleRestarted : Coord :=
  sampleRun
    [.connect 50 11 2130706433 (restartHello 41000 1) [],
     .data 51 1 (barrierMsg "DMT:Restart" .RESTARTING) [],
     .data 52 1 { DmtcpMessage.new .DMT_WORKER_RESUMING with state := .RUNNING } []]

/-- A restarting worker is accepted and is waiting for its peer: the
computation is RESTARTING. -/
def sampleRestarting : Coord :=
  sampleRun [.connect 50 11 2130706433 (restartHello 41000 2) []]

/-! ## Frames for the registry, the allocator and the checkpoint books -/

/-- A handler that took the coordinator from `s` to `s'` left the registry, the
virtual-pid map and the checkpoint books alone: the accumulators of file names,
their counter, the scripts written and `workersRunningAndSuspendMsgSent` are
what they were, and the allocator cursor is still a candidate if it was one. -/
structure Aside (s s' : Coord) : Prop where
  clients : s'.clients = s.clients
  map : s'.virtualPidToClientMap = s.virtualPidToClientMap
  restart : s'.restartFilenames = s.restartFilenames
  rsh : s'.rshCmdFileNames = s.rshCmdFileNames
  ssh : s'.sshCmdFileNames = s.sshCmdFileNames
  count : s'.numRestartFilenames = s.numRestartFilenames
  scripts : s'.scripts = s.scripts
  flag : s'.workersRunningAndSuspendMsgSent = s.workersRunningAndSuspendMsgSent
  cursor : isCandidate s.nextVirtualPid → isCandidate s'.nextVirtualPid

/-- A handler that took the coordinator from `s` to `s'` started a checkpoint:
the flag was false and is true, the accumulators are empty and their counter is
zero; the registry, the map, the scripts and the cursor are what they were. -/
structure Started (s s' : Coord) : Prop where
  clients : s'.clients = s.clients
  map : s'.virtualPidToClientMap = s.virtualPidToClientMap
  restart : s'.restartFilenames = []
  rsh : s'.rshCmdFileNames = []
  ssh : s'.sshCmdFileNames = []
  count : s'.numRestartFilenames = 0
  scripts : s'.scripts = s.scripts
  before : s.workersRunningAndSuspendMsgSent = false
  flag : s'.workersRunningAndSuspendMsgSent = true
  cursor : isCandidate s.nextVirtualPid → isCandidate s'.nextVirtualPid

/-- A handler that took the coordinator from `s` to `s'` left the checkpoint
books alone, except that it may have cleared
`workersRunningAndSuspendMsgSent` (as `initializeComputation` does). -/
structure Settled (s s' : Coord) : Prop where
  restart : s'.restartFilenames = s.restartFilenames
  rsh : s'.rshCmdFileNames = s.rshCmdFileNames
  ssh : s'.sshCmdFileNames = s.sshCmdFileNames
  count : s'.numRestartFilenames = s.numRestartFilenames
  scripts : s'.scripts = s.scripts
  flag : s'.workersRunningAndSuspendMsgSent = s.workersRunningAndSuspendMsgSent
    ∨ s'.workersRunningAndSuspendMsgSent = false
  cursor : isCandidate s.nextVirtualPid → isCandidate s'.nextVirtualPid

/-- The virtual pids of the registered clients, in registry order. -/
def registryPids (s : Coord) : List Int := s.clients.map fun c => c.virtualPid

/-- A handler that took the coordinator from `s` to `s'` kept the virtual pids
of the registry and the virtual-pid map. -/
def RegistryKept (s s' : Coord) : Prop :=
  registryPids s' = registryPids s ∧ s'.virtualPidToClientMap = s.virtualPidToClientMap

/-- A handler that took the coordinator from `s` to `s'` removed one registered
client, and its virtual pid from the map. -/
def RegistryErased (s s' : Coord) : Prop :=
  ∃ (l : List CoordClient) (c : CoordClient),
    (l.map fun x => x.virtualPid) = registryPids s ∧ c ∈ l
      ∧ s'.clients = eraseClient c l
      ∧ s'.virtualPidToClientMap = mapErase c.virtualPid s.virtualPidToClientMap

/-- A handler that took the coordinator from `s` to `s'` registered the client
`c`: it is the last entry of the registry and its virtual pid is in the map. -/
def RegistryAdded (s s' : Coord) (c : CoordClient) : Prop :=
  s'.clients = s.clients ++ [c]
    ∧ s'.virtualPidToClientMap
        = mapInsert c.virtualPid c.clientNumber s.virtualPidToClientMap

/-- Where the virtual pid `pid` of a client that the input `i` made the
coordinator register in state `s` comes from: a restarting worker brings its
own (`hello.from.pid`); a new worker is given one by `getNewVirtualPid`, which
is not a key of the map and is a candidate if the cursor is one. -/
def Input.brings (s : Coord) (i : Input) (pid : Int) : Prop :=
  match i with
  | .connect _ _ _ hello _ =>
    (hello.type = .DMT_RESTART_WORKER ∧ pid = hello.src.pid)
      ∨ (hello.type = .DMT_NEW_WORKER ∧ pid ∉ mapKeys s.virtualPidToClientMap
          ∧ (isCandidate s.nextVirtualPid → isCandidate pid))
  | _ => False

/-- The invariant of the registry and the virtual-pid map: the registered
clients have pairwise distinct virtual pids, and each of these is a key of the
map. -/
def PidInv (s : Coord) : Prop :=
  (registryPids s).Nodup ∧ ∀ p ∈ registryPids s, p ∈ mapKeys s.virtualPidToClientMap

/-- The invariant of the checkpoint books: the counter of file names is never
negative and never above the number of names stored, and it equals that number
while a checkpoint is in progress and as long as no restart script has been
written. -/
def Accounted (s : Coord) : Prop :=
  0 ≤ s.numRestartFilenames ∧ s.numRestartFilenames ≤ storedFilenames s
    ∧ ((s.workersRunningAndSuspendMsgSent = true ∨ s.scripts = []) →
        storedFilenames s = s.numRestartFilenames)

/-- Two restarting workers of the same computation whose hello messages carry
the same pid. -/
def twinRestart : List Input :=
  [.connect 50 11 2130706433 (restartHello 41000 2) [],
   .connect 51 12 2130706433 (restartHello 41000 2) []]

/-- A coordinator whose cursor stands at `MAX_VIRTUAL_PID` while the pids
1000000 and 40000 are taken. -/
def sampleWrapping : Coord :=
  { Coord.init sampleFlags with
    nextVirtualPid := 1000000
    virtualPidToClientMap := [(1000000, 1), (40000, 2)]
    theNextClientNumber := 3 }

/-- The checkpoint of `joinedCheckpoint` seen from its `startCheckpoint`: worker
A is registered, `startCheckpoint` is called, and the inputs that follow the
command `c` are handled.  The result is the state reached together with the
number of file names received since `startCheckpoint`, as `runCheckpoint`
returns them. -/
def sampleJoined : Coord × Int :=
  match runCheckpoint (startCheckpoint 51 (sampleRun (joinedCheckpoint.take 1))).2
      (joinedCheckpoint.drop 2) with
  | some r => r
  | none => (Coord.init sampleFlags, 0)

/-- A restarting worker is accepted and hangs up: the registry is empty again
and `compId` is still the group of that worker. -/
def sampleDeparted : Coord :=
  sampleRun [.connect 50 11 2130706433 (restartHello 41000 1) [], .disconnect 51 1]

/-- A registry of three workers in the states SUSPENDED, RUNNING and
CHECKPOINTED, in this order. -/
def sampleMixed : Coord :=
  sampleAtBarrier 0
    [sampleClient 1 .SUSPENDED "x", sampleClient 2 .RUNNING "", sampleClient 3 .CHECKPOINTED ""] 1

/-! ## Command lines typed on the terminal -/

/-- The test `std::isspace` of the "C" locale: space, horizontal tab (9),
newline (10), vertical tab (11), form feed (12) and carriage return (13). -/
def isspace (c : Char) : Bool :=
  c = ' ' || c = Char.ofNat 9 || c = Char.ofNat 10 || c = Char.ofNat 11 || c = Char.ofNat 12
    || c = Char.ofNat 13

/-- The loop of `ltrim` from the iterator `i` on, given the characters from `i`
to the end of the string: at the first character that is not whitespace the
characters before `i` are erased, which leaves the characters from `i` on, and
the loop is left (`some`); when the iterator reaches `s.end()` nothing was
erased (`none`). -/
def ltrimLoop : List Char → Option (List Char)
  | [] => none
  | c :: rest => if ¬ isspace c then some (c :: rest) else ltrimLoop rest

/-- Source function `ltrim`: the string as the call leaves it. -/
def ltrim (s : String) : String :=
  match ltrimLoop s.toList with
  | some r => String.mk r
  | none => s

/-- The function `std::tolower` of the "C" locale on an `unsigned char`: the
letters `A` to `Z` become `a` to `z`. -/
def tolower (c : Char) : Char :=
  if 65 ≤ c.toNat ∧ c.toNat ≤ 90 then Char.ofNat (c.toNat + 32) else c

/-- The command that the stdin branch of `eventLoop` makes of a line that
`getline` has read: every character through `std::tolower`, then `ltrim`. -/
def stdinCommand (line : String) : String := ltrim (String.mk (line.toList.map tolower))

/-- The stdin branch of `eventLoop` for a line that was read before the end of
the input: the command is passed to `handleUserCommand` unless it is empty. -/
def stdinLine (now : Int) (line : String) (s : Coord) : Except Halt Coord :=
  if stdinCommand line ≠ "" then
    match handleUserCommand now (stdinCommand line) none s with
    | .error h => .error h
    | .ok r => .ok r.2
  else .ok s

/-! ## Commands from `dmtcp_command` -/

/-- The hello message of a `dmtcp_command` that carries the command character
`c`. -/
def commandHello (c : Char) : DmtcpMessage :=
  { DmtcpMessage.new .DMT_USER_CMD with coordCmd := c.toNat }

/-- A blocking checkpoint asked for over command sockets: worker A connects; a
`dmtcp_command` sends the blocking prefix `b` on socket 20 and another sends
`c` on socket 21; A passes the three checkpoint barriers and reports its
checkpoint file. -/
def socketBlockingCheckpoint : List Input :=
  [.connect 50 11 2130706433 (sampleHello 501) [],
   .connect 51 20 2130706433 (commandHello 'b') [],
   .connect 52 21 2130706433 (commandHello 'c') [],
   .data 53 1 (barrierMsg "DMT:SUSPEND" .PRESUSPEND) [],
   .data 54 1 (barrierMsg "DMT:CHECKPOINT" .SUSPENDED) [],
   .data 55 1 (barrierMsg "DMT:WriteCkpt" .CHECKPOINTED) [],
   .data 56 1 (filenameMsg .DMT_CKPT_FILENAME 25)
     (filenameBytes "/tmp/ckpt_A.dmtcp" "" "hostA")]

/-- A checkpoint command that is refused, and a plain checkpoint later: a
restarting worker is accepted and the line `cmd` is typed while it is
RESTARTING; the worker passes the restart barrier and resumes; then the line
`c` is typed. -/
def refusedThenPlain (cmd : String) : List Input :=
  [.connect 50 11 2130706433 (restartHello 41000 1) [],
   .userCommand 51 cmd,
   .data 52 1 (barrierMsg "DMT:Restart" .RESTARTING) [],
   .data 53 1 { DmtcpMessage.new .DMT_WORKER_RESUMING with state := .RUNNING } [],
   .userCommand 54 "c"]

/-- What was written in the last round of the event loop: socket, kind of
message, command status and `exitAfterCkpt`. -/
def writes (s : Coord) : List (Int × DmtcpMessageType × Int × Bool) :=
  s.sent.map fun m => (m.sock, m.msg.type, m.msg.coordCmdStatus, m.msg.exitAfterCkpt)

/-- A plain checkpoint asked for over a command socket after a refused `bc`:
the first four inputs of `refusedThenPlain "bc"`, then a `dmtcp_command` sends
`c` on socket 21, the worker passes the three checkpoint barriers and reports
its checkpoint file. -/
def heldCheckpoint : List Input :=
  (refusedThenPlain "bc").take 4 ++
    [.connect 55 21 2130706433 (commandHello 'c') [],
     .data 56 1 (barrierMsg "DMT:SUSPEND" .PRESUSPEND) [],
     .data 57 1 (barrierMsg "DMT:CHECKPOINT" .SUSPENDED) [],
     .data 58 1 (barrierMsg "DMT:WriteCkpt" .CHECKPOINTED) [],
     .data 59 1 (filenameMsg .DMT_CKPT_FILENAME 25)
       (filenameBytes "/tmp/ckpt_A.dmtcp" "" "hostA")]

/-! ## The barrier counter -/

/-- Two workers connect, client 1 sends `DMT_BARRIER(x)`, the command `cmd` is
typed, and client 1 hangs up. -/
def departAfterCommand (cmd : String) : List Input :=
  [.connect 50 11 2130706433 (sampleHello 501) [],
   .connect 51 12 2130706433 (sampleHello 502) [],
   .data 52 1 (barrierMsg "x" .RUNNING) [],
   .userCommand 53 cmd,
   .disconnect 54 1]

/-- A restarting worker that announces two peers is accepted and sends
`DMT_BARRIER(x)`: the release waits for its peer. -/
def loneRestart : List Input :=
  [.connect 50 11 2130706433 (restartHello 41000 2) [],
   .data 51 1 (barrierMsg "x" .RESTARTING) []]

/-! ## New workers while a checkpoint is in progress -/

/-- The solo checkpoint up to the release of the barrier `DMT:CHECKPOINT`:
worker A, the only registered worker, is SUSPENDED and
`workersRunningAndSuspendMsgSent` is true. -/
def sampleSuspended : Coord := sampleRun (soloCheckpoint.take 4)

/-- A checkpoint was started for worker A. -/
def sampleStarted : Coord := sampleRun (soloCheckpoint.take 2)

/-! ## Messages that meet an assertion -/

/-- The three C strings that `recordCkptFilename` reads from the trailing bytes
`d` all end inside `d`: the file name at position 0, the shell type after it
and the host name after the shell type. -/
def threeStrings (d : List Char) : Prop :=
  terminated d 0
    ∧ terminated d ((cstrAt d 0).length + 1)
    ∧ terminated d ((shellTypeOf d).length + 1 + (cstrAt d 0).length + 1)

/-- The messages from the registered client `client` that `onData` handles in
state `s` without meeting one of the assertions on its way and without reading
outside the buffer of the trailing bytes.  The trailing bytes that the header
announces are all on the socket (`readAll` waits for them).  A `DMT_BARRIER`
names the open barrier, if one is open; a checkpoint file name has trailing
bytes that hold three NUL-terminated strings, the second of which is one of the
shell types "", "rsh", "ssh"; `DMT_UPDATE_CKPT_DIR` has trailing bytes that
hold a NUL-terminated string; `DMT_UPDATE_PROCESS_INFO_AFTER_INIT_OR_EXEC` has
trailing bytes that hold a NUL-terminated string and, while a checkpoint is in
progress, does not leave SUSPENDED as the minimum state of the registry.
Every other message whose trailing bytes are on the socket qualifies. -/
def Tolerated (s : Coord) (client : CoordClient) (msg : DmtcpMessage) (extra : List Char) :
    Prop :=
  msg.extraBytes ≤ extra.length
    ∧ match msg.type with
      | .DMT_BARRIER => s.currentBarrier = "" ∨ msg.barrier = s.currentBarrier
      | .DMT_CKPT_FILENAME | .DMT_UNIQUE_CKPT_FILENAME =>
        msg.extraBytes > 0
          ∧ threeStrings (extra.take msg.extraBytes)
          ∧ (shellTypeOf (extra.take msg.extraBytes) = ""
              ∨ shellTypeOf (extra.take msg.extraBytes) = "rsh"
              ∨ shellTypeOf (extra.take msg.extraBytes) = "ssh")
      | .DMT_UPDATE_CKPT_DIR => msg.extraBytes > 0 ∧ terminated (extra.take msg.extraBytes) 0
      | .DMT_UPDATE_PROCESS_INFO_AFTER_INIT_OR_EXEC =>
        msg.extraBytes > 0
          ∧ terminated (extra.take msg.extraBytes) 0
          ∧ (s.workersRunningAndSuspendMsgSent = true →
              minimumState
                  { s with
                    clients := updateClient client { client with state := msg.state } s.clients }
                ≠ WorkerState.SUSPENDED)
      | _ => True

/-- Two workers are registered and client 1 has sent `DMT_BARRIER(x)`. -/
def sampleWaiting : Coord :=
  sampleRun
    [.connect 50 11 2130706433 (sampleHello 501) [],
     .connect 51 12 2130706433 (sampleHello 502) [],
     .data 52 1 (barrierMsg "x" .RUNNING) []]

/-- The second worker of `sampleWaiting` as the registry holds it. -/
def secondClient : CoordClient :=
  { sock := 12, clientNumber := 2, identity := ⟨7, 502, 5, 0⟩, realPid := 502,
    virtualPid := 41000, hostname := "", progname := "", ip := 2130706433,
    state := .RUNNING, barrier := "", isNSWorker := false }

/-- The message with which a worker reports its program name after `exec`,
sent in state `st`; `n` is the number of extra bytes. -/
def execMsg (st : WorkerState) (n : Nat) : DmtcpMessage :=
  { DmtcpMessage.new .DMT_UPDATE_PROCESS_INFO_AFTER_INIT_OR_EXEC with state := st, extraBytes := n }

/-! ## The flag `killInProgress` -/

/-- The invariant of `killInProgress`: while it is true, a client is
registered. -/
def KillInv (s : Coord) : Prop := s.killInProgress = true → s.clients ≠ []

/-- A handler that took the coordinator from `s` to `s'` left the size of the
registry as it was and did not set `killInProgress` on an empty registry. -/
structure Hushed (s s' : Coord) : Prop where
  size : s'.clients.length = s.clients.length
  kill : s'.killInProgress = true → s.killInProgress = true ∨ s.clients ≠ []

/-- A coordinator in a checkpoint whose 961 registered workers hold all the
candidates of the allocator: the virtual-pid map is `saturatedMap`. -/
def sampleFull : Coord :=
  { sampleSaturated with
    workersRunningAndSuspendMsgSent := true
    compId := ⟨7, 40000, 5, 1⟩
    clients := (List.range numCandidates).map fun k : Nat =>
      { sampleClient ((k : Int) + 1) .RUNNING "" with
        virtualPid := INITIAL_VIRTUAL_PID + VIRTUAL_PID_STEP * (k : Int) } }

/-! ## The state aggregator -/

theorem getStatusLoop_count (l : List CoordClient) (m M k : Int) (u : Bool) :
    (getStatusLoop l m M k u).2.2.1 = k + l.length := by
  induction l generalizing m M k u with
  | nil => simp [getStatusLoop]
  | cons c rest ih =>
    simp only [getStatusLoop, ih, List.length_cons]
    push_cast
    ring

theorem getStatus_numPeers (s : Coord) : (getStatus s).numPeers = s.clients.length := by
  simp [getStatus, getStatusLoop_count]

theorem getStatusLoop_min_zero (l : List CoordClient) (M k : Int) (u : Bool) :
    (getStatusLoop l 0 M k u).1 = 0 := by
  induction l generalizing M k u with
  | nil => simp [getStatusLoop]
  | cons c rest ih =>
    have h : ¬ c.state.toInt < 0 := by cases c.state <;> simp [WorkerState.toInt]
    simp only [getStatusLoop, h, if_false]
    exact ih _ _ _

theorem getStatusLoop_unanimous_false (l : List CoordClient) (m M k : Int) :
    (getStatusLoop l m M k false).2.2.2 = false := by
  induction l generalizing m M k with
  | nil => simp [getStatusLoop]
  | cons c rest ih =>
    simp only [getStatusLoop, Bool.false_and]
    exact ih _ _ _

theorem getStatusLoop_running (l : List CoordClient) (M k : Int) (u : Bool) :
    ((getStatusLoop l 1 M k u).1 = 1 ∧ (getStatusLoop l 1 M k u).2.2.2 = true)
      ↔ (u = true ∧ ∀ c ∈ l, c.state = WorkerState.RUNNING) := by
  induction l generalizing M k u with
  | nil => simp [getStatusLoop]
  | cons c rest ih =>
    cases hc : c.state <;>
      simp [getStatusLoop, hc, WorkerState.toInt, WorkerState.MAX, ih,
        getStatusLoop_min_zero, getStatusLoop_unanimous_false]

theorem getStatusLoop_above (l : List CoordClient) (m M k : Int) (u : Bool)
    (h2 : 2 ≤ m) (h6 : m ≤ 6) :
    ¬ ((getStatusLoop l m M k u).1 = 1 ∧ (getStatusLoop l m M k u).2.2.2 = true) := by
  induction l generalizing m M k u with
  | nil =>
    simp only [getStatusLoop]
    omega
  | cons c rest ih =>
    simp only [getStatusLoop]
    by_cases hc : m = c.state.toInt
    · have hlt : ¬ c.state.toInt < m := by omega
      simp only [hlt, if_false]
      exact ih _ _ _ _ h2 h6
    · have hb : (m == c.state.toInt || m == WorkerState.MAX) = false := by
        simp [hc, WorkerState.MAX]
        omega
      rw [hb, Bool.and_false]
      intro h
      rw [getStatusLoop_unanimous_false] at h
      exact Bool.noConfusion h.2

theorem getStatusLoop_above_false (l : List CoordClient) (m M k : Int) (u : Bool)
    (h2 : 2 ≤ m) (h6 : m ≤ 6) (h : (getStatusLoop l m M k u).1 = 1) :
    (getStatusLoop l m M k u).2.2.2 = false := by
  cases hu : (getStatusLoop l m M k u).2.2.2
  · rfl
  · exact absurd ⟨h, hu⟩ (getStatusLoop_above l m M k u h2 h6)

theorem WorkerState.ofInt_eq_running (n : Int) :
    WorkerState.ofInt n = WorkerState.RUNNING ↔ n = 1 := by
  unfold WorkerState.ofInt
  constructor
  · intro h
    by_contra hn
    rw [if_neg hn] at h
    split_ifs at h
  · intro h
    simp [h]

/-- The aggregate is unanimously RUNNING exactly for a registry that is not
empty and holds only RUNNING clients. -/
theorem getStatus_running_iff (s : Coord) :
    ((getStatus s).minimumState = WorkerState.RUNNING
        ∧ (getStatus s).minimumStateUnanimous = true)
      ↔ (s.clients ≠ [] ∧ ∀ c ∈ s.clients, c.state = WorkerState.RUNNING) := by
  have key : ∀ l : List CoordClient,
      ((getStatusLoop l WorkerState.MAX 0 0 true).1 = 1
          ∧ (getStatusLoop l WorkerState.MAX 0 0 true).2.2.2 = true)
        ↔ (l ≠ [] ∧ ∀ c ∈ l, c.state = WorkerState.RUNNING) := by
    intro l
    cases l with
    | nil => simp [getStatusLoop, WorkerState.MAX]
    | cons c rest =>
      cases hc : c.state
      case RUNNING =>
        simp [getStatusLoop, hc, WorkerState.toInt, WorkerState.MAX, getStatusLoop_running]
      case UNKNOWN =>
        simp [getStatusLoop, hc, WorkerState.toInt, WorkerState.MAX, getStatusLoop_min_zero]
      all_goals
        simp only [getStatusLoop, hc, WorkerState.toInt, WorkerState.MAX]
        simp only [List.mem_cons, forall_eq_or_imp, hc]
        simp
        exact fun h1 => getStatusLoop_above_false _ _ _ _ _ (by norm_num) (by norm_num) h1
  have hk := key s.clients
  unfold getStatus
  simp only
  generalize hr : getStatusLoop s.clients WorkerState.MAX WorkerState.UNKNOWN.toInt 0 true = r at *
  obtain ⟨mn, mx, cnt, un⟩ := r
  have hr0 : getStatusLoop s.clients WorkerState.MAX 0 0 true = (mn, mx, cnt, un) := by
    simpa [WorkerState.toInt] using hr
  rw [hr0] at hk
  simp only at hk
  rw [← hk]
  by_cases h7 : mn = WorkerState.MAX
  · subst h7
    simp [WorkerState.MAX]
  · by_cases h1 : mn = 1
    · subst h1
      simp [WorkerState.MAX, WorkerState.ofInt]
    · have : WorkerState.ofInt mn ≠ WorkerState.RUNNING := by
        rw [Ne, WorkerState.ofInt_eq_running]
        exact h1
      simp [h7, h1, this]

/-! ## The checkpoint orchestrator -/

theorem broadcastLoop_eq (msg : DmtcpMessage) (n : Nat) (d : List Char)
    (l : List CoordClient) (s : Coord) :
    broadcastLoop msg n d l s
      = { s with sent := s.sent
            ++ l.map fun c => ⟨c.sock, msg, if n > 0 then d.take n else []⟩ } := by
  induction l generalizing s with
  | nil => simp [broadcastLoop]
  | cons c rest ih => simp [broadcastLoop, ih, send, List.append_assoc]

theorem broadcastMessage_eq (type : DmtcpMessageType) (n : Nat) (d : List Char) (s : Coord) :
    broadcastMessage type n d s
      = { s with
          killInProgress :=
            if type = .DMT_KILL_PEER ∧ s.clients.length > 0 then true else s.killInProgress
          sent := s.sent ++ s.clients.map fun c =>
            ⟨c.sock, broadcastHeader type n s, if n > 0 then d.take n else []⟩
          workersAtCurrentBarrier := 0 } := by
  unfold broadcastMessage
  simp only [broadcastLoop_eq]
  split_ifs <;> rfl

theorem startCheckpoint_fst_iff (now : Int) (s : Coord) :
    (startCheckpoint now s).1 = true
      ↔ ((getStatus s).minimumState = WorkerState.RUNNING
          ∧ (getStatus s).minimumStateUnanimous = true
          ∧ s.workersRunningAndSuspendMsgSent = false) := by
  unfold startCheckpoint
  simp only
  split_ifs with hc
  · simp [hc]
  · simp only [Bool.false_eq_true, false_iff]
    exact hc

/-- C1.  The function `startCheckpoint` returns true exactly when the registry
is not empty, every registered client is RUNNING and
`workersRunningAndSuspendMsgSent` is false; the first two conditions say the
same as: the aggregate status has `numPeers > 0`, `minimumState == RUNNING` and
is unanimous.  In every other state the result is false. -/
theorem startCheckpoint_true_iff (now : Int) (s : Coord) :
    ((startCheckpoint now s).1 = true
        ↔ (s.clients ≠ [] ∧ (∀ c ∈ s.clients, c.state = WorkerState.RUNNING)
            ∧ s.workersRunningAndSuspendMsgSent = false))
      ∧ ((startCheckpoint now s).1 = true
        ↔ ((getStatus s).numPeers > 0 ∧ (getStatus s).minimumState = WorkerState.RUNNING
            ∧ (getStatus s).minimumStateUnanimous = true
            ∧ s.workersRunningAndSuspendMsgSent = false))
      ∧ ((startCheckpoint now s).1 = false
        ↔ ¬ (s.clients ≠ [] ∧ (∀ c ∈ s.clients, c.state = WorkerState.RUNNING)
            ∧ s.workersRunningAndSuspendMsgSent = false)) := by
  have h := getStatus_running_iff s
  have hn : (getStatus s).numPeers > 0 ↔ s.clients ≠ [] := by
    rw [getStatus_numPeers]
    cases s.clients <;> simp
  have h1 := startCheckpoint_fst_iff now s
  refine ⟨?_, ?_, ?_⟩
  · rw [h1, ← and_assoc, h, and_assoc]
  · rw [h1, hn, ← and_assoc (a := (getStatus s).minimumState = WorkerState.RUNNING), h]
    tauto
  · rw [← Bool.not_eq_true, h1, ← and_assoc, h, and_assoc]

theorem startCheckpoint_of_false (now : Int) (s : Coord)
    (h : (startCheckpoint now s).1 = false) : (startCheckpoint now s).2 = s := by
  unfold startCheckpoint at h ⊢
  simp only at h ⊢
  split_ifs at h ⊢ with hc
  rfl

/-- C2.  Single-checkpoint invariant: in a state where
`workersRunningAndSuspendMsgSent` is true, `startCheckpoint` returns false and
leaves the state as it is (nothing is sent, the generation is the same), and
the command `c` handled with a reply message leaves the reply with
`coordCmdStatus = ERROR_NOT_RUNNING_STATE`. -/
theorem startCheckpoint_refused_while_sent (now : Int) (s : Coord)
    (h : s.workersRunningAndSuspendMsgSent = true) :
    (startCheckpoint now s).1 = false
      ∧ (startCheckpoint now s).2 = s
      ∧ (startCheckpoint now s).2.sent = s.sent
      ∧ (startCheckpoint now s).2.compId.computationGeneration
          = s.compId.computationGeneration
      ∧ ∀ reply : DmtcpMessage,
          handleUserCommand now "c" (some reply) s
            = .ok (some { reply with
                    coordCmdStatus := CoordCmdStatus.ERROR_NOT_RUNNING_STATE }, s) := by
  have hf : (startCheckpoint now s).1 = false := by
    rw [← Bool.not_eq_true, startCheckpoint_fst_iff]
    intro hc
    rw [h] at hc
    exact Bool.noConfusion hc.2.2
  have hs := startCheckpoint_of_false now s hf
  refine ⟨hf, hs, by rw [hs], by rw [hs], ?_⟩
  intro reply
  unfold handleUserCommand
  simp [hf, hs]

/-- The witness of C2: the sample state in the middle of a checkpoint. -/
theorem startCheckpoint_refused_while_sent_witness :
    sampleCheckpointing.workersRunningAndSuspendMsgSent = true
      ∧ (startCheckpoint 101 sampleCheckpointing).1 = false
      ∧ (startCheckpoint 101 sampleCheckpointing).2 = sampleCheckpointing
      ∧ (startCheckpoint 101 sampleCheckpointing).2.sent = sampleCheckpointing.sent
      ∧ (startCheckpoint 101 sampleCheckpointing).2.compId.computationGeneration
          = sampleCheckpointing.compId.computationGeneration
      ∧ ∀ reply : DmtcpMessage,
          handleUserCommand 101 "c" (some reply) sampleCheckpointing
            = .ok (some { reply with
                    coordCmdStatus := CoordCmdStatus.ERROR_NOT_RUNNING_STATE },
                  sampleCheckpointing) :=
  ⟨by decide, startCheckpoint_refused_while_sent 101 sampleCheckpointing (by decide)⟩

theorem startCheckpoint_of_true (now : Int) (s : Coord)
    (h : (startCheckpoint now s).1 = true) :
    (startCheckpoint now s).2
      = { (broadcastMessage .DMT_DO_CHECKPOINT 0 []
            { s with
              uniqueCkptFilenames := false
              ckptTimeStamp := now
              eventId := s.eventId + 1
              events := s.events ++ [(s.eventId + 1, "Ckpt-Start")]
              numRestartFilenames := 0
              numRestartPeers := -1
              restartFilenames := []
              rshCmdFileNames := []
              sshCmdFileNames := []
              compId := s.compId.incrementGeneration }) with
          workersRunningAndSuspendMsgSent := true } := by
  unfold startCheckpoint at h ⊢
  simp only at h ⊢
  split_ifs at h ⊢ with hc
  rfl

/-- C3.  Monotone generation: a call of `startCheckpoint` that returns true
leaves `compId.computationGeneration` one greater than it was, and a call that
returns false leaves it as it was. -/
theorem startCheckpoint_generation (now : Int) (s : Coord) :
    (startCheckpoint now s).2.compId.computationGeneration
      = s.compId.computationGeneration + (if (startCheckpoint now s).1 = true then 1 else 0) := by
  cases h : (startCheckpoint now s).1
  · rw [startCheckpoint_of_false now s h]
    simp
  · rw [startCheckpoint_of_true now s h]
    simp [broadcastMessage_eq, UniquePid.incrementGeneration]

/-- C4.  After a successful `startCheckpoint` the three accumulators of file
names are empty, `_numRestartFilenames` is 0, `numRestartPeers` is -1 and
`workersRunningAndSuspendMsgSent` is true, whatever they were before. -/
theorem startCheckpoint_resets (now : Int) (s : Coord)
    (h : (startCheckpoint now s).1 = true) :
    (startCheckpoint now s).2.restartFilenames = []
      ∧ (startCheckpoint now s).2.rshCmdFileNames = []
      ∧ (startCheckpoint now s).2.sshCmdFileNames = []
      ∧ (startCheckpoint now s).2.numRestartFilenames = 0
      ∧ (startCheckpoint now s).2.numRestartPeers = -1
      ∧ (startCheckpoint now s).2.workersRunningAndSuspendMsgSent = true := by
  rw [startCheckpoint_of_true now s h]
  simp [broadcastMessage_eq]

/-- The witness of C4: a checkpoint started in the sample state, whose
accumulators hold three names and whose `numRestartPeers` is 2. -/
theorem startCheckpoint_resets_witness :
    (sampleRunning.restartFilenames ≠ [] ∧ sampleRunning.numRestartFilenames = 3
        ∧ sampleRunning.numRestartPeers = 2)
      ∧ (startCheckpoint 100 sampleRunning).1 = true
      ∧ (startCheckpoint 100 sampleRunning).2.restartFilenames = []
      ∧ (startCheckpoint 100 sampleRunning).2.rshCmdFileNames = []
      ∧ (startCheckpoint 100 sampleRunning).2.sshCmdFileNames = []
      ∧ (startCheckpoint 100 sampleRunning).2.numRestartFilenames = 0
      ∧ (startCheckpoint 100 sampleRunning).2.numRestartPeers = -1
      ∧ (startCheckpoint 100 sampleRunning).2.workersRunningAndSuspendMsgSent = true :=
  ⟨by decide, by decide, startCheckpoint_resets 100 sampleRunning (by decide)⟩

/-- C5.  A successful `startCheckpoint` writes, after what was written before,
one header per registered client, in registry order and with no extra bytes;
it is the same `DMT_DO_CHECKPOINT` message for all, and it carries `compId`
with the generation already incremented as `compGroup` and
`flags.killAfterCkpt || killAfterCkptOnce` as `exitAfterCkpt`. -/
theorem startCheckpoint_broadcast (now : Int) (s : Coord)
    (h : (startCheckpoint now s).1 = true) :
    ∃ msg : DmtcpMessage,
      msg.type = DmtcpMessageType.DMT_DO_CHECKPOINT
        ∧ msg.compGroup = s.compId.incrementGeneration
        ∧ msg.compGroup = (startCheckpoint now s).2.compId
        ∧ msg.exitAfterCkpt = (s.flags.killAfterCkpt || s.killAfterCkptOnce)
        ∧ (startCheckpoint now s).2.sent
            = s.sent ++ s.clients.map fun c => ⟨c.sock, msg, []⟩ := by
  rw [startCheckpoint_of_true now s h]
  refine ⟨broadcastHeader .DMT_DO_CHECKPOINT 0
    { s with compId := s.compId.incrementGeneration }, rfl, rfl, ?_, rfl, ?_⟩
  · simp [broadcastMessage_eq, broadcastHeader]
  · simp [broadcastMessage_eq, broadcastHeader]

/-- The witness of C5: the checkpoint started in the sample state sends one
message to each of its two workers. -/
theorem startCheckpoint_broadcast_witness :
    (startCheckpoint 100 sampleRunning).1 = true
      ∧ ((startCheckpoint 100 sampleRunning).2.sent.map fun m => m.sock) = [12, 13]
      ∧ ∃ msg : DmtcpMessage,
        msg.type = DmtcpMessageType.DMT_DO_CHECKPOINT
          ∧ msg.compGroup = sampleRunning.compId.incrementGeneration
          ∧ msg.compGroup = (startCheckpoint 100 sampleRunning).2.compId
          ∧ msg.exitAfterCkpt
              = (sampleRunning.flags.killAfterCkpt || sampleRunning.killAfterCkptOnce)
          ∧ (startCheckpoint 100 sampleRunning).2.sent
              = sampleRunning.sent ++ sampleRunning.clients.map fun c => ⟨c.sock, msg, []⟩ :=
  ⟨by decide, by decide, startCheckpoint_broadcast 100 sampleRunning (by decide)⟩

/-! ## The barrier engine -/

theorem c_str_take (b : String) : (c_str b).take (b.length + 1) = c_str b := by
  apply List.take_of_length_le
  unfold c_str
  rw [List.length_append, List.length_singleton]
  exact le_refl _

theorem releaseBarrier_eq (b : String) (s : Coord) :
    releaseBarrier b s
      = if s.workersAtCurrentBarrier = s.clients.length
            ∧ ¬ (s.numRestartPeers > 0 ∧ (s.clients.length : Int) ≠ s.numRestartPeers) then
          { s with
            eventId := s.eventId + 1
            events := s.events ++ [(s.eventId + 1, "Barrier-" ++ b)]
            prevBarrier := s.currentBarrier
            currentBarrier := ""
            numCkptWorkers := s.clients.length
            sent := s.sent ++ s.clients.map fun c =>
              ⟨c.sock, broadcastHeader .DMT_BARRIER_RELEASED (s.currentBarrier.length + 1) s,
                c_str s.currentBarrier⟩
            workersAtCurrentBarrier := 0 }
        else s := by
  unfold releaseBarrier
  simp only [getStatus_numPeers]
  by_cases h1 : s.workersAtCurrentBarrier = (s.clients.length : Int)
  · by_cases h2 : s.numRestartPeers > 0 ∧ (s.clients.length : Int) ≠ s.numRestartPeers
    · simp [h1, h2]
    · rw [if_pos h1, if_neg h2, if_pos ⟨h1, h2⟩]
      simp [broadcastMessage_eq, recordEvent, broadcastHeader, c_str_take]
  · simp [h1]

theorem releaseBarrier_released_iff (barrier : String) (s : Coord) :
    released barrier s (releaseBarrier barrier s)
      ↔ (s.workersAtCurrentBarrier = s.clients.length
          ∧ ¬ (s.numRestartPeers > 0 ∧ (s.clients.length : Int) ≠ s.numRestartPeers)) := by
  rw [releaseBarrier_eq]
  by_cases h : s.workersAtCurrentBarrier = s.clients.length
      ∧ ¬ (s.numRestartPeers > 0 ∧ (s.clients.length : Int) ≠ s.numRestartPeers)
  · rw [if_pos h]
    simp [released, h]
  · rw [if_neg h]
    refine iff_of_false ?_ h
    simp [released]

theorem releaseBarrier_unchanged_iff (barrier : String) (s : Coord) :
    releaseBarrier barrier s = s
      ↔ ¬ (s.workersAtCurrentBarrier = s.clients.length
          ∧ ¬ (s.numRestartPeers > 0 ∧ (s.clients.length : Int) ≠ s.numRestartPeers)) := by
  rw [releaseBarrier_eq]
  by_cases h : s.workersAtCurrentBarrier = s.clients.length
      ∧ ¬ (s.numRestartPeers > 0 ∧ (s.clients.length : Int) ≠ s.numRestartPeers)
  · rw [if_pos h]
    refine iff_of_false ?_ (not_not_intro h)
    intro he
    have := congrArg Coord.eventId he
    simp at this
  · rw [if_neg h]
    exact iff_of_true rfl h

/-- C6 (amended).  The function `releaseBarrier` releases the barrier exactly
when `workersAtCurrentBarrier == numPeers` and it is not the case that
`numRestartPeers > 0` and `numPeers != numRestartPeers`; in every other state
it leaves the coordinator as it is. -/
theorem releaseBarrier_rule (barrier : String) (s : Coord) :
    (released barrier s (releaseBarrier barrier s)
        ↔ (s.workersAtCurrentBarrier = (getStatus s).numPeers
            ∧ ¬ (s.numRestartPeers > 0 ∧ (getStatus s).numPeers ≠ s.numRestartPeers)))
      ∧ (releaseBarrier barrier s = s
        ↔ ¬ (s.workersAtCurrentBarrier = (getStatus s).numPeers
            ∧ ¬ (s.numRestartPeers > 0 ∧ (getStatus s).numPeers ≠ s.numRestartPeers))) := by
  rw [getStatus_numPeers]
  exact ⟨releaseBarrier_released_iff barrier s, releaseBarrier_unchanged_iff barrier s⟩

/-- The counterexample to C6 as it is written.  Two restarting workers that
each announced one peer have connected and both have sent `DMT_BARRIER(x)`
(the state `sampleRestartOver`, reached from the initial state): the counter
equals the number of peers, and the number of peers is above, not below,
`numRestartPeers`; yet `releaseBarrier` changes nothing and sends nothing. -/
theorem releaseBarrier_defers_above_restart_peers :
    ((sampleRestartOver.clients.map fun c => (c.clientNumber, c.barrier)) = [(1, "x"), (2, "x")]
        ∧ sampleRestartOver.currentBarrier = "x")
      ∧ (sampleRestartOver.workersAtCurrentBarrier = (getStatus sampleRestartOver).numPeers
        ∧ ¬ (sampleRestartOver.numRestartPeers > 0
              ∧ (getStatus sampleRestartOver).numPeers < sampleRestartOver.numRestartPeers))
      ∧ (sampleRestartOver.numRestartPeers > 0
        ∧ (getStatus sampleRestartOver).numPeers > sampleRestartOver.numRestartPeers)
      ∧ releaseBarrier "x" sampleRestartOver = sampleRestartOver
      ∧ (releaseBarrier "x" sampleRestartOver).sent = []
      ∧ (releaseBarrier "x" sampleRestartOver).currentBarrier = "x"
      ∧ ¬ released "x" sampleRestartOver (releaseBarrier "x" sampleRestartOver) :=
  ⟨by decide, by decide, by decide, rfl, rfl, rfl, by decide⟩

theorem releaseBarrier_deferred (b : String) (s : Coord) (h : s.numRestartPeers > 0)
    (hne : (s.clients.length : Int) ≠ s.numRestartPeers) : releaseBarrier b s = s := by
  rw [releaseBarrier_eq, if_neg]
  exact fun hc => hc.2 ⟨h, hne⟩

theorem onDisconnect_eq (now : Int) (client : CoordClient) (s : Coord)
    (hns : client.isNSWorker = false) (hrem : eraseClient client s.clients ≠ []) :
    onDisconnect now client s
      = if s.currentBarrier ≠ "" then
          .ok (releaseBarrier s.currentBarrier
            { s with
              clients := eraseClient client s.clients
              closed := s.closed ++ [client.sock]
              virtualPidToClientMap := mapErase client.virtualPid s.virtualPidToClientMap
              workersAtCurrentBarrier :=
                s.workersAtCurrentBarrier - (if client.barrier = s.currentBarrier then 1 else 0) })
        else
          .ok { s with
              clients := eraseClient client s.clients
              closed := s.closed ++ [client.sock]
              virtualPidToClientMap := mapErase client.virtualPid s.virtualPidToClientMap } := by
  have hlen : ¬ ((eraseClient client s.clients).length : Int) < 1 := by
    cases hl : eraseClient client s.clients with
    | nil => exact absurd hl hrem
    | cons c rest => simp
  unfold onDisconnect
  simp only [hns, Bool.false_eq_true, if_false, getStatus_numPeers, hlen]
  by_cases hb : s.currentBarrier = ""
  · simp [hb]
  · simp only [ne_eq, hb, not_false_eq_true, if_true]
    by_cases hc : client.barrier = s.currentBarrier
    · simp [hc]
    · simp [hc]

/-- C7.  Restart peer count: in a state with `numRestartPeers > 0`, neither
`processBarrier` nor `onDisconnect` releases a barrier while the number of
registered clients (for `onDisconnect`: of the clients that remain) differs
from `numRestartPeers`: nothing is written on any socket, `prevBarrier` is
unchanged and the barrier stays open. -/
theorem no_release_until_all_restart_peers (s : Coord) (h : s.numRestartPeers > 0) :
    (∀ barrier : String, (s.clients.length : Int) ≠ s.numRestartPeers →
        keepsBarrier s barrier (processBarrier barrier s))
      ∧ (∀ (now : Int) (client : CoordClient),
          ((eraseClient client s.clients).length : Int) ≠ s.numRestartPeers →
          keepsBarrier s s.currentBarrier (onDisconnect now client s)) := by
  constructor
  · intro barrier hne
    unfold processBarrier
    by_cases hb : s.currentBarrier = ""
    · simp only [hb, if_true]
      rw [releaseBarrier_deferred]
      · simp [keepsBarrier, hb]
      · exact h
      · exact hne
    · simp only [hb, if_false]
      by_cases he : barrier = s.currentBarrier
      · simp only [he, if_true]
        rw [releaseBarrier_deferred]
        · simp [keepsBarrier]
        · exact h
        · exact hne
      · simp [he, keepsBarrier]
  · intro now client hne
    by_cases hns : client.isNSWorker = true
    · simp [onDisconnect, hns, keepsBarrier]
    · have hns : client.isNSWorker = false := by simpa using hns
      by_cases hrem : eraseClient client s.clients = []
      · unfold onDisconnect
        simp only [hns, Bool.false_eq_true, if_false, getStatus_numPeers, hrem,
          List.length_nil]
        by_cases hx : s.flags.exitOnLast = true
        · simp [hx, handleUserCommand, keepsBarrier, broadcastMessage_eq, recordEvent, hrem]
        · simp [hx, keepsBarrier]
      · rw [onDisconnect_eq now client s hns hrem]
        by_cases hb : s.currentBarrier = ""
        · simp [hb, keepsBarrier]
        · simp only [ne_eq, hb, not_false_eq_true, if_true]
          rw [releaseBarrier_deferred]
          · simp [keepsBarrier]
          · exact h
          · exact hne

/-- The witness of C7: three restart peers were announced and two are
registered; the second arrives at the barrier, so that all registered clients
have arrived, and nothing is released; nor is anything released when it hangs
up instead and the one client that is left has arrived. -/
theorem no_release_until_all_restart_peers_witness :
    let s := sampleAtBarrier 3 [sampleClient 1 .RESTARTING "x", sampleClient 2 .RESTARTING ""] 1
    s.numRestartPeers > 0
      ∧ s.workersAtCurrentBarrier + 1 = (getStatus s).numPeers
      ∧ keepsBarrier s "x" (processBarrier "x" s)
      ∧ keepsBarrier s s.currentBarrier (onDisconnect 0 (sampleClient 2 .RESTARTING "") s) :=
  ⟨by decide, by decide,
    (no_release_until_all_restart_peers
      (sampleAtBarrier 3 [sampleClient 1 .RESTARTING "x", sampleClient 2 .RESTARTING ""] 1)
      (by decide)).1 "x" (by decide),
    (no_release_until_all_restart_peers
      (sampleAtBarrier 3 [sampleClient 1 .RESTARTING "x", sampleClient 2 .RESTARTING ""] 1)
      (by decide)).2 0 (sampleClient 2 .RESTARTING "") (by decide)⟩

/-- C9.  Whenever `releaseBarrier` releases the open barrier `B`
(`currentBarrier`), afterwards `prevBarrier == B`, `currentBarrier` is empty,
`workersAtCurrentBarrier == 0`, and what was written is one
`DMT_BARRIER_RELEASED` header per registered client, in registry order, each
followed by the `|B| + 1` bytes of `B` and a NUL. -/
theorem releaseBarrier_effects (barrier : String) (s : Coord)
    (h : released barrier s (releaseBarrier barrier s)) :
    (releaseBarrier barrier s).prevBarrier = s.currentBarrier
      ∧ (releaseBarrier barrier s).currentBarrier = ""
      ∧ (releaseBarrier barrier s).workersAtCurrentBarrier = 0
      ∧ (∃ msg : DmtcpMessage,
          msg.type = DmtcpMessageType.DMT_BARRIER_RELEASED
            ∧ msg.extraBytes = (s.currentBarrier.length + 1) % 4294967296
            ∧ (releaseBarrier barrier s).sent
                = s.sent ++ s.clients.map fun c =>
                    ⟨c.sock, msg, s.currentBarrier.toList ++ [Char.ofNat 0]⟩)
      ∧ (s.currentBarrier.toList ++ [Char.ofNat 0]).length = s.currentBarrier.length + 1 := by
  have hc := (releaseBarrier_released_iff barrier s).1 h
  rw [releaseBarrier_eq, if_pos hc]
  refine ⟨rfl, rfl, rfl,
    ⟨broadcastHeader .DMT_BARRIER_RELEASED (s.currentBarrier.length + 1) s, rfl, rfl, rfl⟩, ?_⟩
  rw [List.length_append, List.length_singleton]
  rfl

/-- The witness of C9: both registered clients have arrived at the barrier `x`
and the barrier is released. -/
theorem releaseBarrier_effects_witness :
    let s := sampleAtBarrier (-1) [sampleClient 1 .SUSPENDED "x", sampleClient 2 .SUSPENDED "x"] 2
    released "x" s (releaseBarrier "x" s)
      ∧ ((releaseBarrier "x" s).sent.map fun m => (m.sock, m.msg.type, m.extra))
          = [(11, .DMT_BARRIER_RELEASED, ['x', Char.ofNat 0]),
             (12, .DMT_BARRIER_RELEASED, ['x', Char.ofNat 0])]
      ∧ (releaseBarrier "x" s).prevBarrier = s.currentBarrier
      ∧ (releaseBarrier "x" s).currentBarrier = ""
      ∧ (releaseBarrier "x" s).workersAtCurrentBarrier = 0
      ∧ (∃ msg : DmtcpMessage,
          msg.type = DmtcpMessageType.DMT_BARRIER_RELEASED
            ∧ msg.extraBytes = (s.currentBarrier.length + 1) % 4294967296
            ∧ (releaseBarrier "x" s).sent
                = s.sent ++ s.clients.map fun c =>
                    ⟨c.sock, msg, s.currentBarrier.toList ++ [Char.ofNat 0]⟩)
      ∧ (s.currentBarrier.toList ++ [Char.ofNat 0]).length = s.currentBarrier.length + 1 :=
  ⟨by decide, by decide,
    releaseBarrier_effects "x"
      (sampleAtBarrier (-1) [sampleClient 1 .SUSPENDED "x", sampleClient 2 .SUSPENDED "x"] 2)
      (by decide)⟩

/-- C10 (amended).  Disconnect while waiting: when a client of the main registry
hangs up while a barrier is open and another client remains,
`workersAtCurrentBarrier` is lowered by one exactly when the barrier name
recorded for the departing client is the open barrier, and `releaseBarrier`
then runs: the barrier is released if and only if the lowered counter equals
the number of remaining clients and it is not the case that
`numRestartPeers > 0` and that number differs from `numRestartPeers`;
otherwise the state stays as the departure left it. -/
theorem onDisconnect_while_waiting (now : Int) (client : CoordClient) (s : Coord)
    (hns : client.isNSWorker = false) (hrem : eraseClient client s.clients ≠ [])
    (hopen : s.currentBarrier ≠ "") :
    (afterDeparture client s).workersAtCurrentBarrier
        = s.workersAtCurrentBarrier - (if client.barrier = s.currentBarrier then 1 else 0)
      ∧ onDisconnect now client s
          = .ok (releaseBarrier s.currentBarrier (afterDeparture client s))
      ∧ (released s.currentBarrier (afterDeparture client s)
            (releaseBarrier s.currentBarrier (afterDeparture client s))
          ↔ ((afterDeparture client s).workersAtCurrentBarrier
                = (eraseClient client s.clients).length
              ∧ ¬ (s.numRestartPeers > 0
                    ∧ ((eraseClient client s.clients).length : Int) ≠ s.numRestartPeers)))
      ∧ (releaseBarrier s.currentBarrier (afterDeparture client s) = afterDeparture client s
          ↔ ¬ ((afterDeparture client s).workersAtCurrentBarrier
                = (eraseClient client s.clients).length
              ∧ ¬ (s.numRestartPeers > 0
                    ∧ ((eraseClient client s.clients).length : Int) ≠ s.numRestartPeers))) := by
  refine ⟨rfl, ?_, ?_⟩
  · rw [onDisconnect_eq now client s hns hrem, if_pos hopen]
    rfl
  · exact ⟨releaseBarrier_released_iff s.currentBarrier (afterDeparture client s),
      releaseBarrier_unchanged_iff s.currentBarrier (afterDeparture client s)⟩

/-- The witness of C10: no restart is under way, A and B have arrived at the
barrier `x` and C has not; when C hangs up the counter stays 2 and the barrier
is released to A and B. -/
theorem onDisconnect_while_waiting_witness :
    let s := sampleAtBarrier (-1)
      [sampleClient 1 .SUSPENDED "x", sampleClient 2 .SUSPENDED "x", sampleClient 3 .SUSPENDED ""] 2
    let c := sampleClient 3 .SUSPENDED ""
    (released s.currentBarrier (afterDeparture c s)
        (releaseBarrier s.currentBarrier (afterDeparture c s))
      ∧ ((releaseBarrier s.currentBarrier (afterDeparture c s)).sent.map
          fun m => (m.sock, m.msg.type)) = [(11, .DMT_BARRIER_RELEASED), (12, .DMT_BARRIER_RELEASED)])
      ∧ (afterDeparture c s).workersAtCurrentBarrier
          = s.workersAtCurrentBarrier - (if c.barrier = s.currentBarrier then 1 else 0)
      ∧ onDisconnect 0 c s = .ok (releaseBarrier s.currentBarrier (afterDeparture c s))
      ∧ (released s.currentBarrier (afterDeparture c s)
            (releaseBarrier s.currentBarrier (afterDeparture c s))
          ↔ ((afterDeparture c s).workersAtCurrentBarrier = (eraseClient c s.clients).length
              ∧ ¬ (s.numRestartPeers > 0
                    ∧ ((eraseClient c s.clients).length : Int) ≠ s.numRestartPeers)))
      ∧ (releaseBarrier s.currentBarrier (afterDeparture c s) = afterDeparture c s
          ↔ ¬ ((afterDeparture c s).workersAtCurrentBarrier = (eraseClient c s.clients).length
              ∧ ¬ (s.numRestartPeers > 0
                    ∧ ((eraseClient c s.clients).length : Int) ≠ s.numRestartPeers))) :=
  ⟨by decide,
    onDisconnect_while_waiting 0 (sampleClient 3 .SUSPENDED "")
      (sampleAtBarrier (-1)
        [sampleClient 1 .SUSPENDED "x", sampleClient 2 .SUSPENDED "x",
          sampleClient 3 .SUSPENDED ""] 2)
      (by decide) (by decide) (by decide)⟩

/-- The counterexample to C10 as it is written.  Three restarting workers that
announced three peers are registered, clients 1 and 2 have sent
`DMT_BARRIER(x)` (the state `sampleRestartWaiting`, reached from the initial
state), and client 3, the only one that has not arrived, hangs up.  Every
remaining client has arrived and the counter equals their number, yet the
barrier is not released: nothing is sent and the barrier `x` stays open. -/
theorem onDisconnect_last_missing_restart_peer :
    ((sampleRestartWaiting.clients.map fun c => (c.clientNumber, c.barrier))
          = [(1, "x"), (2, "x"), (3, "")]
        ∧ sampleRestartWaiting.currentBarrier = "x"
        ∧ sampleRestartWaiting.workersAtCurrentBarrier = 2
        ∧ sampleRestartWaiting.numRestartPeers = 3)
      ∧ (((findClient 3 sampleRestartWaiting).bind fun c =>
            (onDisconnect 55 c sampleRestartWaiting).toOption).map fun s' =>
              (s'.clients.map fun r => (r.clientNumber, r.barrier), s'.workersAtCurrentBarrier,
                s'.currentBarrier, s'.prevBarrier,
                s'.sent.filter fun m => m.msg.type = .DMT_BARRIER_RELEASED))
          = some ([(1, "x"), (2, "x")], 2, "x", "", []) :=
  ⟨by decide, rfl⟩

/-! ### Handlers that leave the barrier engine alone -/

theorem Calm.refl (s : Coord) : Calm s s :=
  ⟨rfl, rfl, Or.inl rfl, le_refl _, id⟩

theorem Calm.trans {a b c : Coord} (h1 : Calm a b) (h2 : Calm b c) : Calm a c := by
  refine ⟨h2.clients.trans h1.clients, h2.cur.trans h1.cur, ?_, le_trans h1.next h2.next,
    fun h => h2.quiet (h1.quiet h)⟩
  rcases h2.count with h | h
  · rcases h1.count with h' | h'
    · exact Or.inl (h.trans h')
    · exact Or.inr (h.trans h')
  · exact Or.inr h

theorem noReleaseSent_append (s : Coord) (l : List Sent) (h : noReleaseSent s)
    (hl : ∀ m ∈ l, m.msg.type ≠ DmtcpMessageType.DMT_BARRIER_RELEASED) :
    ∀ m ∈ s.sent ++ l, m.msg.type ≠ DmtcpMessageType.DMT_BARRIER_RELEASED := by
  intro m hm
  rcases List.mem_append.1 hm with hm | hm
  · exact h m hm
  · exact hl m hm

theorem calm_send (sock : Int) (msg : DmtcpMessage) (extra : List Char) (s : Coord)
    (hty : msg.type ≠ DmtcpMessageType.DMT_BARRIER_RELEASED) : Calm s (send sock msg extra s) := by
  refine ⟨rfl, rfl, Or.inl rfl, le_refl _, fun h => ?_⟩
  apply noReleaseSent_append s _ h
  intro m hm
  rw [List.mem_singleton] at hm
  subst hm
  exact hty

theorem calm_closed (l : List Int) (s : Coord) : Calm s { s with closed := l } :=
  ⟨rfl, rfl, Or.inl rfl, le_refl _, id⟩

theorem calm_broadcastMessage (type : DmtcpMessageType) (n : Nat) (d : List Char) (s : Coord)
    (hty : type ≠ DmtcpMessageType.DMT_BARRIER_RELEASED) :
    Calm s (broadcastMessage type n d s) := by
  rw [broadcastMessage_eq]
  refine ⟨rfl, rfl, Or.inr rfl, le_refl _, fun h => ?_⟩
  apply noReleaseSent_append s _ h
  intro m hm
  rw [List.mem_map] at hm
  obtain ⟨c, _, rfl⟩ := hm
  exact hty

theorem calm_startCheckpoint (now : Int) (s : Coord) : Calm s (startCheckpoint now s).2 := by
  cases h : (startCheckpoint now s).1
  · rw [startCheckpoint_of_false now s h]
    exact Calm.refl s
  · rw [startCheckpoint_of_true now s h]
    have hb := calm_broadcastMessage .DMT_DO_CHECKPOINT 0 []
      { s with
        uniqueCkptFilenames := false
        ckptTimeStamp := now
        eventId := s.eventId + 1
        events := s.events ++ [(s.eventId + 1, "Ckpt-Start")]
        numRestartFilenames := 0
        numRestartPeers := -1
        restartFilenames := []
        rshCmdFileNames := []
        sshCmdFileNames := []
        compId := s.compId.incrementGeneration } (by decide)
    exact ⟨hb.clients, hb.cur, hb.count, hb.next, hb.quiet⟩

theorem Calm.of_eq {s s' : Coord} (h1 : s'.clients = s.clients)
    (h2 : s'.currentBarrier = s.currentBarrier)
    (h3 : s'.workersAtCurrentBarrier = s.workersAtCurrentBarrier)
    (h4 : s'.theNextClientNumber = s.theNextClientNumber) (h5 : s'.sent = s.sent) : Calm s s' :=
  ⟨h1, h2, Or.inl h3, le_of_eq h4.symm, fun h m hm => h m (h5 ▸ hm)⟩

theorem calm_handleUserCommand (now : Int) (cmd : String) (reply : Option DmtcpMessage)
    (s : Coord) (r : Option DmtcpMessage × Coord)
    (h : handleUserCommand now cmd reply s = .ok r) : Calm s r.2 := by
  unfold handleUserCommand at h
  simp only at h
  split_ifs at h with h1 h2 h3 h4 h5 h6 h7 h8 h9 h10
  all_goals first
    | (injection h with h; subst h
       first
         | exact Calm.refl s
         | exact calm_broadcastMessage _ _ _ _ (by decide)
         | exact calm_startCheckpoint now _
         | (refine Calm.trans ?_ (calm_startCheckpoint now _)
            exact Calm.of_eq rfl rfl rfl rfl rfl))
    | skip
  · cases reply with
    | none =>
      injection h with h
      subst h
      exact Calm.refl s
    | some m =>
      injection h with h
      subst h
      exact Calm.of_eq rfl rfl rfl rfl rfl

theorem Calm.of_eq_left {s m s' : Coord} (h : Calm m s') (h1 : m.clients = s.clients)
    (h2 : m.currentBarrier = s.currentBarrier)
    (h3 : m.workersAtCurrentBarrier = s.workersAtCurrentBarrier)
    (h4 : m.theNextClientNumber = s.theNextClientNumber) (h5 : m.sent = s.sent) : Calm s s' :=
  Calm.trans (Calm.of_eq h1 h2 h3 h4 h5) h

theorem calm_getNewVirtualPidLoop (fuel : Nat) (s : Coord) (r : Int × Coord)
    (h : getNewVirtualPidLoop fuel s = some r) : Calm s r.2 := by
  induction fuel generalizing s with
  | zero => simp [getNewVirtualPidLoop] at h
  | succ n ih =>
    simp only [getNewVirtualPidLoop] at h
    split_ifs at h
    all_goals first
      | (injection h with h
         subst h
         exact Calm.of_eq rfl rfl rfl rfl rfl)
      | exact (ih _ h).of_eq_left rfl rfl rfl rfl rfl

theorem calm_getNewVirtualPid (s : Coord) (r : Int × Coord)
    (h : getNewVirtualPid s = .ok r) : Calm s r.2 := by
  unfold getNewVirtualPid at h
  split_ifs at h
  split at h
  · cases h
  · injection h with h
    subst h
    exact calm_getNewVirtualPidLoop _ _ _ (by assumption)

theorem handleUserCommand_reply_type (now : Int) (cmd : String) (m0 : DmtcpMessage)
    (s : Coord) (r : Option DmtcpMessage × Coord)
    (h : handleUserCommand now cmd (some m0) s = .ok r) : (r.1.getD m0).type = m0.type := by
  unfold handleUserCommand at h
  simp only at h
  split_ifs at h
  all_goals
    injection h with h
    subst h
    rfl

theorem calm_processDmtUserCmd (now : Int) (hello : DmtcpMessage) (remote : Int) (s : Coord)
    (s' : Coord) (h : processDmtUserCmd now hello remote s = .ok s') : Calm s s' := by
  unfold processDmtUserCmd at h
  split at h
  · split at h
    · cases h
    · rename_i r hr
      injection h with h
      subst h
      exact (calm_handleUserCommand _ _ _ _ _ hr).of_eq_left rfl rfl rfl rfl rfl
  split at h
  all_goals
    split at h
    · cases h
    · rename_i r hr
      injection h with h
      subst h
      have hc := calm_handleUserCommand _ _ _ _ _ hr
      have ht := handleUserCommand_reply_type _ _ _ _ _ hr
      refine Calm.trans hc (Calm.trans (calm_send _ _ _ r.2 ?_) (Calm.of_eq rfl rfl rfl rfl rfl))
      rw [ht]
      exact fun h => DmtcpMessageType.noConfusion h

theorem calm_validateRestartingWorkerProcess (now : Int) (hello : DmtcpMessage) (remote : Int)
    (remoteAddr : Int) (s : Coord) (r : Bool × Coord)
    (h : validateRestartingWorkerProcess now hello remote remoteAddr s = .ok r) :
    Calm s r.2 := by
  unfold validateRestartingWorkerProcess at h
  simp only at h
  split_ifs at h
  all_goals
    injection h with h
    subst h
    first
      | exact calm_closed _ _
      | exact Calm.trans (calm_send _ _ _ _ (fun h => DmtcpMessageType.noConfusion h))
          (calm_closed _ _)
      | exact calm_send _ _ _ _ (fun h => DmtcpMessageType.noConfusion h)
      | exact (calm_send _ _ _ _ (fun h => DmtcpMessageType.noConfusion h)).of_eq_left
          rfl rfl rfl rfl rfl

theorem calm_ResendDoCheckpointMsgToWorker (client : CoordClient) (s s' : Coord)
    (h : ResendDoCheckpointMsgToWorker client s = .ok s') : Calm s s' := by
  unfold ResendDoCheckpointMsgToWorker at h
  simp only at h
  split_ifs at h
  injection h with h
  subst h
  exact calm_send _ _ _ _ (fun h => DmtcpMessageType.noConfusion h)

theorem calm_createComputationGroup (now : Int) (hello : DmtcpMessage) (pid : Int)
    (s : Coord) : Calm s (createComputationGroup now hello pid s) := by
  unfold createComputationGroup
  split
  · exact Calm.of_eq rfl rfl rfl rfl rfl
  · exact Calm.refl s

theorem calm_validateNewWorkerProcess (now : Int) (hello : DmtcpMessage) (remote : Int)
    (client : CoordClient) (remoteAddr : Int) (s : Coord) (r : Bool × CoordClient × Coord)
    (h : validateNewWorkerProcess now hello remote client remoteAddr s = .ok r) :
    Calm s r.2.2 ∧ r.2.1.clientNumber = client.clientNumber
      ∧ r.2.1.barrier = client.barrier := by
  unfold validateNewWorkerProcess at h
  split at h
  · injection h with h
    subst h
    exact ⟨Calm.refl s, rfl, rfl⟩
  split at h
  · injection h with h
    subst h
    exact ⟨Calm.refl s, rfl, rfl⟩
  split at h
  · cases h
  rename_i pid s1 hg
  have hc : Calm s s1 := calm_getNewVirtualPid _ _ hg
  split at h
  · split at h
    · cases h
    · rename_i s3 hr
      injection h with h
      subst h
      exact ⟨Calm.trans hc (Calm.trans (calm_send _ _ _ _
        (fun h => DmtcpMessageType.noConfusion h))
        (calm_ResendDoCheckpointMsgToWorker _ _ _ hr)), rfl, rfl⟩
  split at h
  · injection h with h
    subst h
    exact ⟨Calm.trans hc (Calm.trans (calm_send _ _ _ s1
      (fun h => DmtcpMessageType.noConfusion h)) (Calm.of_eq rfl rfl rfl rfl rfl)), rfl, rfl⟩
  split at h
  · injection h with h
    subst h
    exact ⟨Calm.trans hc (Calm.trans (calm_send _ _ _ s1
      (fun h => DmtcpMessageType.noConfusion h)) (Calm.of_eq rfl rfl rfl rfl rfl)), rfl, rfl⟩
  injection h with h
  subst h
  exact ⟨Calm.trans hc (Calm.trans (calm_createComputationGroup now hello pid s1)
    (calm_send _ _ _ _ (fun h => DmtcpMessageType.noConfusion h))), rfl, rfl⟩

theorem helloClient_number (remote remoteAddr : Int) (hello : DmtcpMessage)
    (extraData : List Char) (s : Coord) :
    (helloClient remote remoteAddr hello extraData s).clientNumber = s.theNextClientNumber
      ∧ (helloClient remote remoteAddr hello extraData s).barrier = "" := by
  unfold helloClient CoordClient.readProcessInfo CoordClient.new
  split
  · exact ⟨rfl, rfl⟩
  · exact ⟨rfl, rfl⟩

theorem onConnectWorker_summary (now remote remoteAddr : Int) (hello : DmtcpMessage)
    (client : CoordClient) (s s' : Coord)
    (h : onConnectWorker now remote remoteAddr hello client s = .ok s') :
    ∃ m : Coord, Calm s m
      ∧ (s' = m ∨ ∃ c : CoordClient, s' = registerClient c m
          ∧ c.clientNumber = client.clientNumber ∧ c.barrier = client.barrier) := by
  unfold onConnectWorker at h
  split at h
  · split at h
    · cases h
    · rename_i r hr
      have hc := calm_validateRestartingWorkerProcess _ _ _ _ _ _ hr
      split at h
      · injection h with h
        exact ⟨r.2, hc, Or.inr ⟨_, h.symm, rfl, rfl⟩⟩
      · injection h with h
        exact ⟨r.2, hc, Or.inl h.symm⟩
  split at h
  · split at h
    · cases h
    · rename_i r hr
      have hc := calm_validateNewWorkerProcess _ _ _ _ _ _ _ hr
      split at h
      · injection h with h
        exact ⟨r.2.2, hc.1, Or.inr ⟨_, h.symm, hc.2.1, hc.2.2⟩⟩
      · injection h with h
        exact ⟨r.2.2, hc.1, Or.inl h.symm⟩
  · injection h with h
    exact ⟨s', h ▸ Calm.of_eq rfl rfl rfl rfl rfl, Or.inl rfl⟩

theorem onConnect_summary (now remote remoteAddr : Int) (hello : DmtcpMessage)
    (extraData : List Char) (s s' : Coord)
    (h : onConnect now remote remoteAddr hello extraData s = .ok s') :
    s.theNextClientNumber ≤ s'.theNextClientNumber
      ∧ (noReleaseSent s → noReleaseSent s')
      ∧ ((s'.clients = s.clients
            ∧ ((s'.currentBarrier = s.currentBarrier
                  ∧ (s'.workersAtCurrentBarrier = s.workersAtCurrentBarrier
                      ∨ s'.workersAtCurrentBarrier = 0))
                ∨ s.clients = []))
          ∨ ∃ c : CoordClient, s'.clients = s.clients ++ [c]
              ∧ s.theNextClientNumber ≤ c.clientNumber
              ∧ c.clientNumber < s'.theNextClientNumber
              ∧ c.barrier = ""
              ∧ ((s.clients ≠ [] ∧ s'.currentBarrier = s.currentBarrier
                    ∧ (s'.workersAtCurrentBarrier = s.workersAtCurrentBarrier
                        ∨ s'.workersAtCurrentBarrier = 0))
                  ∨ (s.clients = [] ∧ s'.workersAtCurrentBarrier = 0
                      ∧ s'.currentBarrier = ""))) := by
  have ofCalm : ∀ t : Coord, Calm s t →
      s.theNextClientNumber ≤ t.theNextClientNumber
      ∧ (noReleaseSent s → noReleaseSent t)
      ∧ ((t.clients = s.clients
            ∧ ((t.currentBarrier = s.currentBarrier
                  ∧ (t.workersAtCurrentBarrier = s.workersAtCurrentBarrier
                      ∨ t.workersAtCurrentBarrier = 0))
                ∨ s.clients = []))
          ∨ ∃ c : CoordClient, t.clients = s.clients ++ [c]
              ∧ s.theNextClientNumber ≤ c.clientNumber
              ∧ c.clientNumber < t.theNextClientNumber
              ∧ c.barrier = ""
              ∧ ((s.clients ≠ [] ∧ t.currentBarrier = s.currentBarrier
                    ∧ (t.workersAtCurrentBarrier = s.workersAtCurrentBarrier
                        ∨ t.workersAtCurrentBarrier = 0))
                  ∨ (s.clients = [] ∧ t.workersAtCurrentBarrier = 0
                      ∧ t.currentBarrier = ""))) :=
    fun t hc => ⟨hc.next, hc.quiet, Or.inl ⟨hc.clients, Or.inl ⟨hc.cur, hc.count⟩⟩⟩
  unfold onConnect at h
  split at h
  · injection h with h
    subst h
    exact ofCalm _ ⟨rfl, rfl, Or.inl rfl, by simp [CoordClient.new], id⟩
  split at h
  · exact ofCalm _ (calm_processDmtUserCmd _ _ _ _ _ h)
  split at h
  · injection h with h
    subst h
    exact ofCalm _ (Calm.trans (calm_send _ _ _ s (fun h => DmtcpMessageType.noConfusion h))
      (Calm.of_eq rfl rfl rfl rfl rfl))
  obtain ⟨m, hm, hs'⟩ := onConnectWorker_summary _ _ _ _ _ _ _ h
  have hnum := helloClient_number remote remoteAddr hello extraData (initializedIfEmpty s)
  -- the state in which the client object is created
  have h0 : (initializedIfEmpty s).clients = s.clients
      ∧ (initializedIfEmpty s).theNextClientNumber = s.theNextClientNumber
      ∧ (initializedIfEmpty s).sent = s.sent
      ∧ ((s.clients ≠ [] ∧ (initializedIfEmpty s).currentBarrier = s.currentBarrier
            ∧ (initializedIfEmpty s).workersAtCurrentBarrier = s.workersAtCurrentBarrier)
          ∨ (s.clients = [] ∧ (initializedIfEmpty s).workersAtCurrentBarrier = 0
              ∧ (initializedIfEmpty s).currentBarrier = "")) := by
    unfold initializedIfEmpty
    by_cases he : s.clients.length = 0
    · rw [if_pos he]
      exact ⟨rfl, rfl, rfl, Or.inr ⟨List.length_eq_zero.1 he, rfl, rfl⟩⟩
    · rw [if_neg he]
      exact ⟨rfl, rfl, rfl, Or.inl ⟨fun hn => he (by rw [hn]; rfl), rfl, rfl⟩⟩
  obtain ⟨h0c, h0n, h0s, h0b⟩ := h0
  have hmc : m.clients = s.clients := hm.clients.trans h0c
  have hmn : s.theNextClientNumber + 1 ≤ m.theNextClientNumber := by
    have := hm.next
    simp only [CoordClient.new] at this
    omega
  have hmq : noReleaseSent s → noReleaseSent m := fun hq =>
    hm.quiet (fun x hx => hq x (h0s ▸ hx))
  have hmcur : m.currentBarrier = (initializedIfEmpty s).currentBarrier := hm.cur
  have hmcnt := hm.count
  simp only [CoordClient.new] at hmcnt
  rcases hs' with rfl | ⟨c, rfl, hcn, hcb⟩
  · refine ⟨by omega, hmq, Or.inl ⟨hmc, ?_⟩⟩
    rcases h0b with ⟨_, hb1, hb2⟩ | ⟨he, _, _⟩
    · left
      refine ⟨hmcur.trans hb1, ?_⟩
      rcases hmcnt with hx | hx
      · exact Or.inl (hx.trans hb2)
      · exact Or.inr hx
    · exact Or.inr he
  · refine ⟨by simp only [registerClient]; omega, ?_, Or.inr ⟨c, ?_, ?_, ?_, ?_, ?_⟩⟩
    · exact hmq
    · simp only [registerClient, hmc]
    · rw [hcn, hnum.1, h0n]
    · simp only [registerClient]
      rw [hcn, hnum.1, h0n]
      omega
    · rw [hcb, hnum.2]
    · rcases h0b with ⟨hne, hb1, hb2⟩ | ⟨he, hb1, hb2⟩
      · left
        refine ⟨hne, hmcur.trans hb1, ?_⟩
        rcases hmcnt with hx | hx
        · exact Or.inl (hx.trans hb2)
        · exact Or.inr hx
      · right
        refine ⟨he, ?_, hmcur.trans hb2⟩
        rcases hmcnt with hx | hx
        · exact hx.trans hb1
        · exact hx

/-! ## Barrier unanimity over histories -/

/-! ### Registry lemmas -/

theorem updateClient_eq_map (old new : CoordClient) (l : List CoordClient)
    (hnd : (l.map fun c => c.clientNumber).Nodup) (hmem : old ∈ l) :
    updateClient old new l
      = l.map fun x => if x.clientNumber = old.clientNumber then new else x := by
  induction l with
  | nil => cases hmem
  | cons c rest ih =>
    rw [List.map_cons, List.nodup_cons] at hnd
    by_cases hc : c = old
    · subst hc
      simp only [updateClient, if_true, List.map_cons]
      congr 1
      have hid : rest.map (fun x => if x.clientNumber = c.clientNumber then new else x)
          = rest.map id := by
        apply List.map_congr_left
        intro x hx
        have : x.clientNumber ≠ c.clientNumber := by
          intro he
          exact hnd.1 (he ▸ List.mem_map_of_mem (fun c => c.clientNumber) hx)
        simp [this]
      rw [hid, List.map_id]
    · have hr : old ∈ rest := by
        rcases List.mem_cons.1 hmem with h | h
        · exact absurd h.symm hc
        · exact h
      have hne : c.clientNumber ≠ old.clientNumber := by
        intro he
        exact hnd.1 (he ▸ List.mem_map_of_mem (fun c => c.clientNumber) hr)
      simp only [updateClient, hc, if_false, List.map_cons, hne]
      rw [ih hnd.2 hr]

theorem eraseClient_eq_filter (client : CoordClient) (l : List CoordClient)
    (hnd : (l.map fun c => c.clientNumber).Nodup) (hmem : client ∈ l) :
    eraseClient client l = l.filter fun x => decide (x.clientNumber ≠ client.clientNumber) := by
  induction l with
  | nil => cases hmem
  | cons c rest ih =>
    rw [List.map_cons, List.nodup_cons] at hnd
    by_cases hc : c = client
    · subst hc
      simp only [eraseClient, if_true]
      rw [List.filter_cons_of_neg (by simp)]
      symm
      rw [List.filter_eq_self]
      intro x hx
      have : x.clientNumber ≠ c.clientNumber := by
        intro he
        exact hnd.1 (he ▸ List.mem_map_of_mem (fun c => c.clientNumber) hx)
      simpa using this
    · have hr : client ∈ rest := by
        rcases List.mem_cons.1 hmem with h | h
        · exact absurd h.symm hc
        · exact h
      have hne : c.clientNumber ≠ client.clientNumber := by
        intro he
        exact hnd.1 (he ▸ List.mem_map_of_mem (fun c => c.clientNumber) hr)
      simp only [eraseClient, hc, if_false]
      rw [List.filter_cons_of_pos (by simpa using hne), ih hnd.2 hr]

theorem countP_clientNumber_eq (client : CoordClient) (l : List CoordClient)
    (hnd : (l.map fun c => c.clientNumber).Nodup) (hmem : client ∈ l) :
    l.countP (fun x => decide (x.clientNumber = client.clientNumber)) = 1 := by
  induction l with
  | nil => cases hmem
  | cons c rest ih =>
    rw [List.map_cons, List.nodup_cons] at hnd
    by_cases hc : c = client
    · subst hc
      rw [List.countP_cons_of_pos _ _ (by simp)]
      have : rest.countP (fun x => decide (x.clientNumber = c.clientNumber)) = 0 := by
        rw [List.countP_eq_zero]
        intro x hx
        have : x.clientNumber ≠ c.clientNumber := by
          intro he
          exact hnd.1 (he ▸ List.mem_map_of_mem (fun c => c.clientNumber) hx)
        simpa using this
      rw [this]
    · have hr : client ∈ rest := by
        rcases List.mem_cons.1 hmem with h | h
        · exact absurd h.symm hc
        · exact h
      have hne : c.clientNumber ≠ client.clientNumber := by
        intro he
        exact hnd.1 (he ▸ List.mem_map_of_mem (fun c => c.clientNumber) hr)
      rw [List.countP_cons_of_neg _ _ (by simpa using hne), ih hnd.2 hr]

theorem countP_split (p q : CoordClient → Bool) (l : List CoordClient) :
    l.countP p = l.countP (fun x => p x && q x) + l.countP (fun x => p x && !q x) := by
  induction l with
  | nil => rfl
  | cons c rest ih =>
    simp only [List.countP_cons, ih]
    cases p c <;> cases q c <;> simp <;> omega

/-! ### The invariant of histories -/

theorem releasedName_none (s : Coord) (h : noReleaseSent s) : releasedName s = none := by
  unfold releasedName
  rw [Option.map_eq_none', List.find?_eq_none]
  intro m hm
  simpa using h m hm

theorem Hist.inv_of_eq {h : Hist} (hi : h.Inv) (t : Coord) (h1 : t.clients = h.coord.clients)
    (h2 : t.currentBarrier = h.coord.currentBarrier)
    (h3 : t.workersAtCurrentBarrier = h.coord.workersAtCurrentBarrier)
    (h4 : t.theNextClientNumber = h.coord.theNextClientNumber) : Hist.Inv ⟨t, h.arrived⟩ := by
  refine ⟨?_, ?_, ?_, ?_, ?_⟩
  · simpa only [h1, h4] using hi.below
  · simpa only [h1] using hi.nodup
  · simpa only [h4] using hi.arrivedBelow
  · simpa only [h1, h3] using hi.counted
  · simpa only [h1, h2] using hi.named

theorem Hist.inv_of_calm {h : Hist} (hi : h.Inv) (t : Coord) (hc : Calm h.coord t) :
    Hist.Inv ⟨t, h.arrived⟩ := by
  refine ⟨?_, ?_, ?_, ?_, ?_⟩
  · intro c hm
    rw [hc.clients] at hm
    exact lt_of_lt_of_le (hi.below c hm) hc.next
  · simpa only [hc.clients] using hi.nodup
  · intro p hp
    exact lt_of_lt_of_le (hi.arrivedBelow p hp) hc.next
  · intro hne
    simp only [hc.clients] at hne ⊢
    rcases hc.count with hx | hx
    · rw [hx]
      exact hi.counted hne
    · rw [hx]
      exact Int.natCast_nonneg _
  · simpa only [hc.clients, hc.cur] using hi.named

theorem Hist.inv_of_connect {h : Hist} (hi : h.Inv) (now remote remoteAddr : Int)
    (hello : DmtcpMessage) (extraData : List Char) (t : Coord)
    (hs : onConnect now remote remoteAddr hello extraData h.coord = .ok t) :
    Hist.Inv ⟨t, h.arrived⟩ ∧ (noReleaseSent h.coord → noReleaseSent t) := by
  obtain ⟨hn, hq, hcase⟩ := onConnect_summary _ _ _ _ _ _ _ hs
  refine ⟨?_, hq⟩
  rcases hcase with ⟨hcl, hb⟩ | ⟨c, hcl, hc1, hc2, hcb, hb⟩
  · refine ⟨?_, ?_, ?_, ?_, ?_⟩
    · intro x hm
      rw [hcl] at hm
      exact lt_of_lt_of_le (hi.below x hm) hn
    · simpa only [hcl] using hi.nodup
    · intro p hp
      exact lt_of_lt_of_le (hi.arrivedBelow p hp) hn
    · intro hne
      simp only [hcl] at hne ⊢
      rcases hb with ⟨_, hx | hx⟩ | he
      · rw [hx]
        exact hi.counted hne
      · rw [hx]
        exact Int.natCast_nonneg _
      · exact absurd he hne
    · intro x hm n hx
      simp only [hcl] at hm
      rcases hb with ⟨hcur, _⟩ | he
      · simp only [hcur]
        exact hi.named x hm n hx
      · rw [he] at hm
        cases hm
  · have hfresh : c.clientNumber ∉ h.arrived.map Prod.fst := by
      intro hm
      obtain ⟨p, hp, hpe⟩ := List.mem_map.1 hm
      have := hi.arrivedBelow p hp
      omega
    refine ⟨?_, ?_, ?_, ?_, ?_⟩
    · intro x hm
      simp only [hcl, List.mem_append, List.mem_singleton] at hm
      rcases hm with hm | rfl
      · exact lt_of_lt_of_le (hi.below x hm) hn
      · exact hc2
    · simp only [hcl, List.map_append, List.map_cons, List.map_nil]
      rw [List.nodup_append]
      refine ⟨hi.nodup, List.nodup_singleton _, ?_⟩
      intro a ha hb'
      rw [List.mem_singleton] at hb'
      obtain ⟨x, hx, hxe⟩ := List.mem_map.1 ha
      have := hi.below x hx
      rw [hb'] at hxe
      omega
    · intro p hp
      exact lt_of_lt_of_le (hi.arrivedBelow p hp) hn
    · intro _
      simp only [hcl, List.countP_append, List.countP_cons, List.countP_nil]
      simp only [hfresh, decide_False, Bool.false_eq_true, if_false]
      rcases hb with ⟨hne, _, hx | hx⟩ | ⟨_, hx, _⟩
      · rw [hx]
        have := hi.counted hne
        simpa using this
      · rw [hx]
        exact Int.natCast_nonneg _
      · rw [hx]
        exact Int.natCast_nonneg _
    · intro x hm n hx
      simp only [hcl, List.mem_append, List.mem_singleton] at hm
      rcases hm with hm | rfl
      · rcases hb with ⟨_, hcur, _⟩ | ⟨he, _, _⟩
        · simp only [hcur]
          exact hi.named x hm n hx
        · rw [he] at hm
          cases hm
      · exact absurd (List.mem_map_of_mem Prod.fst hx) hfresh

theorem dropLast_c_str (b : String) : String.mk (c_str b).dropLast = b := by
  unfold c_str
  rw [List.dropLast_concat]
  rfl

theorem countP_le_of_all (p : CoordClient → Bool) (l : List CoordClient) (n : Int)
    (h1 : n ≤ (l.countP p : Nat)) (h2 : n = l.length) : ∀ x ∈ l, p x = true := by
  have hle := List.countP_le_length p (l := l)
  have : l.countP p = l.length := by omega
  exact List.countP_eq_length.1 this

/-- What `releaseBarrier` does to a history whose invariant holds, in a state
that has written nothing yet and has a client: either it changes nothing, or it
releases the open barrier, every registered client has arrived for it, and the
invariant holds for the history that starts afresh. -/
theorem Hist.release_step (t : Coord) (a : List (Int × String)) (b : String)
    (hi : Hist.Inv ⟨t, a⟩) (hsent : t.sent = []) (hne : t.clients ≠ []) :
    (releaseBarrier b t = t ∧ releasedName t = none)
      ∨ (releasedName (releaseBarrier b t) = some t.currentBarrier
          ∧ (releaseBarrier b t).clients = t.clients
          ∧ (∀ x ∈ t.clients, (x.clientNumber, t.currentBarrier) ∈ a)
          ∧ Hist.Inv ⟨releaseBarrier b t, []⟩) := by
  rw [releaseBarrier_eq]
  by_cases hc : t.workersAtCurrentBarrier = t.clients.length
      ∧ ¬ (t.numRestartPeers > 0 ∧ (t.clients.length : Int) ≠ t.numRestartPeers)
  · rw [if_pos hc]
    right
    refine ⟨?_, rfl, ?_, ?_⟩
    · obtain ⟨c, rest, hl⟩ := List.exists_cons_of_ne_nil hne
      simp only [releasedName, hsent, List.nil_append, hl, List.map_cons]
      rw [List.find?_cons_of_pos]
      · simp only [Option.map_some', dropLast_c_str]
      · simp [broadcastHeader]
    · intro x hx
      have hall := countP_le_of_all _ _ _ (hi.counted hne) hc.1 x hx
      simp only [decide_eq_true_eq] at hall
      obtain ⟨p, hp, hpe⟩ := List.mem_map.1 hall
      obtain ⟨i, n⟩ := p
      simp only at hpe
      subst hpe
      have := (hi.named x hx n hp).1
      simp only at this
      rw [← this]
      exact hp
    · exact ⟨hi.below, hi.nodup, fun _ hp => (by cases hp),
        fun _ => Int.natCast_nonneg _, fun _ _ _ hp => (by cases hp)⟩
  · rw [if_neg hc]
    left
    refine ⟨rfl, releasedName_none t ?_⟩
    intro m hm
    rw [hsent] at hm
    cases hm

theorem findClient_some (n : Int) (s : Coord) (c : CoordClient)
    (h : findClient n s = some c) : c ∈ s.clients ∧ c.clientNumber = n := by
  unfold findClient at h
  exact ⟨List.mem_of_find?_eq_some h, by simpa using List.find?_some h⟩

theorem processBarrier_eq (b : String) (s : Coord) :
    processBarrier b s
      = if s.currentBarrier = "" ∨ b = s.currentBarrier then
          .ok (releaseBarrier b
            { s with
              currentBarrier := b
              workersAtCurrentBarrier := s.workersAtCurrentBarrier + 1 })
        else .error (.assertFail "barrier == currentBarrier") := by
  unfold processBarrier
  by_cases h1 : s.currentBarrier = ""
  · simp [h1]
  · by_cases h2 : b = s.currentBarrier
    · subst h2
      simp [h1]
    · simp [h1, h2]

theorem onData_barrier (now : Int) (c : CoordClient) (name : String) (st : WorkerState)
    (s : Coord) :
    onData now c (barrierMsg name st) [] s
      = processBarrier name
          { s with
            clients := (updateClient { c with state := st }
              { c with state := st, barrier := name }
              (updateClient c { c with state := st } s.clients)) } := by
  rfl

theorem updateClient_twice (c : CoordClient) (c1 c2 : CoordClient) (l : List CoordClient)
    (hnd : (l.map fun c => c.clientNumber).Nodup) (hmem : c ∈ l)
    (h1 : c1.clientNumber = c.clientNumber) :
    updateClient c1 c2 (updateClient c c1 l)
      = l.map fun x => if x.clientNumber = c.clientNumber then c2 else x := by
  rw [updateClient_eq_map c c1 l hnd hmem]
  have hmap : ((l.map fun x => if x.clientNumber = c.clientNumber then c1 else x).map
      fun c => c.clientNumber) = l.map fun c => c.clientNumber := by
    rw [List.map_map]
    apply List.map_congr_left
    intro x _
    simp only [Function.comp]
    split
    · rename_i hx
      rw [h1, hx]
    · rfl
  rw [updateClient_eq_map c1 c2 _ (hmap ▸ hnd)
    (List.mem_map.2 ⟨c, hmem, by simp⟩), List.map_map]
  apply List.map_congr_left
  intro x _
  simp only [Function.comp, h1]
  by_cases hx : x.clientNumber = c.clientNumber
  · simp [hx, h1]
  · simp [hx]

theorem onData_barrier_ok (now : Int) (c : CoordClient) (name : String) (st : WorkerState)
    (s s' : Coord) (hnd : (s.clients.map fun c => c.clientNumber).Nodup) (hmem : c ∈ s.clients)
    (hs : onData now c (barrierMsg name st) [] s = .ok s') :
    (s.currentBarrier = "" ∨ name = s.currentBarrier)
      ∧ ∃ t : Coord, s' = releaseBarrier name t
          ∧ t.clients = (s.clients.map fun x =>
              if x.clientNumber = c.clientNumber then
                ({ c with state := st, barrier := name } : CoordClient) else x)
          ∧ t.currentBarrier = name
          ∧ t.workersAtCurrentBarrier = s.workersAtCurrentBarrier + 1
          ∧ t.theNextClientNumber = s.theNextClientNumber
          ∧ t.sent = s.sent := by
  rw [onData_barrier, processBarrier_eq] at hs
  split at hs
  swap
  · cases hs
  rename_i hcur
  injection hs with hs
  refine ⟨hcur, _, hs.symm, ?_, rfl, rfl, rfl, rfl⟩
  exact updateClient_twice c _ _ _ hnd hmem rfl

/-- The step of a history on an orderly `DMT_BARRIER` message from a registered
client: unless the coordinator halts, either no barrier is released and the
invariant holds with the arrival recorded, or the barrier named by the message
is released, every registered client has arrived for it, and the invariant
holds for the history that starts afresh. -/
theorem Hist.barrier_step {h : Hist} (hi : h.Inv) (now : Int) (c : CoordClient)
    (name : String) (st : WorkerState) (hmem : c ∈ h.coord.clients)
    (hname : name ≠ "") (hnew : c.clientNumber ∉ h.arrived.map Prod.fst) (s' : Coord)
    (hs : onData now c (barrierMsg name st) []
      { h.coord with sent := [], closed := [] } = .ok s') :
    (releasedName s' = none ∧ Hist.Inv ⟨s', (c.clientNumber, name) :: h.arrived⟩)
      ∨ (∃ B, releasedName s' = some B
          ∧ (∀ x ∈ s'.clients, (x.clientNumber, B) ∈ (c.clientNumber, name) :: h.arrived)
          ∧ Hist.Inv ⟨s', []⟩) := by
  obtain ⟨hcur, t, hs, htc, htb, htw, htn, hts⟩ :=
    onData_barrier_ok now c name st { h.coord with sent := [], closed := [] } s'
      hi.nodup hmem hs
  simp only at hcur htc htw htn hts
  have hnum : (t.clients.map fun c => c.clientNumber)
      = h.coord.clients.map fun c => c.clientNumber := by
    rw [htc, List.map_map]
    apply List.map_congr_left
    intro x _
    simp only [Function.comp]
    split
    · rename_i hx
      exact hx.symm
    · rfl
  have hne : h.coord.clients ≠ [] := List.ne_nil_of_mem hmem
  have htne : t.clients ≠ [] := by
    rw [htc]
    simpa using hne
  have hinv : Hist.Inv ⟨t, (c.clientNumber, name) :: h.arrived⟩ := by
    refine ⟨?_, ?_, ?_, ?_, ?_⟩
    · intro x hx
      have : x.clientNumber ∈ t.clients.map fun c => c.clientNumber :=
        List.mem_map_of_mem (fun c => c.clientNumber) hx
      rw [hnum] at this
      obtain ⟨y, hy, hye⟩ := List.mem_map.1 this
      show x.clientNumber < t.theNextClientNumber
      rw [htn, ← hye]
      exact hi.below y hy
    · simp only [hnum]
      exact hi.nodup
    · intro p hp
      simp only [htn]
      rcases List.mem_cons.1 hp with rfl | hp
      · exact hi.below c hmem
      · exact hi.arrivedBelow p hp
    · intro _
      simp only [htw, htc, List.countP_map, List.map_cons]
      have hold := hi.counted hne
      have hsplit := countP_split
        (fun x : CoordClient =>
          decide (x.clientNumber ∈ c.clientNumber :: h.arrived.map Prod.fst))
        (fun x => decide (x.clientNumber = c.clientNumber)) h.coord.clients
      have h1 : h.coord.clients.countP (fun x =>
          decide (x.clientNumber ∈ c.clientNumber :: h.arrived.map Prod.fst)
            && decide (x.clientNumber = c.clientNumber)) = 1 := by
        rw [← countP_clientNumber_eq c h.coord.clients hi.nodup hmem]
        apply List.countP_congr
        intro x _
        simp only [Bool.and_eq_true, decide_eq_true_eq, List.mem_cons]
        tauto
      have h2 : h.coord.clients.countP (fun x =>
          decide (x.clientNumber ∈ c.clientNumber :: h.arrived.map Prod.fst)
            && !decide (x.clientNumber = c.clientNumber))
          = h.coord.clients.countP (fun x =>
              decide (x.clientNumber ∈ h.arrived.map Prod.fst)) := by
        apply List.countP_congr
        intro x _
        simp only [Bool.and_eq_true, decide_eq_true_eq, List.mem_cons, Bool.not_eq_true',
          decide_eq_false_iff_not]
        constructor
        · rintro ⟨h3 | h3, h4⟩
          · exact absurd h3 h4
          · exact h3
        · intro h3
          exact ⟨Or.inr h3, fun h4 => hnew (h4 ▸ h3)⟩
      have hcomp : h.coord.clients.countP
          ((fun x : CoordClient =>
              decide (x.clientNumber ∈ c.clientNumber :: h.arrived.map Prod.fst))
            ∘ fun x => if x.clientNumber = c.clientNumber then
                ({ c with state := st, barrier := name } : CoordClient) else x)
          = h.coord.clients.countP (fun x : CoordClient =>
              decide (x.clientNumber ∈ c.clientNumber :: h.arrived.map Prod.fst)) := by
        apply List.countP_congr
        intro x _
        simp only [Function.comp]
        split
        · rename_i hx
          simp [hx]
        · rfl
      rw [hcomp, hsplit, h1, h2]
      push_cast
      omega
    · intro x hx n hn
      simp only [htb]
      rw [htc] at hx
      obtain ⟨y, hy, hye⟩ := List.mem_map.1 hx
      rcases List.mem_cons.1 hn with hn | hn
      · injection hn with hn1 hn2
        have hyc : y.clientNumber = c.clientNumber := by
          by_contra hyc
          simp only [hyc, if_false] at hye
          rw [← hye] at hn1
          exact hyc hn1
        simp only [hyc, if_true] at hye
        rw [← hye]
        exact ⟨hn2, rfl, hname⟩
      · have hxin : x.clientNumber ∈ h.arrived.map Prod.fst :=
          List.mem_map_of_mem Prod.fst hn
        have hyc : ¬ y.clientNumber = c.clientNumber := by
          intro hyc
          simp only [hyc, if_true] at hye
          rw [← hye] at hxin
          exact hnew hxin
        simp only [hyc, if_false] at hye
        subst hye
        obtain ⟨h1, h2, h3⟩ := hi.named y hy n hn
        have hcn : name = h.coord.currentBarrier := by
          rcases hcur with hcur | hcur
          · exact absurd hcur h3
          · exact hcur
        rw [hcn]
        exact ⟨h1, h2, h3⟩
  rcases Hist.release_step t _ name hinv hts htne with ⟨he, hnone⟩ | ⟨hsome, hcl, hall, hinv'⟩
  · left
    rw [hs, he]
    exact ⟨hnone, hinv⟩
  · right
    rw [hs]
    exact ⟨t.currentBarrier, hsome, by rw [hcl]; exact hall, hinv'⟩

theorem Hist.inv_depart {s : Coord} {a : List (Int × String)} (hi : Hist.Inv ⟨s, a⟩)
    (c : CoordClient) (hmem : c ∈ s.clients) (t : Coord)
    (htc : t.clients = eraseClient c s.clients) (htb : t.currentBarrier = s.currentBarrier)
    (htn : t.theNextClientNumber = s.theNextClientNumber) (d : Int)
    (htw : t.workersAtCurrentBarrier = s.workersAtCurrentBarrier - d) (hd0 : 0 ≤ d)
    (hd1 : c.clientNumber ∈ a.map Prod.fst → d = 1) : Hist.Inv ⟨t, a⟩ := by
  have hnd : (s.clients.map fun c => c.clientNumber).Nodup := hi.nodup
  have hrem := eraseClient_eq_filter c s.clients hnd hmem
  have hsub : ∀ x ∈ t.clients, x ∈ s.clients := by
    intro x hx
    rw [htc, hrem] at hx
    exact List.mem_of_mem_filter hx
  refine ⟨?_, ?_, ?_, ?_, ?_⟩
  · intro x hx
    show x.clientNumber < t.theNextClientNumber
    rw [htn]
    exact hi.below x (hsub x hx)
  · show (t.clients.map fun c => c.clientNumber).Nodup
    rw [htc, hrem]
    exact hnd.sublist (List.Sublist.map _ (List.filter_sublist _))
  · intro p hp
    show p.1 < t.theNextClientNumber
    rw [htn]
    exact hi.arrivedBelow p hp
  · intro _
    show t.workersAtCurrentBarrier
      ≤ ((t.clients.countP fun x => decide (x.clientNumber ∈ a.map Prod.fst) : Nat) : Int)
    have hold : s.workersAtCurrentBarrier
        ≤ ((s.clients.countP fun x => decide (x.clientNumber ∈ a.map Prod.fst) : Nat) : Int) :=
      hi.counted (List.ne_nil_of_mem hmem)
    have hsplit := countP_split (fun x : CoordClient => decide (x.clientNumber ∈ a.map Prod.fst))
      (fun x => decide (x.clientNumber = c.clientNumber)) s.clients
    have hf : t.clients.countP (fun x => decide (x.clientNumber ∈ a.map Prod.fst))
        = s.clients.countP (fun x => decide (x.clientNumber ∈ a.map Prod.fst)
            && !decide (x.clientNumber = c.clientNumber)) := by
      rw [htc, hrem, List.countP_filter]
      apply List.countP_congr
      intro x _
      simp
    rw [htw, hf]
    by_cases hin : c.clientNumber ∈ a.map Prod.fst
    · have h1 : s.clients.countP (fun x => decide (x.clientNumber ∈ a.map Prod.fst)
          && decide (x.clientNumber = c.clientNumber)) = 1 := by
        rw [← countP_clientNumber_eq c s.clients hnd hmem]
        apply List.countP_congr
        intro x _
        simp only [Bool.and_eq_true, decide_eq_true_eq]
        constructor
        · exact fun hx => hx.2
        · exact fun hx => ⟨hx ▸ hin, hx⟩
      rw [hd1 hin]
      omega
    · have h0 : s.clients.countP (fun x => decide (x.clientNumber ∈ a.map Prod.fst)
          && decide (x.clientNumber = c.clientNumber)) = 0 := by
        rw [List.countP_eq_zero]
        intro x _
        simp only [Bool.and_eq_true, decide_eq_true_eq, not_and]
        intro hx hxe
        exact hin (hxe ▸ hx)
      omega
  · intro x hx n hn
    show n = t.currentBarrier ∧ x.barrier = t.currentBarrier ∧ t.currentBarrier ≠ ""
    rw [htb]
    exact hi.named x (hsub x hx) n hn

theorem onDisconnect_last (now : Int) (client : CoordClient) (s s' : Coord)
    (hns : client.isNSWorker = false) (hrem : eraseClient client s.clients = [])
    (h : onDisconnect now client s = .ok s') :
    s'.clients = [] ∧ s'.sent = s.sent ∧ s'.theNextClientNumber = s.theNextClientNumber := by
  unfold onDisconnect at h
  simp only [hns, Bool.false_eq_true, if_false, getStatus_numPeers, hrem, List.length_nil] at h
  by_cases hx : s.flags.exitOnLast = true
  · simp [hx, handleUserCommand] at h
  · simp only [hx] at h
    simp at h
    subst h
    exact ⟨rfl, rfl, rfl⟩

/-- The step of a history when a registered client hangs up: unless the
coordinator exits, either no barrier is released and the invariant holds, or the
open barrier is released, every client that remains has arrived for it, and the
invariant holds for the history that starts afresh. -/
theorem Hist.disconnect_step {s : Coord} {a : List (Int × String)} (hi : Hist.Inv ⟨s, a⟩)
    (hsent : s.sent = []) (now : Int) (c : CoordClient) (hmem : c ∈ s.clients) (s' : Coord)
    (hs : onDisconnect now c s = .ok s') :
    (releasedName s' = none ∧ Hist.Inv ⟨s', a⟩)
      ∨ (∃ B, releasedName s' = some B
          ∧ (∀ x ∈ s'.clients, (x.clientNumber, B) ∈ a)
          ∧ Hist.Inv ⟨s', []⟩) := by
  by_cases hns : c.isNSWorker = true
  · left
    simp only [onDisconnect, hns, if_true] at hs
    injection hs with hs
    subst hs
    exact ⟨releasedName_none _ (fun m hm => by rw [hsent] at hm; cases hm),
      Hist.inv_of_eq hi _ rfl rfl rfl rfl⟩
  have hns : c.isNSWorker = false := by simpa using hns
  by_cases hrem : eraseClient c s.clients = []
  · left
    obtain ⟨h1, h2, h3⟩ := onDisconnect_last now c s s' hns hrem hs
    refine ⟨releasedName_none _ (fun m hm => by rw [h2, hsent] at hm; cases hm), ?_⟩
    refine ⟨?_, ?_, ?_, ?_, ?_⟩
    · intro x hx
      rw [h1] at hx
      cases hx
    · show (s'.clients.map fun c => c.clientNumber).Nodup
      rw [h1]
      exact List.nodup_nil
    · intro p hp
      show p.1 < s'.theNextClientNumber
      rw [h3]
      exact hi.arrivedBelow p hp
    · intro hne
      exact absurd h1 hne
    · intro x hx
      rw [h1] at hx
      cases hx
  rw [onDisconnect_eq now c s hns hrem] at hs
  by_cases hb : s.currentBarrier = ""
  · left
    rw [if_neg (not_not_intro hb)] at hs
    injection hs with hs
    subst hs
    refine ⟨releasedName_none _ (fun m hm => by rw [hsent] at hm; cases hm), ?_⟩
    refine Hist.inv_depart hi c hmem _ rfl rfl rfl 0 (by simp) (le_refl _) ?_
    intro hin
    obtain ⟨p, hp, hpe⟩ := List.mem_map.1 hin
    obtain ⟨i, n⟩ := p
    simp only at hpe
    subst hpe
    exact absurd hb (hi.named c hmem n hp).2.2
  · rw [if_pos hb] at hs
    injection hs with hs
    have hinv : Hist.Inv ⟨{ s with
        clients := eraseClient c s.clients
        closed := s.closed ++ [c.sock]
        virtualPidToClientMap := mapErase c.virtualPid s.virtualPidToClientMap
        workersAtCurrentBarrier :=
          s.workersAtCurrentBarrier - (if c.barrier = s.currentBarrier then 1 else 0) }, a⟩ := by
      refine Hist.inv_depart hi c hmem _ rfl rfl rfl
        (if c.barrier = s.currentBarrier then 1 else 0) rfl ?_ ?_
      · split <;> decide
      · intro hin
        obtain ⟨p, hp, hpe⟩ := List.mem_map.1 hin
        obtain ⟨i, n⟩ := p
        simp only at hpe
        subst hpe
        rw [if_pos (hi.named c hmem n hp).2.1]
    rcases Hist.release_step _ a s.currentBarrier hinv hsent hrem with
      ⟨he, hnone⟩ | ⟨hsome, hcl, hall, hinv'⟩
    · left
      rw [← hs, he]
      exact ⟨hnone, hinv⟩
    · right
      rw [← hs]
      exact ⟨_, hsome, by rw [hcl]; exact hall, hinv'⟩

theorem eraseClient_of_not_mem (c : CoordClient) (l : List CoordClient) (h : c ∉ l) :
    eraseClient c l = l := by
  induction l with
  | nil => rfl
  | cons x rest ih =>
    have hx : x ≠ c := fun e => h (e ▸ List.mem_cons_self _ _)
    simp only [eraseClient, if_neg hx]
    rw [ih (fun hm => h (List.mem_cons_of_mem _ hm))]

theorem findLookup_some (n : Int) (s : Coord) (c : CoordClient)
    (h : findLookup n s = some c) : c ∈ s.lookupClients ∧ c.clientNumber = n := by
  unfold findLookup at h
  exact ⟨List.mem_of_find?_eq_some h, by simpa using List.find?_some h⟩

theorem findClient_none (n : Int) (s : Coord) (h : findClient n s = none) :
    ∀ x ∈ s.clients, x.clientNumber ≠ n := by
  unfold findClient at h
  intro x hx
  simpa using List.find?_eq_none.1 h x hx

/-- The invariant of histories survives a handler that leaves the registry, the
open barrier and the next client number alone and does not raise the
counter. -/
theorem Hist.inv_lower {s : Coord} {a : List (Int × String)} (hi : Hist.Inv ⟨s, a⟩)
    (t : Coord) (htc : t.clients = s.clients) (htb : t.currentBarrier = s.currentBarrier)
    (htn : t.theNextClientNumber = s.theNextClientNumber) (d : Int)
    (htw : t.workersAtCurrentBarrier = s.workersAtCurrentBarrier - d) (hd0 : 0 ≤ d) :
    Hist.Inv ⟨t, a⟩ := by
  refine ⟨?_, ?_, ?_, ?_, ?_⟩
  · intro x hx
    show x.clientNumber < t.theNextClientNumber
    rw [htn]
    exact hi.below x (htc ▸ hx)
  · show (t.clients.map fun c => c.clientNumber).Nodup
    rw [htc]
    exact hi.nodup
  · intro p hp
    show p.1 < t.theNextClientNumber
    rw [htn]
    exact hi.arrivedBelow p hp
  · intro hne
    show t.workersAtCurrentBarrier
      ≤ ((t.clients.countP fun x => decide (x.clientNumber ∈ a.map Prod.fst) : Nat) : Int)
    have hne' : s.clients ≠ [] := fun e => hne (htc.trans e)
    have hold : s.workersAtCurrentBarrier
        ≤ ((s.clients.countP fun x => decide (x.clientNumber ∈ a.map Prod.fst) : Nat) : Int) :=
      hi.counted hne'
    rw [htw, htc]
    omega
  · intro x hx n hn
    show n = t.currentBarrier ∧ x.barrier = t.currentBarrier ∧ t.currentBarrier ≠ ""
    rw [htb]
    exact hi.named x (htc ▸ hx) n hn

/-- The step of a history when a client that is not in the registry hangs up,
as a name-service connection does: unless the coordinator exits, either no
barrier is released and the invariant holds, or the open barrier is released,
every registered client has arrived for it, and the invariant holds for the
history that starts afresh. -/
theorem Hist.lookup_disconnect_step {s : Coord} {a : List (Int × String)}
    (hi : Hist.Inv ⟨s, a⟩) (hsent : s.sent = []) (now : Int) (c : CoordClient)
    (hmem : c ∉ s.clients) (s' : Coord) (hs : onDisconnect now c s = .ok s') :
    (releasedName s' = none ∧ Hist.Inv ⟨s', a⟩)
      ∨ (∃ B, releasedName s' = some B
          ∧ (∀ x ∈ s'.clients, (x.clientNumber, B) ∈ a)
          ∧ Hist.Inv ⟨s', []⟩) := by
  have hkeep : eraseClient c s.clients = s.clients := eraseClient_of_not_mem c _ hmem
  by_cases hns : c.isNSWorker = true
  · left
    simp only [onDisconnect, hns, if_true] at hs
    injection hs with hs
    subst hs
    exact ⟨releasedName_none _ (fun m hm => by rw [hsent] at hm; cases hm),
      Hist.inv_of_eq hi _ rfl rfl rfl rfl⟩
  have hns : c.isNSWorker = false := by simpa using hns
  by_cases hrem : eraseClient c s.clients = []
  · left
    obtain ⟨h1, h2, h3⟩ := onDisconnect_last now c s s' hns hrem hs
    refine ⟨releasedName_none _ (fun m hm => by rw [h2, hsent] at hm; cases hm), ?_⟩
    refine ⟨?_, ?_, ?_, ?_, ?_⟩
    · intro x hx
      rw [h1] at hx
      cases hx
    · show (s'.clients.map fun c => c.clientNumber).Nodup
      rw [h1]
      exact List.nodup_nil
    · intro p hp
      show p.1 < s'.theNextClientNumber
      rw [h3]
      exact hi.arrivedBelow p hp
    · intro hne
      exact absurd h1 hne
    · intro x hx
      rw [h1] at hx
      cases hx
  rw [onDisconnect_eq now c s hns hrem] at hs
  by_cases hb : s.currentBarrier = ""
  · left
    rw [if_neg (not_not_intro hb)] at hs
    injection hs with hs
    subst hs
    exact ⟨releasedName_none _ (fun m hm => by rw [hsent] at hm; cases hm),
      Hist.inv_of_eq hi _ hkeep rfl rfl rfl⟩
  · rw [if_pos hb] at hs
    injection hs with hs
    have hinv : Hist.Inv ⟨{ s with
        clients := eraseClient c s.clients
        closed := s.closed ++ [c.sock]
        virtualPidToClientMap := mapErase c.virtualPid s.virtualPidToClientMap
        workersAtCurrentBarrier :=
          s.workersAtCurrentBarrier - (if c.barrier = s.currentBarrier then 1 else 0) }, a⟩ := by
      refine Hist.inv_lower hi _ hkeep rfl rfl
        (if c.barrier = s.currentBarrier then 1 else 0) rfl ?_
      split <;> decide
    rcases Hist.release_step _ a s.currentBarrier hinv hsent hrem with
      ⟨he, hnone⟩ | ⟨hsome, hcl, hall, hinv'⟩
    · left
      rw [← hs, he]
      exact ⟨hnone, hinv⟩
    · right
      rw [← hs]
      exact ⟨_, hsome, by rw [hcl]; exact hall, hinv'⟩

/-- One orderly event on a history whose invariant holds: unless the coordinator
halts, either no barrier is released and the invariant holds with the arrival
recorded, or a barrier is released, every registered client has arrived for
it since the last release, and the invariant holds for the history that starts
afresh. -/
theorem Hist.step_sound {h : Hist} (hi : h.Inv) (e : Event) (ho : e.orderly h = true)
    (s' : Coord) (hs : Dmtcp.step h.coord e = .ok s') :
    (releasedName s' = none ∧ Hist.Inv ⟨s', h.arrivedWith e⟩)
      ∨ (∃ B, releasedName s' = some B
          ∧ (∀ x ∈ s'.clients, (x.clientNumber, B) ∈ h.arrivedWith e)
          ∧ Hist.Inv ⟨s', []⟩) := by
  have hi0 : Hist.Inv ⟨{ h.coord with sent := [], closed := [] }, h.arrived⟩ :=
    Hist.inv_of_eq hi _ rfl rfl rfl rfl
  have hq0 : noReleaseSent { h.coord with sent := [], closed := [] } :=
    fun m hm => by cases hm
  cases e with
  | connect now remote remoteAddr hello extraData =>
    left
    have := Hist.inv_of_connect hi0 now remote remoteAddr hello extraData s' hs
    exact ⟨releasedName_none _ (this.2 hq0), this.1⟩
  | barrier now n name st =>
    simp only [Event.orderly, Bool.and_eq_true, Bool.or_eq_true, decide_eq_true_eq] at ho
    simp only [Hist.arrivedWith]
    change (match findClient n h.coord with
      | some c => onData now c (barrierMsg name st) []
          { h.coord with sent := [], closed := [] }
      | none =>
        match findLookup n h.coord with
        | some c =>
          match onData now c (barrierMsg name st) []
              { h.coord with sent := [], closed := [] } with
          | .error x => Except.error x
          | .ok t =>
            Except.ok { t with lookupClients :=
              (updateClient c { c with state := st, barrier := name } t.lookupClients) }
        | none => Except.ok { h.coord with sent := [], closed := [] }) = .ok s' at hs
    cases hf : findClient n h.coord with
    | none =>
      left
      rw [hf] at hs
      have hl : findLookup n h.coord = none := by
        rcases ho.2 with h1 | h1
        · rw [hf] at h1
          cases h1
        · exact Option.isNone_iff_eq_none.1 h1
      rw [hl] at hs
      injection hs with hs
      subst hs
      simp only [Option.isSome_none, Bool.false_eq_true, if_false]
      exact ⟨releasedName_none _ hq0, hi0⟩
    | some c =>
      rw [hf] at hs
      obtain ⟨hmem, hnum⟩ := findClient_some n h.coord c hf
      simp only [Option.isSome_some, if_true]
      subst hnum
      exact Hist.barrier_step hi now c name st hmem ho.1.1 ho.1.2 s' hs
  | disconnect now n =>
    simp only [Hist.arrivedWith]
    change (match findClient n h.coord with
      | some c => onDisconnect now c { h.coord with sent := [], closed := [] }
      | none =>
        match findLookup n h.coord with
        | some c =>
          match onDisconnect now c { h.coord with sent := [], closed := [] } with
          | .error x => Except.error x
          | .ok t => Except.ok { t with lookupClients := eraseClient c t.lookupClients }
        | none => Except.ok { h.coord with sent := [], closed := [] }) = .ok s' at hs
    cases hf : findClient n h.coord with
    | none =>
      rw [hf] at hs
      cases hl : findLookup n h.coord with
      | none =>
        left
        rw [hl] at hs
        injection hs with hs
        subst hs
        exact ⟨releasedName_none _ hq0, hi0⟩
      | some c =>
        rw [hl] at hs
        obtain ⟨_, hnum⟩ := findLookup_some n h.coord c hl
        have hmem : c ∉ ({ h.coord with sent := [], closed := [] } : Coord).clients :=
          fun hm => findClient_none n h.coord hf c hm hnum
        have key : ∀ r : Except Halt Coord,
            (match r with
              | .error x => Except.error x
              | .ok t => Except.ok { t with lookupClients := eraseClient c t.lookupClients })
              = Except.ok s' →
            ∃ t, r = .ok t ∧ s' = { t with lookupClients := eraseClient c t.lookupClients } := by
          intro r hr
          cases r with
          | error x => cases hr
          | ok t =>
            injection hr with hr
            exact ⟨t, rfl, hr.symm⟩
        obtain ⟨t, ht, hst⟩ := key _ hs
        subst hst
        rcases Hist.lookup_disconnect_step hi0 rfl now c hmem t ht with
          ⟨hn, hinv⟩ | ⟨B, hB, hall, hinv⟩
        · left
          exact ⟨hn, Hist.inv_of_eq hinv _ rfl rfl rfl rfl⟩
        · right
          exact ⟨B, hB, hall, Hist.inv_of_eq hinv _ rfl rfl rfl rfl⟩
    | some c =>
      rw [hf] at hs
      obtain ⟨hmem, _⟩ := findClient_some n h.coord c hf
      exact Hist.disconnect_step hi0 rfl now c hmem s' hs
  | userCommand now cmd =>
    left
    change (if cmd ≠ "" then
        match handleUserCommand now cmd none { h.coord with sent := [], closed := [] } with
        | .error h => Except.error h
        | .ok r => Except.ok r.2
      else Except.ok { h.coord with sent := [], closed := [] }) = .ok s' at hs
    by_cases hc : cmd = ""
    · rw [if_neg (not_not_intro hc)] at hs
      injection hs with hs
      subst hs
      exact ⟨releasedName_none _ hq0, hi0⟩
    · rw [if_pos hc] at hs
      split at hs
      · cases hs
      · rename_i r hr
        injection hs with hs
        subst hs
        have hcalm := calm_handleUserCommand _ _ _ _ _ hr
        exact ⟨releasedName_none _ (hcalm.quiet hq0), Hist.inv_of_calm hi0 _ hcalm⟩
  | queuedCheckpoint now =>
    left
    change Except.ok (startCheckpoint now
      { ({ h.coord with sent := [], closed := [] } : Coord) with
        checkpointQueued := false }).2 = .ok s' at hs
    injection hs with hs
    subst hs
    have hcalm : Calm { h.coord with sent := [], closed := [] }
        (startCheckpoint now
          { ({ h.coord with sent := [], closed := [] } : Coord) with
            checkpointQueued := false }).2 :=
      (calm_startCheckpoint now _).of_eq_left rfl rfl rfl rfl rfl
    exact ⟨releasedName_none _ (hcalm.quiet hq0), Hist.inv_of_calm hi0 _ hcalm⟩

theorem Hist.step_inv {h h' : Hist} (hi : h.Inv) (e : Event) (ho : e.orderly h = true)
    (hs : h.step e = .ok h') : h'.Inv := by
  unfold Hist.step at hs
  split at hs
  · cases hs
  · rename_i s' hs'
    injection hs with hs
    subst hs
    rcases Hist.step_sound hi e ho s' hs' with ⟨hn, hinv⟩ | ⟨B, hB, _, hinv⟩
    · simpa only [hn, Option.isSome_none, Bool.false_eq_true, if_false] using hinv
    · simpa only [hB, Option.isSome_some, if_true] using hinv

theorem Hist.run_inv {h h' : Hist} (hi : h.Inv) (evs : List Event)
    (hr : Hist.run h evs = some h') : h'.Inv := by
  induction evs generalizing h with
  | nil =>
    simp only [Hist.run] at hr
    injection hr with hr
    exact hr ▸ hi
  | cons e es ih =>
    simp only [Hist.run] at hr
    split at hr
    · rename_i ho
      split at hr
      · rename_i h1 hs
        exact ih (Hist.step_inv hi e ho hs) hr
      · cases hr
    · cases hr

/-- C8 (amended).  Barrier unanimity over histories.  Start the coordinator with
an empty registry and let it handle any sequence of events (connections of
workers, of name-service connections and of command sockets, `DMT_BARRIER`
messages, hang-ups of workers and of name-service connections, terminal
commands, queued checkpoints) in which every `DMT_BARRIER` message names a
non-empty barrier, comes from a client that has not sent one since the last
release, and does not come from a name-service connection.  Whenever the next
such event makes the coordinator broadcast `DMT_BARRIER_RELEASED` for a barrier
`B`, every client registered at that moment has sent `DMT_BARRIER(B)` since the
previous release. -/
theorem barrier_unanimity (s0 : Coord) (evs : List Event) (h : Hist) (e : Event)
    (s' : Coord) (B : String) (hempty : s0.clients = [])
    (hrun : Hist.run ⟨s0, []⟩ evs = some h) (ho : e.orderly h = true)
    (hs : Dmtcp.step h.coord e = .ok s') (hB : releasedName s' = some B) :
    ∀ c ∈ s'.clients, (c.clientNumber, B) ∈ h.arrivedWith e := by
  have hi0 : Hist.Inv ⟨s0, []⟩ := by
    refine ⟨?_, ?_, ?_, ?_, ?_⟩
    · intro c hc
      rw [hempty] at hc
      cases hc
    · show (s0.clients.map fun c => c.clientNumber).Nodup
      rw [hempty]
      exact List.nodup_nil
    · intro p hp
      cases hp
    · intro hne
      exact absurd hempty hne
    · intro c hc
      rw [hempty] at hc
      cases hc
  have hi := Hist.run_inv hi0 evs hrun
  rcases Hist.step_sound hi e ho s' hs with ⟨hn, _⟩ | ⟨B', hB', hall, _⟩
  · rw [hn] at hB
    cases hB
  · rw [hB'] at hB
    injection hB with hB
    subst hB
    exact hall

/-- The witness of C8: two workers and a name-service connection connect,
client 1 sends `DMT_BARRIER(x)`, and when client 2 sends it too the barrier `x`
is released; both registered clients have sent it. -/
theorem barrier_unanimity_witness :
    Hist.run ⟨Coord.init ⟨false, false, false, "/tmp", 7779⟩, []⟩ sampleLookupEvents
        = some sampleLookupHist
      ∧ Event.orderly sampleLookupHist (.barrier 54 2 "x" .RUNNING) = true
      ∧ step sampleLookupHist.coord (.barrier 54 2 "x" .RUNNING) = .ok sampleLookupReleased
      ∧ releasedName sampleLookupReleased = some "x"
      ∧ (sampleLookupReleased.clients.map fun c => c.clientNumber) = [1, 2]
      ∧ (sampleLookupReleased.lookupClients.map fun c => c.clientNumber) = [3]
      ∧ ∀ c ∈ sampleLookupReleased.clients,
          (c.clientNumber, "x") ∈ sampleLookupHist.arrivedWith (.barrier 54 2 "x" .RUNNING) :=
  ⟨rfl, rfl, rfl, rfl, rfl, rfl,
    barrier_unanimity (Coord.init ⟨false, false, false, "/tmp", 7779⟩) sampleLookupEvents
      sampleLookupHist (.barrier 54 2 "x" .RUNNING) sampleLookupReleased "x" rfl rfl rfl rfl rfl⟩

/-- The counterexample to C8 as it is written: two workers are registered and
only client 1 sends `DMT_BARRIER(x)`, twice.  The second message is counted
like the first, the counter reaches the number of peers, and the barrier `x` is
released to both clients although client 2 has sent no `DMT_BARRIER` at all.
The same happens when the second message comes from a name-service connection
instead: its object is in no registry, `onData` counts its `DMT_BARRIER(x)` all
the same, and the barrier `x` is released to the two workers although client 2
has sent nothing. -/
theorem barrier_released_by_repeated_message :
    (Hist.run ⟨Coord.init ⟨false, false, false, "/tmp", 7779⟩, []⟩ sampleEvents = some sampleHist
      ∧ (sampleHist.coord.clients.map fun c => c.clientNumber) = [1, 2]
      ∧ sampleHist.arrived = [(1, "x")]
      ∧ sampleHist.coord.workersAtCurrentBarrier = 1
      ∧ ((step sampleHist.coord (.barrier 53 1 "x" .RUNNING)).toOption.map fun s' =>
            (releasedName s', s'.clients.map fun c => c.clientNumber,
              s'.sent.map fun m => (m.sock, m.msg.type)))
          = some (some "x", [1, 2],
              [(11, .DMT_BARRIER_RELEASED), (12, .DMT_BARRIER_RELEASED)])
      ∧ sampleHist.arrivedWith (.barrier 53 1 "x" .RUNNING) = [(1, "x"), (1, "x")]
      ∧ (2, "x") ∉ sampleHist.arrivedWith (.barrier 53 1 "x" .RUNNING))
    ∧ (Hist.run ⟨Coord.init ⟨false, false, false, "/tmp", 7779⟩, []⟩ sampleLookupEvents
          = some sampleLookupHist
      ∧ (sampleLookupHist.coord.clients.map fun c => c.clientNumber) = [1, 2]
      ∧ (sampleLookupHist.coord.lookupClients.map fun c => c.clientNumber) = [3]
      ∧ sampleLookupHist.arrived = [(1, "x")]
      ∧ sampleLookupHist.coord.workersAtCurrentBarrier = 1
      ∧ ((step sampleLookupHist.coord (.barrier 54 3 "x" .RUNNING)).toOption.map fun s' =>
            (releasedName s', s'.clients.map fun c => c.clientNumber,
              s'.sent.map fun m => (m.sock, m.msg.type)))
          = some (some "x", [1, 2],
              [(11, .DMT_BARRIER_RELEASED), (12, .DMT_BARRIER_RELEASED)])
      ∧ sampleLookupHist.arrivedWith (.barrier 54 3 "x" .RUNNING) = [(1, "x")]
      ∧ (2, "x") ∉ sampleLookupHist.arrivedWith (.barrier 54 3 "x" .RUNNING)) :=
  ⟨⟨rfl, rfl, rfl, rfl, rfl, rfl, by decide⟩, ⟨rfl, rfl, rfl, rfl, rfl, rfl, rfl, by decide⟩⟩

/-! ## Frames: what each handler leaves alone -/

theorem Aside.same (s : Coord) : Aside s s :=
  ⟨rfl, rfl, rfl, rfl, rfl, rfl, rfl, rfl, id⟩

theorem Aside.chain {a b c : Coord} (h1 : Aside a b) (h2 : Aside b c) : Aside a c :=
  ⟨h2.clients.trans h1.clients, h2.map.trans h1.map, h2.restart.trans h1.restart,
    h2.rsh.trans h1.rsh, h2.ssh.trans h1.ssh, h2.count.trans h1.count,
    h2.scripts.trans h1.scripts, h2.flag.trans h1.flag, fun h => h2.cursor (h1.cursor h)⟩

theorem Aside.started {a b c : Coord} (h1 : Aside a b) (h2 : Started b c) : Started a c :=
  ⟨h2.clients.trans h1.clients, h2.map.trans h1.map, h2.restart, h2.rsh, h2.ssh, h2.count,
    h2.scripts.trans h1.scripts, h1.flag ▸ h2.before, h2.flag, fun h => h2.cursor (h1.cursor h)⟩

theorem Started.aside {a b c : Coord} (h1 : Started a b) (h2 : Aside b c) : Started a c :=
  ⟨h2.clients.trans h1.clients, h2.map.trans h1.map, h2.restart.trans h1.restart,
    h2.rsh.trans h1.rsh, h2.ssh.trans h1.ssh, h2.count.trans h1.count,
    h2.scripts.trans h1.scripts, h1.before, h2.flag.trans h1.flag,
    fun h => h2.cursor (h1.cursor h)⟩

theorem Aside.of_fields {s s' : Coord} (h1 : s'.clients = s.clients)
    (h2 : s'.virtualPidToClientMap = s.virtualPidToClientMap)
    (h3 : s'.restartFilenames = s.restartFilenames)
    (h4 : s'.rshCmdFileNames = s.rshCmdFileNames)
    (h5 : s'.sshCmdFileNames = s.sshCmdFileNames)
    (h6 : s'.numRestartFilenames = s.numRestartFilenames)
    (h7 : s'.scripts = s.scripts)
    (h8 : s'.workersRunningAndSuspendMsgSent = s.workersRunningAndSuspendMsgSent)
    (h9 : s'.nextVirtualPid = s.nextVirtualPid) : Aside s s' :=
  ⟨h1, h2, h3, h4, h5, h6, h7, h8, fun h => h9 ▸ h⟩

theorem aside_send (sock : Int) (msg : DmtcpMessage) (extra : List Char) (s : Coord) :
    Aside s (send sock msg extra s) :=
  Aside.of_fields rfl rfl rfl rfl rfl rfl rfl rfl rfl

theorem aside_broadcastMessage (type : DmtcpMessageType) (n : Nat) (d : List Char) (s : Coord) :
    Aside s (broadcastMessage type n d s) := by
  rw [broadcastMessage_eq]
  exact Aside.of_fields rfl rfl rfl rfl rfl rfl rfl rfl rfl

theorem aside_startCheckpoint (now : Int) (s : Coord) :
    Aside s (startCheckpoint now s).2 ∨ Started s (startCheckpoint now s).2 := by
  cases h : (startCheckpoint now s).1
  · rw [startCheckpoint_of_false now s h]
    exact Or.inl (Aside.same s)
  · right
    have hf := ((startCheckpoint_fst_iff now s).1 h).2.2
    rw [startCheckpoint_of_true now s h, broadcastMessage_eq]
    exact ⟨rfl, rfl, rfl, rfl, rfl, rfl, rfl, hf, rfl, fun h => h⟩

theorem startCheckpoint_while_sent (now : Int) (s : Coord)
    (h : s.workersRunningAndSuspendMsgSent = true) : (startCheckpoint now s).2 = s := by
  apply startCheckpoint_of_false
  cases hc : (startCheckpoint now s).1
  · rfl
  · have hf := ((startCheckpoint_fst_iff now s).1 hc).2.2
    rw [h] at hf
    cases hf

theorem Aside.then {s m s' : Coord} (h1 : Aside s m) (h2 : Aside m s' ∨ Started m s') :
    Aside s s' ∨ Started s s' := by
  rcases h2 with h | h
  · exact Or.inl (h1.chain h)
  · exact Or.inr (h1.started h)

theorem Aside.after {s m s' : Coord} (h1 : Aside s m ∨ Started s m) (h2 : Aside m s') :
    Aside s s' ∨ Started s s' := by
  rcases h1 with h | h
  · exact Or.inl (h.chain h2)
  · exact Or.inr (h.aside h2)

theorem handleUserCommand_state (now : Int) (cmd : String) (reply : Option DmtcpMessage)
    (s : Coord) (r : Option DmtcpMessage × Coord)
    (h : handleUserCommand now cmd reply s = .ok r) :
    r.2 = s ∨ r.2 = { s with replyData := printList s }
      ∨ r.2 = broadcastMessage .DMT_KILL_PEER 0 [] s
      ∨ r.2 = (startCheckpoint now s).2
      ∨ r.2 = (startCheckpoint now { s with blockUntilDone := true }).2
      ∨ r.2 = (startCheckpoint now { s with killAfterCkptOnce := true }).2 := by
  unfold handleUserCommand at h
  simp only at h
  split_ifs at h with h1 h2 h3 h4 h5 h6 h7 h8 h9 h10
  · injection h with h; subst h; exact Or.inr (Or.inr (Or.inr (Or.inr (Or.inl rfl))))
  · injection h with h; subst h; exact Or.inr (Or.inr (Or.inr (Or.inr (Or.inl rfl))))
  · injection h with h; subst h; exact Or.inr (Or.inr (Or.inr (Or.inr (Or.inr rfl))))
  · injection h with h; subst h; exact Or.inr (Or.inr (Or.inr (Or.inr (Or.inr rfl))))
  · injection h with h; subst h; exact Or.inr (Or.inr (Or.inr (Or.inl rfl)))
  · injection h with h; subst h; exact Or.inr (Or.inr (Or.inr (Or.inl rfl)))
  · cases reply with
    | none => injection h with h; subst h; exact Or.inl rfl
    | some m => injection h with h; subst h; exact Or.inr (Or.inl rfl)
  · injection h with h; subst h; exact Or.inl rfl
  · injection h with h; subst h; exact Or.inl rfl
  · injection h with h; subst h; exact Or.inr (Or.inr (Or.inl rfl))
  · injection h with h; subst h; exact Or.inl rfl
  · injection h with h; subst h; exact Or.inl rfl
  · injection h with h; subst h; exact Or.inl rfl
  · injection h with h; subst h; exact Or.inl rfl

theorem aside_handleUserCommand (now : Int) (cmd : String) (reply : Option DmtcpMessage)
    (s : Coord) (r : Option DmtcpMessage × Coord)
    (h : handleUserCommand now cmd reply s = .ok r) : Aside s r.2 ∨ Started s r.2 := by
  rcases handleUserCommand_state now cmd reply s r h with h | h | h | h | h | h
  · rw [h]; exact Or.inl (Aside.same s)
  · rw [h]; exact Or.inl (Aside.of_fields rfl rfl rfl rfl rfl rfl rfl rfl rfl)
  · rw [h]; exact Or.inl (aside_broadcastMessage _ _ _ _)
  · rw [h]; exact aside_startCheckpoint now _
  · rw [h]
    have h1 : Aside s { s with blockUntilDone := true } :=
      Aside.of_fields rfl rfl rfl rfl rfl rfl rfl rfl rfl
    exact h1.then (aside_startCheckpoint now _)
  · rw [h]
    have h1 : Aside s { s with killAfterCkptOnce := true } :=
      Aside.of_fields rfl rfl rfl rfl rfl rfl rfl rfl rfl
    exact h1.then (aside_startCheckpoint now _)

/-! ### The allocator loop -/

theorem candidate_succ (c : Int) (k : Nat) :
    candidate (nextCandidate c) k = candidate c (k + 1) := by
  induction k with
  | zero => rfl
  | succ n ih =>
    show nextCandidate (candidate (nextCandidate c) n) = nextCandidate (candidate c (n + 1))
    rw [ih]

theorem isCandidate_next (c : Int) (h : isCandidate c) : isCandidate (nextCandidate c) := by
  unfold isCandidate nextCandidate INITIAL_VIRTUAL_PID MAX_VIRTUAL_PID VIRTUAL_PID_STEP at *
  split_ifs <;> omega

theorem isCandidate_candidate (c : Int) (h : isCandidate c) (k : Nat) :
    isCandidate (candidate c k) := by
  induction k with
  | zero => exact h
  | succ n ih => exact isCandidate_next _ ih

theorem all_ne_iff (m : List (Int × Int)) (pid : Int) :
    (m.all fun kv => decide (kv.1 ≠ pid)) = true ↔ pid ∉ mapKeys m := by
  simp only [List.all_eq_true, decide_eq_true_eq, mapKeys, List.mem_map, not_exists, not_and]

theorem getNewVirtualPidLoop_spec (fuel : Nat) (s : Coord) (pid : Int) (s' : Coord)
    (h : getNewVirtualPidLoop fuel s = some (pid, s')) :
    ∃ k : Nat, k < fuel ∧ pid = candidate s.nextVirtualPid k
      ∧ (∀ j < k, candidate s.nextVirtualPid j ∈ mapKeys s.virtualPidToClientMap)
      ∧ pid ∉ mapKeys s.virtualPidToClientMap
      ∧ s' = { s with nextVirtualPid := candidate s.nextVirtualPid (k + 1) } := by
  induction fuel generalizing s with
  | zero => simp [getNewVirtualPidLoop] at h
  | succ n ih =>
    simp only [getNewVirtualPidLoop] at h
    by_cases hfree : (s.virtualPidToClientMap.all fun kv => decide (kv.1 ≠ s.nextVirtualPid)) = true
    · rw [if_pos hfree] at h
      injection h with h
      injection h with h1 h2
      refine ⟨0, Nat.succ_pos n, h1.symm, fun j hj => absurd hj (Nat.not_lt_zero j),
        h1 ▸ (all_ne_iff _ _).1 hfree, ?_⟩
      rw [← h2]
      rfl
    · rw [if_neg hfree] at h
      obtain ⟨k, hk, hp, hall, hnot, hs'⟩ := ih _ h
      refine ⟨k + 1, Nat.succ_lt_succ hk, ?_, ?_, hnot, ?_⟩
      · rw [hp]
        exact candidate_succ _ _
      · intro j hj
        cases j with
        | zero =>
          by_contra hc
          exact hfree ((all_ne_iff _ _).2 hc)
        | succ i =>
          rw [← candidate_succ]
          exact hall i (Nat.lt_of_succ_lt_succ hj)
      · rw [hs']
        have e : candidate s.nextVirtualPid (k + 1 + 1)
            = candidate (nextCandidate s.nextVirtualPid) (k + 1) := (candidate_succ _ _).symm
        rw [e]
        rfl

theorem getNewVirtualPid_spec (s : Coord) (pid : Int) (s' : Coord)
    (h : getNewVirtualPid s = .ok (pid, s')) :
    ∃ k : Nat, pid = candidate s.nextVirtualPid k
      ∧ (∀ j < k, candidate s.nextVirtualPid j ∈ mapKeys s.virtualPidToClientMap)
      ∧ pid ∉ mapKeys s.virtualPidToClientMap
      ∧ s' = { s with nextVirtualPid := candidate s.nextVirtualPid (k + 1) } := by
  unfold getNewVirtualPid at h
  split_ifs at h
  split at h
  · cases h
  · rename_i r hr
    injection h with h
    subst h
    obtain ⟨k, _, h1, h2, h3, h4⟩ := getNewVirtualPidLoop_spec _ _ _ _ hr
    exact ⟨k, h1, h2, h3, h4⟩

theorem aside_getNewVirtualPid (s : Coord) (r : Int × Coord)
    (h : getNewVirtualPid s = .ok r) :
    Aside s r.2 ∧ r.1 ∉ mapKeys s.virtualPidToClientMap
      ∧ (isCandidate s.nextVirtualPid → isCandidate r.1) := by
  obtain ⟨pid, s'⟩ := r
  obtain ⟨k, hp, _, hnot, hs'⟩ := getNewVirtualPid_spec s pid s' h
  refine ⟨?_, hnot, fun hc => hp ▸ isCandidate_candidate _ hc k⟩
  subst hs'
  exact ⟨rfl, rfl, rfl, rfl, rfl, rfl, rfl, rfl, fun hc => isCandidate_candidate _ hc (k + 1)⟩

/-! ### Handlers that leave the registry and the books alone -/

theorem aside_processDmtUserCmd (now : Int) (hello : DmtcpMessage) (remote : Int) (s : Coord)
    (s' : Coord) (h : processDmtUserCmd now hello remote s = .ok s') :
    Aside s s' ∨ Started s s' := by
  unfold processDmtUserCmd at h
  split at h
  · split at h
    · cases h
    · rename_i r hr
      injection h with h
      subst h
      have h1 : Aside s { s with blockUntilDoneRemote := remote } :=
        Aside.of_fields rfl rfl rfl rfl rfl rfl rfl rfl rfl
      exact h1.then (aside_handleUserCommand _ _ _ _ _ hr)
  split at h
  all_goals
    split at h
    · cases h
    · rename_i r hr
      injection h with h
      subst h
      exact Aside.after (aside_handleUserCommand _ _ _ _ _ hr)
        (Aside.of_fields rfl rfl rfl rfl rfl rfl rfl rfl rfl)

theorem aside_validateRestartingWorkerProcess (now : Int) (hello : DmtcpMessage) (remote : Int)
    (remoteAddr : Int) (s : Coord) (r : Bool × Coord)
    (h : validateRestartingWorkerProcess now hello remote remoteAddr s = .ok r) :
    Aside s r.2 := by
  unfold validateRestartingWorkerProcess at h
  simp only at h
  split_ifs at h
  all_goals
    injection h with h
    subst h
    exact Aside.of_fields rfl rfl rfl rfl rfl rfl rfl rfl rfl

theorem aside_ResendDoCheckpointMsgToWorker (client : CoordClient) (s s' : Coord)
    (h : ResendDoCheckpointMsgToWorker client s = .ok s') : Aside s s' := by
  unfold ResendDoCheckpointMsgToWorker at h
  simp only at h
  split_ifs at h
  injection h with h
  subst h
  exact aside_send _ _ _ _

theorem aside_createComputationGroup (now : Int) (hello : DmtcpMessage) (pid : Int)
    (s : Coord) : Aside s (createComputationGroup now hello pid s) := by
  unfold createComputationGroup
  split
  · exact Aside.of_fields rfl rfl rfl rfl rfl rfl rfl rfl rfl
  · exact Aside.same s

theorem aside_validateNewWorkerProcess (now : Int) (hello : DmtcpMessage) (remote : Int)
    (client : CoordClient) (remoteAddr : Int) (s : Coord) (r : Bool × CoordClient × Coord)
    (h : validateNewWorkerProcess now hello remote client remoteAddr s = .ok r) :
    Aside s r.2.2
      ∧ (r.1 = true → r.2.1.virtualPid ∉ mapKeys s.virtualPidToClientMap
          ∧ (isCandidate s.nextVirtualPid → isCandidate r.2.1.virtualPid)) := by
  unfold validateNewWorkerProcess at h
  split at h
  · injection h with h
    subst h
    exact ⟨Aside.same s, fun hf => by cases hf⟩
  split at h
  · injection h with h
    subst h
    exact ⟨Aside.same s, fun hf => by cases hf⟩
  split at h
  · cases h
  rename_i pid s1 hg
  obtain ⟨hc, hfree, hcand⟩ := aside_getNewVirtualPid _ _ hg
  split at h
  · split at h
    · cases h
    · rename_i s3 hr
      injection h with h
      subst h
      exact ⟨hc.chain ((aside_send _ _ _ _).chain (aside_ResendDoCheckpointMsgToWorker _ _ _ hr)),
        fun _ => ⟨hfree, hcand⟩⟩
  split at h
  · injection h with h
    subst h
    exact ⟨hc.chain (Aside.of_fields rfl rfl rfl rfl rfl rfl rfl rfl rfl), fun hf => by cases hf⟩
  split at h
  · injection h with h
    subst h
    exact ⟨hc.chain (Aside.of_fields rfl rfl rfl rfl rfl rfl rfl rfl rfl), fun hf => by cases hf⟩
  injection h with h
  subst h
  exact ⟨hc.chain ((aside_createComputationGroup now hello pid s1).chain (aside_send _ _ _ _)),
    fun _ => ⟨hfree, hcand⟩⟩

theorem aside_releaseBarrier (b : String) (s : Coord) : Aside s (releaseBarrier b s) := by
  rw [releaseBarrier_eq]
  split
  · exact Aside.of_fields rfl rfl rfl rfl rfl rfl rfl rfl rfl
  · exact Aside.same s

theorem aside_processBarrier (b : String) (s s' : Coord) (h : processBarrier b s = .ok s') :
    Aside s s' := by
  unfold processBarrier at h
  split_ifs at h
  all_goals
    injection h with h
    subst h
    refine Aside.chain ?_ (aside_releaseBarrier b _)
    exact Aside.of_fields rfl rfl rfl rfl rfl rfl rfl rfl rfl

/-! ### Connections -/

theorem onConnectWorker_pids (now remote remoteAddr : Int) (hello : DmtcpMessage)
    (client : CoordClient) (s s' : Coord)
    (h : onConnectWorker now remote remoteAddr hello client s = .ok s') :
    ∃ m : Coord, Aside s m
      ∧ (s' = m ∨ ∃ c : CoordClient, s' = registerClient c m
          ∧ ((hello.type = .DMT_RESTART_WORKER ∧ c.virtualPid = hello.src.pid)
            ∨ (hello.type = .DMT_NEW_WORKER
                ∧ c.virtualPid ∉ mapKeys s.virtualPidToClientMap
                ∧ (isCandidate s.nextVirtualPid → isCandidate c.virtualPid)))) := by
  unfold onConnectWorker at h
  split at h
  · rename_i ht
    split at h
    · cases h
    · rename_i r hr
      have hc := aside_validateRestartingWorkerProcess _ _ _ _ _ _ hr
      split at h
      · injection h with h
        exact ⟨r.2, hc, Or.inr ⟨_, h.symm, Or.inl ⟨ht, rfl⟩⟩⟩
      · injection h with h
        exact ⟨r.2, hc, Or.inl h.symm⟩
  split at h
  · rename_i ht
    split at h
    · cases h
    · rename_i r hr
      have hc := aside_validateNewWorkerProcess _ _ _ _ _ _ _ hr
      split at h
      · rename_i hacc
        injection h with h
        exact ⟨r.2.2, hc.1, Or.inr ⟨_, h.symm, Or.inr ⟨ht, hc.2 hacc⟩⟩⟩
      · injection h with h
        exact ⟨r.2.2, hc.1, Or.inl h.symm⟩
  · injection h with h
    exact ⟨s', h ▸ Aside.of_fields rfl rfl rfl rfl rfl rfl rfl rfl rfl, Or.inl rfl⟩

/-- What `initializeComputation` leaves alone when `onConnect` calls it. -/
theorem initializedIfEmpty_books (s : Coord) :
    (initializedIfEmpty s).clients = s.clients
      ∧ (initializedIfEmpty s).virtualPidToClientMap = s.virtualPidToClientMap
      ∧ (initializedIfEmpty s).restartFilenames = s.restartFilenames
      ∧ (initializedIfEmpty s).rshCmdFileNames = s.rshCmdFileNames
      ∧ (initializedIfEmpty s).sshCmdFileNames = s.sshCmdFileNames
      ∧ (initializedIfEmpty s).numRestartFilenames = s.numRestartFilenames
      ∧ (initializedIfEmpty s).scripts = s.scripts
      ∧ (initializedIfEmpty s).nextVirtualPid = s.nextVirtualPid
      ∧ ((initializedIfEmpty s).workersRunningAndSuspendMsgSent = s.workersRunningAndSuspendMsgSent
          ∨ (initializedIfEmpty s).workersRunningAndSuspendMsgSent = false) := by
  unfold initializedIfEmpty
  split
  · exact ⟨rfl, rfl, rfl, rfl, rfl, rfl, rfl, rfl, Or.inr rfl⟩
  · exact ⟨rfl, rfl, rfl, rfl, rfl, rfl, rfl, rfl, Or.inl rfl⟩

theorem onConnect_pids (now remote remoteAddr : Int) (hello : DmtcpMessage)
    (extraData : List Char) (s s' : Coord)
    (h : onConnect now remote remoteAddr hello extraData s = .ok s') :
    (Aside s s' ∨ Started s s')
      ∨ ∃ m : Coord, Aside (initializedIfEmpty s) m
        ∧ (s' = m ∨ ∃ c : CoordClient, s' = registerClient c m
            ∧ ((hello.type = .DMT_RESTART_WORKER ∧ c.virtualPid = hello.src.pid)
              ∨ (hello.type = .DMT_NEW_WORKER
                  ∧ c.virtualPid ∉ mapKeys s.virtualPidToClientMap
                  ∧ (isCandidate s.nextVirtualPid → isCandidate c.virtualPid)))) := by
  unfold onConnect at h
  split at h
  · injection h with h
    subst h
    exact Or.inl (Or.inl (Aside.of_fields rfl rfl rfl rfl rfl rfl rfl rfl rfl))
  split at h
  · exact Or.inl (aside_processDmtUserCmd _ _ _ _ _ h)
  split at h
  · injection h with h
    subst h
    exact Or.inl (Or.inl (Aside.of_fields rfl rfl rfl rfl rfl rfl rfl rfl rfl))
  obtain ⟨m, hm, hs'⟩ := onConnectWorker_pids _ _ _ _ _ _ _ h
  have hb := initializedIfEmpty_books s
  have h0 : Aside (initializedIfEmpty s) (CoordClient.new remote remoteAddr hello (initializedIfEmpty s)).2 :=
    Aside.of_fields rfl rfl rfl rfl rfl rfl rfl rfl rfl
  refine Or.inr ⟨m, h0.chain hm, ?_⟩
  have e1 : (CoordClient.new remote remoteAddr hello (initializedIfEmpty s)).2.virtualPidToClientMap
      = s.virtualPidToClientMap := hb.2.1
  have e2 : (CoordClient.new remote remoteAddr hello (initializedIfEmpty s)).2.nextVirtualPid
      = s.nextVirtualPid := hb.2.2.2.2.2.2.2.1
  rw [e1, e2] at hs'
  exact hs'

/-! ### Departures and messages -/

theorem Aside.settled {s s' : Coord} (h : Aside s s') : Settled s s' :=
  ⟨h.restart, h.rsh, h.ssh, h.count, h.scripts, Or.inl h.flag, h.cursor⟩

theorem Aside.kept {s s' : Coord} (h : Aside s s') : RegistryKept s s' :=
  ⟨by unfold registryPids; rw [h.clients], h.map⟩

theorem Started.keeps {s s' : Coord} (h : Started s s') : RegistryKept s s' :=
  ⟨by unfold registryPids; rw [h.clients], h.map⟩

theorem handleUserCommand_q (now : Int) (reply : Option DmtcpMessage) (s : Coord)
    (r : Option DmtcpMessage × Coord) : handleUserCommand now "q" reply s ≠ .ok r := by
  intro h
  simp [handleUserCommand] at h

theorem onDisconnect_books (now : Int) (client : CoordClient) (s s' : Coord)
    (h : onDisconnect now client s = .ok s') :
    Settled s s'
      ∧ ((client.isNSWorker = true ∧ RegistryKept s s')
        ∨ (s'.clients = eraseClient client s.clients
            ∧ s'.virtualPidToClientMap = mapErase client.virtualPid s.virtualPidToClientMap)) := by
  by_cases hns : client.isNSWorker = true
  · unfold onDisconnect at h
    rw [if_pos hns] at h
    injection h with h
    subst h
    have ha : Aside s { s with closed := s.closed ++ [client.sock] } :=
      Aside.of_fields rfl rfl rfl rfl rfl rfl rfl rfl rfl
    exact ⟨ha.settled, Or.inl ⟨hns, ha.kept⟩⟩
  have hns' : client.isNSWorker = false := by simpa using hns
  by_cases hrem : eraseClient client s.clients = []
  · unfold onDisconnect at h
    simp only [hns', Bool.false_eq_true, if_false, getStatus_numPeers, hrem, List.length_nil] at h
    by_cases hx : s.flags.exitOnLast = true
    · simp [hx, handleUserCommand] at h
    · simp only [hx] at h
      simp at h
      subst h
      exact ⟨⟨rfl, rfl, rfl, rfl, rfl, Or.inl rfl, fun hc => hc⟩, Or.inr ⟨hrem.symm ▸ rfl, rfl⟩⟩
  · rw [onDisconnect_eq now client s hns' hrem] at h
    split at h
    · injection h with h
      subst h
      have ha := aside_releaseBarrier s.currentBarrier
        { s with
          clients := eraseClient client s.clients
          closed := s.closed ++ [client.sock]
          virtualPidToClientMap := mapErase client.virtualPid s.virtualPidToClientMap
          workersAtCurrentBarrier :=
            s.workersAtCurrentBarrier - (if client.barrier = s.currentBarrier then 1 else 0) }
      exact ⟨⟨ha.restart, ha.rsh, ha.ssh, ha.count, ha.scripts, Or.inl ha.flag, ha.cursor⟩,
        Or.inr ⟨ha.clients, ha.map⟩⟩
    · injection h with h
      subst h
      exact ⟨⟨rfl, rfl, rfl, rfl, rfl, Or.inl rfl, fun hc => hc⟩, Or.inr ⟨rfl, rfl⟩⟩

theorem countFilenames_push (h f : String) (acc : List (String × List String)) :
    countFilenames (pushFilename h f acc) = countFilenames acc + 1 := by
  induction acc with
  | nil => simp [pushFilename, countFilenames]
  | cons p rest ih =>
    obtain ⟨h', fs⟩ := p
    unfold pushFilename
    split
    · simp only [countFilenames, List.map_cons, List.sum_cons, List.length_append,
        List.length_singleton]
      push_cast
      ring
    · simp only [countFilenames, List.map_cons, List.sum_cons] at ih ⊢
      push_cast at ih ⊢
      rw [ih]
      ring

theorem recordCkptFilename_ok (client : CoordClient) (d : List Char) (s : Coord)
    (hshell : shellTypeOf d = "" ∨ shellTypeOf d = "rsh" ∨ shellTypeOf d = "ssh") :
    ∃ s', recordCkptFilename client (some d) s = .ok s'
      ∧ s'.clients = updateClient client { client with state := .CHECKPOINTED } s.clients
      ∧ s'.virtualPidToClientMap = s.virtualPidToClientMap
      ∧ s'.nextVirtualPid = s.nextVirtualPid
      ∧ storedFilenames s' = storedFilenames s + 1
      ∧ (s.numRestartFilenames + 1 = s.numCkptWorkers → completed s s')
      ∧ (s.numRestartFilenames + 1 ≠ s.numCkptWorkers → recorded s s') := by
  unfold shellTypeOf at hshell
  by_cases hc : s.numRestartFilenames + 1 = s.numCkptWorkers
  · by_cases hb : s.blockUntilDone = true
    · rcases hshell with h | h | h
      all_goals
        refine ⟨_, by simp [recordCkptFilename, h, hc, hb]; rfl, ?_⟩
        simp [storedFilenames, countFilenames_push, completed, recordEvent, send, hc]
        ring
    · rcases hshell with h | h | h
      all_goals
        refine ⟨_, by simp [recordCkptFilename, h, hc, hb]; rfl, ?_⟩
        simp [storedFilenames, countFilenames_push, completed, recordEvent, hc]
        ring
  · rcases hshell with h | h | h
    all_goals
      refine ⟨_, by simp [recordCkptFilename, h, hc]; rfl, ?_⟩
      simp [storedFilenames, countFilenames_push, recorded, hc]
      ring

theorem updateClient_pids (old new : CoordClient) (l : List CoordClient)
    (h : new.virtualPid = old.virtualPid) :
    ((updateClient old new l).map fun c => c.virtualPid) = l.map fun c => c.virtualPid := by
  induction l with
  | nil => rfl
  | cons c rest ih =>
    unfold updateClient
    split
    · rename_i hc
      subst hc
      simp [h]
    · simp only [List.map_cons, ih]

theorem updateClient_mem (old new : CoordClient) (l : List CoordClient) (hmem : old ∈ l) :
    new ∈ updateClient old new l := by
  induction l with
  | nil => cases hmem
  | cons c rest ih =>
    unfold updateClient
    split
    · exact List.mem_cons_self _ _
    · rename_i hc
      rcases List.mem_cons.1 hmem with h | h
      · exact absurd h.symm hc
      · exact List.mem_cons_of_mem _ (ih h)

theorem recordCkptFilename_books (client : CoordClient) (extraData : Option (List Char))
    (m s' : Coord) (h : recordCkptFilename client extraData m = .ok s') :
    RegistryKept m s' ∧ storedFilenames s' = storedFilenames m + 1
      ∧ s'.nextVirtualPid = m.nextVirtualPid ∧ (recorded m s' ∨ completed m s') := by
  cases extraData with
  | none => simp [recordCkptFilename] at h
  | some d =>
    by_cases hshell : shellTypeOf d = "" ∨ shellTypeOf d = "rsh" ∨ shellTypeOf d = "ssh"
    · obtain ⟨t, ht, hcl, hmap, hcur, hst, hdone, hrec⟩ := recordCkptFilename_ok client d m hshell
      rw [ht] at h
      injection h with h
      subst h
      refine ⟨⟨?_, hmap⟩, hst, hcur, ?_⟩
      · unfold registryPids
        rw [hcl]
        exact updateClient_pids _ _ _ rfl
      · by_cases hc : m.numRestartFilenames + 1 = m.numCkptWorkers
        · exact Or.inr (hdone hc)
        · exact Or.inl (hrec hc)
    · unfold shellTypeOf at hshell
      push_neg at hshell
      simp [recordCkptFilename, hshell.1, hshell.2.1, hshell.2.2] at h

theorem recordCkptFilename_done (client : CoordClient) (extraData : Option (List Char))
    (m s' : Coord) (h : recordCkptFilename client extraData m = .ok s')
    (hc : m.numRestartFilenames + 1 = m.numCkptWorkers) : completed m s' := by
  cases extraData with
  | none => simp [recordCkptFilename] at h
  | some d =>
    by_cases hshell : shellTypeOf d = "" ∨ shellTypeOf d = "rsh" ∨ shellTypeOf d = "ssh"
    · obtain ⟨t, ht, _, _, _, _, hdone, _⟩ := recordCkptFilename_ok client d m hshell
      rw [ht] at h
      injection h with h
      subst h
      exact hdone hc
    · unfold shellTypeOf at hshell
      push_neg at hshell
      simp [recordCkptFilename, hshell.1, hshell.2.1, hshell.2.2] at h

theorem aside_clients (s : Coord) (L : List CoordClient) (F : CoordFlags) (s' : Coord)
    (hL : (L.map fun c => c.virtualPid) = registryPids s)
    (ha : Aside { s with clients := L, flags := F } s') :
    RegistryKept s s' ∧ Settled s s' := by
  refine ⟨⟨?_, ha.map⟩, ⟨ha.restart, ha.rsh, ha.ssh, ha.count, ha.scripts, Or.inl ha.flag,
    ha.cursor⟩⟩
  unfold registryPids
  rw [ha.clients]
  exact hL

theorem onData_kept (s : Coord) (L : List CoordClient) (F : CoordFlags) (s' : Coord)
    (hL : (L.map fun c => c.virtualPid) = registryPids s)
    (ha : Aside { s with clients := L, flags := F } s') :
    (RegistryKept s s' ∨ RegistryErased s s') ∧ Settled s s' :=
  ⟨Or.inl (aside_clients s L F s' hL ha).1, (aside_clients s L F s' hL ha).2⟩

theorem onData_default (now : Int) (client : CoordClient) (st : WorkerState) (s s' : Coord)
    (hmem : client ∈ s.clients)
    (h : onDisconnect now { client with state := st }
      { s with clients := updateClient client { client with state := st } s.clients } = .ok s') :
    (RegistryKept s s' ∨ RegistryErased s s') ∧ Settled s s' := by
  obtain ⟨hs, hr⟩ := onDisconnect_books _ _ _ _ h
  have hp : ((updateClient client { client with state := st } s.clients).map
      fun c => c.virtualPid) = registryPids s := updateClient_pids _ _ _ rfl
  refine ⟨?_, ⟨hs.restart, hs.rsh, hs.ssh, hs.count, hs.scripts, hs.flag, hs.cursor⟩⟩
  rcases hr with ⟨_, hk⟩ | ⟨hc, hm⟩
  · exact Or.inl ⟨hk.1.trans hp, hk.2⟩
  · exact Or.inr ⟨_, _, hp, updateClient_mem _ _ _ hmem, hc, hm⟩

theorem onData_summary (now : Int) (client : CoordClient) (msg : DmtcpMessage)
    (extra : List Char) (s s' : Coord) (hmem : client ∈ s.clients)
    (h : onData now client msg extra s = .ok s') :
    (RegistryKept s s' ∨ RegistryErased s s')
      ∧ ((msg.type ≠ .DMT_CKPT_FILENAME ∧ msg.type ≠ .DMT_UNIQUE_CKPT_FILENAME) → Settled s s')
      ∧ ((msg.type = .DMT_CKPT_FILENAME ∨ msg.type = .DMT_UNIQUE_CKPT_FILENAME) →
          storedFilenames s' = storedFilenames s + 1
            ∧ (isCandidate s.nextVirtualPid → isCandidate s'.nextVirtualPid)
            ∧ (recorded s s' ∨ completed s s')) := by
  obtain ⟨type, state, src, compGroup, virtualPid, realPid, barrier, extraBytes, numPeers,
    isRunning, coordCmd, coordCmdStatus, coordTimeStamp, theCheckpointInterval, ipAddr,
    exitAfterCkpt⟩ := msg
  have hp1 : ((updateClient client { client with state := state } s.clients).map
      fun c => c.virtualPid) = registryPids s := updateClient_pids _ _ _ rfl
  have hfile : ∀ (u : Bool) (e : Option (List Char)),
      recordCkptFilename { client with state := state } e
        { s with clients := updateClient client { client with state := state } s.clients,
                 uniqueCkptFilenames := u } = .ok s' →
      (RegistryKept s s' ∨ RegistryErased s s')
        ∧ storedFilenames s' = storedFilenames s + 1
            ∧ (isCandidate s.nextVirtualPid → isCandidate s'.nextVirtualPid)
            ∧ (recorded s s' ∨ completed s s') := by
    intro u e he
    obtain ⟨hk, hst, hcur, hrc⟩ := recordCkptFilename_books _ _ _ _ he
    exact ⟨Or.inl ⟨hk.1.trans hp1, hk.2⟩, hst, fun hc => hcur ▸ hc, hrc⟩
  cases type
  case DMT_CKPT_FILENAME =>
    have h2 := hfile s.uniqueCkptFilenames _ h
    exact ⟨h2.1, fun hn => absurd rfl hn.1, fun _ => h2.2⟩
  case DMT_UNIQUE_CKPT_FILENAME =>
    have h2 := hfile true _ h
    exact ⟨h2.1, fun hn => absurd rfl hn.2, fun _ => h2.2⟩
  all_goals
    refine (fun x : (RegistryKept s s' ∨ RegistryErased s s') ∧ Settled s s' =>
      ⟨x.1, fun _ => x.2, fun hf => by rcases hf with hf | hf <;> cases hf⟩) ?_
  case DMT_WORKER_RESUMING =>
    simp only [onData] at h
    have hp2 : ((updateClient { client with state := state }
        { client with state := state, barrier := "" }
        (updateClient client { client with state := state } s.clients)).map
        fun c => c.virtualPid) = registryPids s := by
        rw [updateClient_pids]
        · exact hp1
        · rfl
    split_ifs at h
    all_goals
      injection h with h
      subst h
      apply onData_kept s _ s.flags _ hp2
      exact Aside.of_fields rfl rfl rfl rfl rfl rfl rfl rfl rfl
  case DMT_BARRIER =>
    have hp2 : ((updateClient { client with state := state }
        { client with state := state, barrier := barrier }
        (updateClient client { client with state := state } s.clients)).map
        fun c => c.virtualPid) = registryPids s := by
        rw [updateClient_pids]
        · exact hp1
        · rfl
    apply onData_kept s _ s.flags _ hp2
    exact aside_processBarrier _ _ _ h
  case DMT_GET_CKPT_DIR =>
    simp only [onData] at h
    injection h with h
    subst h
    apply onData_kept s _ s.flags _ hp1
    exact aside_send _ _ _ _
  case DMT_UPDATE_CKPT_DIR =>
    simp only [onData] at h
    split at h
    · cases h
    · split_ifs at h
      all_goals
        injection h with h
        subst h
        apply onData_kept s _ _ _ hp1
        exact Aside.same _
  case DMT_UPDATE_PROCESS_INFO_AFTER_FORK =>
    simp only [onData] at h
    injection h with h
    subst h
    have hp2 : ((updateClient { client with state := state }
        { client with state := state, identity := src, realPid := realPid }
        (updateClient client { client with state := state } s.clients)).map
        fun c => c.virtualPid) = registryPids s := by
        rw [updateClient_pids]
        · exact hp1
        · rfl
    apply onData_kept s _ s.flags _ hp2
    exact Aside.same _
  case DMT_UPDATE_PROCESS_INFO_AFTER_INIT_OR_EXEC =>
    simp only [onData] at h
    split at h
    · cases h
    · rename_i d hd
      have hp2 : ((updateClient { client with state := state }
          { client with state := state, progname := cstrAt d 0, identity := src }
          (updateClient client { client with state := state } s.clients)).map
          fun c => c.virtualPid) = registryPids s := by
          rw [updateClient_pids]
          · exact hp1
          · rfl
      split_ifs at h
      · apply onData_kept s _ s.flags _ hp2
        exact aside_ResendDoCheckpointMsgToWorker _ _ _ h
      · injection h with h
        subst h
        apply onData_kept s _ s.flags _ hp2
        exact Aside.same _
  case DMT_KVDB_REQUEST =>
    simp only [onData] at h
    injection h with h
    subst h
    apply onData_kept s _ s.flags _ hp1
    exact Aside.same _
  all_goals exact onData_default now client state s s' hmem h

/-! ### One round of the event loop -/

theorem settled_of_registerClient {s m : Coord} (c : CoordClient) (h : Settled s m) :
    Settled s (registerClient c m) :=
  ⟨h.restart, h.rsh, h.ssh, h.count, h.scripts, h.flag, h.cursor⟩

theorem settled_of_initialized {s m : Coord} (h : Aside (initializedIfEmpty s) m) :
    Settled s m := by
  obtain ⟨_, _, h3, h4, h5, h6, h7, h8, h9⟩ := initializedIfEmpty_books s
  refine ⟨h.restart.trans h3, h.rsh.trans h4, h.ssh.trans h5, h.count.trans h6,
    h.scripts.trans h7, ?_, fun hc => h.cursor (h8 ▸ hc)⟩
  rcases h9 with h9 | h9
  · exact Or.inl (h.flag.trans h9)
  · exact Or.inr (h.flag.trans h9)

theorem Settled.fromFresh {s s' : Coord} (h : Settled (freshLogs s) s') : Settled s s' :=
  ⟨h.restart, h.rsh, h.ssh, h.count, h.scripts, h.flag, h.cursor⟩

theorem Started.ofFresh {s s' : Coord} (h : Started (freshLogs s) s') : Started s s' :=
  ⟨h.clients, h.map, h.restart, h.rsh, h.ssh, h.count, h.scripts, h.before, h.flag, h.cursor⟩

theorem Aside.fresh {s s' : Coord} (h : Aside (freshLogs s) s') : Aside s s' :=
  ⟨h.clients, h.map, h.restart, h.rsh, h.ssh, h.count, h.scripts, h.flag, h.cursor⟩

theorem react_books (s : Coord) (i : Input) (s' : Coord) (h : react s i = .ok s') :
    (i.isFilename s = false → Settled s s' ∨ Started s s')
      ∧ (i.isFilename s = true →
          storedFilenames s' = storedFilenames s + 1
            ∧ (isCandidate s.nextVirtualPid → isCandidate s'.nextVirtualPid)
            ∧ (recorded s s' ∨ completed s s')) := by
  cases i with
  | connect now remote remoteAddr hello extraData =>
    refine ⟨fun _ => ?_, fun hf => by cases hf⟩
    rcases onConnect_pids _ _ _ _ _ _ _ h with (ha | ha) | ⟨m, hm, hs'⟩
    · exact Or.inl ha.fresh.settled
    · exact Or.inr ha.ofFresh
    · have hset : Settled s m := (settled_of_initialized hm).fromFresh
      rcases hs' with rfl | ⟨c, rfl, _⟩
      · exact Or.inl hset
      · exact Or.inl (settled_of_registerClient c hset)
  | data now n msg extra =>
    simp only [react] at h
    cases hf : findClient n s with
    | none =>
      rw [hf] at h
      injection h with h
      subst h
      refine ⟨fun _ => Or.inl (Aside.settled (Aside.of_fields rfl rfl rfl rfl rfl rfl rfl rfl rfl)),
        fun hx => ?_⟩
      simp [Input.isFilename, hf] at hx
    | some c =>
      rw [hf] at h
      have hmem : c ∈ (freshLogs s).clients := (findClient_some n s c hf).1
      obtain ⟨_, hno, hyes⟩ := onData_summary now c msg extra (freshLogs s) s' hmem h
      constructor
      · intro hx
        simp only [Input.isFilename, hf, Option.isSome_some, Bool.true_and, Bool.or_eq_false_iff,
          decide_eq_false_iff_not] at hx
        exact Or.inl (hno hx).fromFresh
      · intro hx
        simp only [Input.isFilename, hf, Option.isSome_some, Bool.true_and, Bool.or_eq_true,
          decide_eq_true_eq] at hx
        exact hyes hx
  | disconnect now n =>
    refine ⟨fun _ => ?_, fun hf => by cases hf⟩
    simp only [react] at h
    cases hf : findClient n s with
    | none =>
      rw [hf] at h
      injection h with h
      subst h
      exact Or.inl (Aside.settled (Aside.of_fields rfl rfl rfl rfl rfl rfl rfl rfl rfl))
    | some c =>
      rw [hf] at h
      exact Or.inl (onDisconnect_books _ _ _ _ h).1.fromFresh
  | userCommand now cmd =>
    refine ⟨fun _ => ?_, fun hf => by cases hf⟩
    simp only [react] at h
    split_ifs at h
    · split at h
      · cases h
      · rename_i r hr
        injection h with h
        subst h
        rcases aside_handleUserCommand _ _ _ _ _ hr with ha | ha
        · exact Or.inl ha.fresh.settled
        · exact Or.inr ha.ofFresh
    · injection h with h
      subst h
      exact Or.inl (Aside.settled (Aside.of_fields rfl rfl rfl rfl rfl rfl rfl rfl rfl))
  | queuedCheckpoint now =>
    refine ⟨fun _ => ?_, fun hf => by cases hf⟩
    simp only [react] at h
    injection h with h
    subst h
    have h1 : Aside s { freshLogs s with checkpointQueued := false } :=
      Aside.of_fields rfl rfl rfl rfl rfl rfl rfl rfl rfl
    rcases h1.then (aside_startCheckpoint now _) with ha | ha
    · exact Or.inl ha.settled
    · exact Or.inr ha

theorem react_registry (s : Coord) (i : Input) (s' : Coord) (h : react s i = .ok s') :
    RegistryKept s s' ∨ RegistryErased s s'
      ∨ ∃ c : CoordClient, RegistryAdded s s' c ∧ i.brings s c.virtualPid := by
  cases i with
  | connect now remote remoteAddr hello extraData =>
    rcases onConnect_pids _ _ _ _ _ _ _ h with (ha | ha) | ⟨m, hm, hs'⟩
    · exact Or.inl ha.fresh.kept
    · exact Or.inl ha.ofFresh.keeps
    · obtain ⟨hc, hmap, _⟩ := initializedIfEmpty_books (freshLogs s)
      have hmc : m.clients = s.clients := hm.clients.trans hc
      have hmm : m.virtualPidToClientMap = s.virtualPidToClientMap := hm.map.trans hmap
      rcases hs' with rfl | ⟨c, rfl, horigin⟩
      · exact Or.inl ⟨by unfold registryPids; rw [hmc], hmm⟩
      · refine Or.inr (Or.inr ⟨c, ⟨?_, ?_⟩, ?_⟩)
        · simp only [registerClient, hmc]
        · simp only [registerClient, hmm]
        · rcases horigin with ⟨ht, hp⟩ | ⟨ht, hp⟩
          · exact Or.inl ⟨ht, hp⟩
          · exact Or.inr ⟨ht, hp⟩
  | data now n msg extra =>
    simp only [react] at h
    cases hf : findClient n s with
    | none =>
      rw [hf] at h
      injection h with h
      subst h
      exact Or.inl ⟨rfl, rfl⟩
    | some c =>
      rw [hf] at h
      have hmem : c ∈ (freshLogs s).clients := (findClient_some n s c hf).1
      rcases (onData_summary now c msg extra (freshLogs s) s' hmem h).1 with hk | hk
      · exact Or.inl hk
      · exact Or.inr (Or.inl hk)
  | disconnect now n =>
    simp only [react] at h
    cases hf : findClient n s with
    | none =>
      rw [hf] at h
      injection h with h
      subst h
      exact Or.inl ⟨rfl, rfl⟩
    | some c =>
      rw [hf] at h
      rcases (onDisconnect_books _ _ _ _ h).2 with ⟨_, hk⟩ | ⟨hc, hm⟩
      · exact Or.inl hk
      · exact Or.inr (Or.inl ⟨s.clients, c, rfl, (findClient_some n s c hf).1, hc, hm⟩)
  | userCommand now cmd =>
    simp only [react] at h
    split_ifs at h
    · split at h
      · cases h
      · rename_i r hr
        injection h with h
        subst h
        rcases aside_handleUserCommand _ _ _ _ _ hr with ha | ha
        · exact Or.inl ha.fresh.kept
        · exact Or.inl ha.ofFresh.keeps
    · injection h with h
      subst h
      exact Or.inl ⟨rfl, rfl⟩
  | queuedCheckpoint now =>
    simp only [react] at h
    injection h with h
    subst h
    have h1 : Aside s { freshLogs s with checkpointQueued := false } :=
      Aside.of_fields rfl rfl rfl rfl rfl rfl rfl rfl rfl
    rcases h1.then (aside_startCheckpoint now _) with ha | ha
    · exact Or.inl ha.kept
    · exact Or.inl ha.keeps

theorem react_cursor (s : Coord) (i : Input) (s' : Coord) (h : react s i = .ok s')
    (hc : isCandidate s.nextVirtualPid) : isCandidate s'.nextVirtualPid := by
  obtain ⟨h1, h2⟩ := react_books s i s' h
  cases hf : i.isFilename s
  · rcases h1 hf with hx | hx
    · exact hx.cursor hc
    · exact hx.cursor hc
  · exact (h2 hf).2.1 hc

theorem runInputs_cursor (s : Coord) (ins : List Input) (s' : Coord)
    (h : runInputs s ins = .ok s') (hc : isCandidate s.nextVirtualPid) :
    isCandidate s'.nextVirtualPid := by
  induction ins generalizing s with
  | nil =>
    injection h with h
    exact h ▸ hc
  | cons i rest ih =>
    simp only [runInputs] at h
    split at h
    · rename_i t ht
      exact ih t h (react_cursor s i t ht hc)
    · cases h

/-! ### The books of checkpoint file names -/

theorem accounted_init (flags : CoordFlags) : Accounted (Coord.init flags) :=
  ⟨le_refl _, le_refl _, fun _ => rfl⟩

theorem react_accounted (s : Coord) (i : Input) (s' : Coord) (h : react s i = .ok s')
    (ha : Accounted s) : Accounted s' := by
  obtain ⟨h0, hle, heq⟩ := ha
  obtain ⟨h1, h2⟩ := react_books s i s' h
  cases hf : i.isFilename s
  · rcases h1 hf with hx | hx
    · have hst : storedFilenames s' = storedFilenames s := by
        unfold storedFilenames
        rw [hx.restart, hx.rsh, hx.ssh]
      refine ⟨hx.count ▸ h0, by rw [hst, hx.count]; exact hle, fun hc => ?_⟩
      rw [hst, hx.count]
      apply heq
      rcases hc with hc | hc
      · rcases hx.flag with hfl | hfl
        · exact Or.inl (hfl ▸ hc)
        · rw [hfl] at hc
          cases hc
      · exact Or.inr (hx.scripts ▸ hc)
    · have hst : storedFilenames s' = 0 := by
        unfold storedFilenames
        rw [hx.restart, hx.rsh, hx.ssh]
        rfl
      rw [Accounted, hst, hx.count]
      exact ⟨le_refl _, le_refl _, fun _ => rfl⟩
  · obtain ⟨hst, _, hrc⟩ := h2 hf
    rcases hrc with hr | hd
    · obtain ⟨hsc, _, hfl, hcn, _, _⟩ := hr
      refine ⟨by rw [hcn]; omega, by rw [hst, hcn]; omega, fun hc => ?_⟩
      rw [hst, hcn, heq]
      rcases hc with hc | hc
      · exact Or.inl (hfl ▸ hc)
      · exact Or.inr (hsc ▸ hc)
    · obtain ⟨hsc, _, hfl, hcn, _, _⟩ := hd
      refine ⟨by rw [hcn], by rw [hst, hcn]; omega, fun hc => ?_⟩
      rcases hc with hc | hc
      · rw [hfl] at hc
        cases hc
      · rw [hsc] at hc
        simp at hc

theorem runInputs_accounted (s : Coord) (ins : List Input) (s' : Coord)
    (h : runInputs s ins = .ok s') (ha : Accounted s) : Accounted s' := by
  induction ins generalizing s with
  | nil =>
    injection h with h
    exact h ▸ ha
  | cons i rest ih =>
    simp only [runInputs] at h
    split at h
    · rename_i t ht
      exact ih t h (react_accounted s i t ht ha)
    · cases h

/-! ### The registry and the virtual-pid map -/

theorem eraseClient_eq_erase (c : CoordClient) (l : List CoordClient) :
    eraseClient c l = l.erase c := by
  induction l with
  | nil => rfl
  | cons x rest ih =>
    unfold eraseClient
    by_cases hx : x = c
    · subst hx
      simp
    · rw [if_neg hx, ih, List.erase_cons_tail]
      simpa using hx

theorem mem_mapKeys_mapInsert (p n : Int) (m : List (Int × Int)) (q : Int)
    (h : q = p ∨ q ∈ mapKeys m) : q ∈ mapKeys (mapInsert p n m) := by
  unfold mapInsert
  split
  · rename_i hany
    have hp : p ∈ mapKeys m := by
      simp only [List.any_eq_true, decide_eq_true_eq] at hany
      obtain ⟨kv, hkv, he⟩ := hany
      exact List.mem_map.2 ⟨kv, hkv, he⟩
    have hq : q ∈ mapKeys m := by
      rcases h with h | h
      · exact h ▸ hp
      · exact h
    simp only [mapKeys, List.map_map, List.mem_map, Function.comp] at hq ⊢
    obtain ⟨kv, hkv, he⟩ := hq
    refine ⟨kv, hkv, ?_⟩
    split
    · rename_i hk
      rw [← he, hk]
    · exact he
  · simp only [mapKeys, List.map_append, List.map_cons, List.map_nil, List.mem_append,
      List.mem_singleton]
    rcases h with h | h
    · exact Or.inr h
    · exact Or.inl h

theorem mem_mapKeys_mapErase (p : Int) (m : List (Int × Int)) (q : Int)
    (h : q ∈ mapKeys m) (hne : q ≠ p) : q ∈ mapKeys (mapErase p m) := by
  simp only [mapKeys, mapErase, List.mem_map, List.mem_filter, decide_eq_true_eq] at h ⊢
  obtain ⟨kv, hkv, he⟩ := h
  exact ⟨kv, ⟨hkv, he ▸ hne⟩, he⟩

theorem pidInv_kept {s s' : Coord} (hi : PidInv s) (hk : RegistryKept s s') : PidInv s' := by
  unfold PidInv
  rw [hk.1, hk.2]
  exact hi

theorem pidInv_erased {s s' : Coord} (hi : PidInv s) (hk : RegistryErased s s') :
    PidInv s' := by
  obtain ⟨l, c, hl, hc, hcl, hmap⟩ := hk
  obtain ⟨hnd, hkeys⟩ := hi
  rw [← hl] at hnd hkeys
  have hsub : (l.erase c).Sublist l := List.erase_sublist c l
  have hl0 : l.Nodup := List.Nodup.of_map _ hnd
  unfold PidInv registryPids
  rw [hcl, hmap, eraseClient_eq_erase]
  refine ⟨hnd.sublist (hsub.map _), fun p hp => ?_⟩
  obtain ⟨x, hx, rfl⟩ := List.mem_map.1 hp
  have hx2 := (List.Nodup.mem_erase_iff hl0).1 hx
  apply mem_mapKeys_mapErase
  · exact hkeys _ (List.mem_map_of_mem _ hx2.2)
  · intro he
    exact hx2.1 (List.inj_on_of_nodup_map hnd hx2.2 hc he)

theorem pidInv_added {s s' : Coord} (c : CoordClient) (hi : PidInv s)
    (hk : RegistryAdded s s' c) (hnew : c.virtualPid ∉ registryPids s) : PidInv s' := by
  obtain ⟨hnd, hkeys⟩ := hi
  unfold PidInv registryPids at *
  rw [hk.1, hk.2, List.map_append, List.map_cons, List.map_nil]
  refine ⟨?_, fun p hp => ?_⟩
  · rw [List.nodup_append]
    refine ⟨hnd, List.nodup_singleton _, ?_⟩
    intro a ha hb
    rw [List.mem_singleton] at hb
    exact hnew (hb ▸ ha)
  · apply mem_mapKeys_mapInsert
    rcases List.mem_append.1 hp with h | h
    · exact Or.inr (hkeys p h)
    · exact Or.inl (List.mem_singleton.1 h)

theorem react_pidInv (s : Coord) (i : Input) (s' : Coord) (h : react s i = .ok s')
    (hfresh : i.freshPid s = true) (hi : PidInv s) : PidInv s' := by
  rcases react_registry s i s' h with hk | hk | ⟨c, hk, hb⟩
  · exact pidInv_kept hi hk
  · exact pidInv_erased hi hk
  · apply pidInv_added c hi hk
    cases i with
    | connect now remote remoteAddr hello extraData =>
      simp only [Input.freshPid, decide_eq_true_eq] at hfresh
      rcases hb with ⟨ht, hp⟩ | ⟨_, hp, _⟩
      · rw [hp]
        exact hfresh ht
      · exact fun hmem => hp (hi.2 _ hmem)
    | data now n msg extra => cases hb
    | disconnect now n => cases hb
    | userCommand now cmd => cases hb
    | queuedCheckpoint now => cases hb

theorem runFresh_pidInv (s : Coord) (ins : List Input) (s' : Coord)
    (h : runFresh s ins = some s') (hi : PidInv s) : PidInv s' := by
  induction ins generalizing s with
  | nil =>
    injection h with h
    exact h ▸ hi
  | cons i rest ih =>
    simp only [runFresh] at h
    split_ifs at h with hf
    split at h
    · rename_i t ht
      exact ih t h (react_pidInv s i t ht hf hi)
    · cases h

/-! ### Checkpoint completion -/

theorem completed_not_recorded (s s' : Coord) (hc : completed s s') (hr : recorded s s') :
    False := by
  have h1 := hc.2.1
  rw [hr.2.1] at h1
  simp at h1

theorem onData_filename_ok (now : Int) (client : CoordClient) (msg : DmtcpMessage)
    (extra : List Char) (s : Coord)
    (ht : msg.type = .DMT_CKPT_FILENAME ∨ msg.type = .DMT_UNIQUE_CKPT_FILENAME)
    (hbytes : msg.extraBytes > 0)
    (hshell : shellTypeOf (extra.take msg.extraBytes) = ""
      ∨ shellTypeOf (extra.take msg.extraBytes) = "rsh"
      ∨ shellTypeOf (extra.take msg.extraBytes) = "ssh") :
    ∃ s', onData now client msg extra s = .ok s'
      ∧ (s.numRestartFilenames + 1 = s.numCkptWorkers → completed s s')
      ∧ (s.numRestartFilenames + 1 ≠ s.numCkptWorkers → recorded s s') := by
  obtain ⟨type, state, src, compGroup, virtualPid, realPid, barrier, extraBytes, numPeers,
    isRunning, coordCmd, coordCmdStatus, coordTimeStamp, theCheckpointInterval, ipAddr,
    exitAfterCkpt⟩ := msg
  simp only at ht hbytes hshell
  rcases ht with ht | ht
  · subst ht
    obtain ⟨t, h1, _, _, _, _, h2, h3⟩ := recordCkptFilename_ok { client with state := state }
      (extra.take extraBytes)
      { s with clients := updateClient client { client with state := state } s.clients } hshell
    refine ⟨t, ?_, h2, h3⟩
    rw [← h1]
    simp only [onData, hbytes, if_true]
  · subst ht
    obtain ⟨t, h1, _, _, _, _, h2, h3⟩ := recordCkptFilename_ok { client with state := state }
      (extra.take extraBytes)
      { s with clients := updateClient client { client with state := state } s.clients,
               uniqueCkptFilenames := true } hshell
    refine ⟨t, ?_, h2, h3⟩
    rw [← h1]
    simp only [onData, hbytes, if_true]

theorem react_count_while_sent (s : Coord) (i : Input) (s' : Coord) (h : react s i = .ok s')
    (hb : s.workersRunningAndSuspendMsgSent = true)
    (ha : s'.workersRunningAndSuspendMsgSent = true) :
    s'.numRestartFilenames = s.numRestartFilenames + (if i.isFilename s then 1 else 0) := by
  obtain ⟨h1, h2⟩ := react_books s i s' h
  cases hf : i.isFilename s
  · rcases h1 hf with hx | hx
    · simp [hx.count]
    · rw [hx.before] at hb
      cases hb
  · rcases (h2 hf).2.2 with hr | hd
    · simp [hr.2.2.2.1]
    · rw [hd.2.2.1] at ha
      cases ha

theorem runCheckpoint_count (s : Coord) (ins : List Input) (s' : Coord) (n : Int)
    (h : runCheckpoint s ins = some (s', n))
    (hb : s.workersRunningAndSuspendMsgSent = true) :
    s'.numRestartFilenames = s.numRestartFilenames + n
      ∧ s'.workersRunningAndSuspendMsgSent = true := by
  induction ins generalizing s n with
  | nil =>
    simp only [runCheckpoint, Option.some.injEq, Prod.mk.injEq] at h
    obtain ⟨rfl, rfl⟩ := h
    exact ⟨by simp, hb⟩
  | cons i rest ih =>
    simp only [runCheckpoint] at h
    split at h
    · rename_i t ht
      by_cases hflag : t.workersRunningAndSuspendMsgSent = true
      · rw [if_pos hflag] at h
        cases hr : runCheckpoint t rest with
        | none => simp [hr] at h
        | some r =>
          obtain ⟨r1, r2⟩ := r
          simp only [hr, Option.map_some', Option.some.injEq, Prod.mk.injEq] at h
          obtain ⟨rfl, rfl⟩ := h
          obtain ⟨h1, h2⟩ := ih t r2 hr hflag
          refine ⟨?_, h2⟩
          rw [h1, react_count_while_sent s i t ht hb hflag]
          ring
      · rw [if_neg hflag] at h
        cases h
    · cases h

theorem startCheckpoint_started (now : Int) (s : Coord) (h : (startCheckpoint now s).1 = true) :
    (startCheckpoint now s).2.workersRunningAndSuspendMsgSent = true
      ∧ (startCheckpoint now s).2.numRestartFilenames = 0 := by
  rw [startCheckpoint_of_true now s h, broadcastMessage_eq]
  exact ⟨rfl, rfl⟩

/-! ### Termination of the allocator -/

theorem loop_first_round (fuel : Nat) (s : Coord)
    (hfree : s.nextVirtualPid ∉ mapKeys s.virtualPidToClientMap) :
    ∃ r, getNewVirtualPidLoop (fuel + 1) s = some r := by
  simp only [getNewVirtualPidLoop]
  rw [if_pos ((all_ne_iff _ _).2 hfree)]
  exact ⟨_, rfl⟩

theorem loop_finds (n : Nat) (x : Int) (hx : isCandidate x) :
    ∀ (s : Coord), isCandidate s.nextVirtualPid → x ∉ mapKeys s.virtualPidToClientMap →
      ((x - s.nextVirtualPid) / 1000) % 961 = (n : Int) →
      ∀ fuel : Nat, n < fuel → ∃ r, getNewVirtualPidLoop fuel s = some r := by
  induction n with
  | zero =>
    intro s hc hfree hd fuel hfuel
    obtain ⟨k, rfl⟩ : ∃ k, fuel = k + 1 := ⟨fuel - 1, by omega⟩
    apply loop_first_round
    have : x = s.nextVirtualPid := by
      unfold isCandidate INITIAL_VIRTUAL_PID MAX_VIRTUAL_PID VIRTUAL_PID_STEP at hx hc
      push_cast at hd
      omega
    exact this ▸ hfree
  | succ m ih =>
    intro s hc hfree hd fuel hfuel
    obtain ⟨k, rfl⟩ : ∃ k, fuel = k + 1 := ⟨fuel - 1, by omega⟩
    by_cases hcur : s.nextVirtualPid ∉ mapKeys s.virtualPidToClientMap
    · exact loop_first_round k s hcur
    · simp only [getNewVirtualPidLoop]
      rw [if_neg (fun h => hcur ((all_ne_iff _ _).1 h))]
      apply ih
      · exact isCandidate_next _ hc
      · exact hfree
      · show ((x - nextCandidate s.nextVirtualPid) / 1000) % 961 = (m : Int)
        unfold isCandidate INITIAL_VIRTUAL_PID MAX_VIRTUAL_PID VIRTUAL_PID_STEP at hx hc
        unfold nextCandidate INITIAL_VIRTUAL_PID MAX_VIRTUAL_PID VIRTUAL_PID_STEP
        push_cast at hd
        split_ifs <;> omega
      · omega

theorem free_candidate (keys : List Int) (h : keys.length < numCandidates) :
    ∃ x, isCandidate x ∧ x ∉ keys := by
  by_contra hno
  push_neg at hno
  have hsub : ((List.range numCandidates).map fun k : Nat => (40000 : Int) + 1000 * (k : Int))
      ⊆ keys := by
    intro y hy
    obtain ⟨k, hk, rfl⟩ := List.mem_map.1 hy
    apply hno
    have hk' : k < 961 := List.mem_range.1 hk
    unfold isCandidate INITIAL_VIRTUAL_PID MAX_VIRTUAL_PID VIRTUAL_PID_STEP
    omega
  have hnd : ((List.range numCandidates).map fun k : Nat => (40000 : Int) + 1000 * (k : Int)).Nodup := by
    apply List.Nodup.map _ (List.nodup_range _)
    intro a b hab
    simp only at hab
    omega
  have hlen := (List.subperm_of_subset hnd hsub).length_le
  rw [List.length_map, List.length_range] at hlen
  omega

theorem getNewVirtualPidFuel_ge (s : Coord) : 961 < getNewVirtualPidFuel s := by
  unfold getNewVirtualPidFuel INITIAL_VIRTUAL_PID MAX_VIRTUAL_PID VIRTUAL_PID_STEP
  split_ifs <;> omega

theorem getNewVirtualPid_returns (s : Coord)
    (hfree : ∃ x, isCandidate x ∧ x ∉ mapKeys s.virtualPidToClientMap)
    (hsize : (s.virtualPidToClientMap.length : Int) < MAX_VIRTUAL_PID)
    (hc : isCandidate s.nextVirtualPid) :
    ∃ r, getNewVirtualPid s = .ok r := by
  obtain ⟨x, hx, hfree⟩ := hfree
  have hd : ∃ n : Nat, ((x - s.nextVirtualPid) / 1000) % 961 = (n : Int) ∧ n < 961 := by
    refine ⟨(((x - s.nextVirtualPid) / 1000) % 961).toNat, ?_, ?_⟩ <;> omega
  obtain ⟨n, hn, hlt⟩ := hd
  obtain ⟨r, hr⟩ := loop_finds n x hx s hc hfree hn (getNewVirtualPidFuel s)
    (lt_trans hlt (getNewVirtualPidFuel_ge s))
  refine ⟨r, ?_⟩
  unfold getNewVirtualPid
  rw [if_neg (not_not_intro hsize), hr]

/-! ### The saturated map -/

theorem numCandidates_eq : numCandidates = 961 := by
  unfold numCandidates INITIAL_VIRTUAL_PID MAX_VIRTUAL_PID VIRTUAL_PID_STEP
  norm_num
  rfl

theorem mem_mapKeys_range (N k : Nat) (hk : k < N) :
    INITIAL_VIRTUAL_PID + VIRTUAL_PID_STEP * (k : Int)
      ∈ mapKeys ((List.range N).map fun k : Nat =>
          (INITIAL_VIRTUAL_PID + VIRTUAL_PID_STEP * (k : Int), (k : Int) + 1)) := by
  unfold mapKeys
  rw [List.map_map]
  exact List.mem_map.2 ⟨k, List.mem_range.2 hk, rfl⟩

theorem mem_saturatedMap (c : Int) (hc : isCandidate c) : c ∈ mapKeys saturatedMap := by
  unfold isCandidate INITIAL_VIRTUAL_PID MAX_VIRTUAL_PID VIRTUAL_PID_STEP at hc
  have hk : ((c - 40000) / 1000).toNat < numCandidates := by
    rw [numCandidates_eq]
    omega
  have hv : INITIAL_VIRTUAL_PID + VIRTUAL_PID_STEP * (((c - 40000) / 1000).toNat : Int) = c := by
    unfold INITIAL_VIRTUAL_PID VIRTUAL_PID_STEP
    omega
  have hm := mem_mapKeys_range numCandidates _ hk
  rw [hv] at hm
  unfold saturatedMap
  exact hm

theorem loop_saturated (fuel : Nat) :
    ∀ s : Coord, s.virtualPidToClientMap = saturatedMap → isCandidate s.nextVirtualPid →
      getNewVirtualPidLoop fuel s = none := by
  induction fuel with
  | zero => intro s _ _; rfl
  | succ n ih =>
    intro s hm hc
    simp only [getNewVirtualPidLoop]
    rw [if_neg]
    · exact ih _ hm (isCandidate_next _ hc)
    · intro h
      exact (all_ne_iff _ _).1 h (hm ▸ mem_saturatedMap _ hc)

/-! ## Claims on checkpoint file names -/

/-- C11 (amended).  Filename accounting: in every state that the coordinator
reaches from its initial state, by any inputs, `_numRestartFilenames` is between
zero and the number of file names stored in the three accumulators, and it
equals that number while a checkpoint is in progress
(`workersRunningAndSuspendMsgSent`) and as long as no restart script was ever
written. -/
theorem filename_accounting (flags : CoordFlags) (ins : List Input) (s : Coord)
    (h : runInputs (Coord.init flags) ins = .ok s) :
    0 ≤ s.numRestartFilenames ∧ s.numRestartFilenames ≤ storedFilenames s
      ∧ ((s.workersRunningAndSuspendMsgSent = true ∨ s.scripts = []) →
          storedFilenames s = s.numRestartFilenames) :=
  runInputs_accounted _ ins s h (accounted_init flags)

theorem filename_accounting_witness :
    (sampleRun joinedCheckpoint).workersRunningAndSuspendMsgSent = true
      ∧ storedFilenames (sampleRun joinedCheckpoint) = 1
      ∧ (0 ≤ (sampleRun joinedCheckpoint).numRestartFilenames
          ∧ (sampleRun joinedCheckpoint).numRestartFilenames
              ≤ storedFilenames (sampleRun joinedCheckpoint)
          ∧ (((sampleRun joinedCheckpoint).workersRunningAndSuspendMsgSent = true
                ∨ (sampleRun joinedCheckpoint).scripts = []) →
              storedFilenames (sampleRun joinedCheckpoint)
                = (sampleRun joinedCheckpoint).numRestartFilenames)) :=
  ⟨rfl, rfl, filename_accounting sampleFlags joinedCheckpoint (sampleRun joinedCheckpoint) rfl⟩

/-- The counterexample to C11 as it is written.  After the solo checkpoint of
the spec (worker A connects, `c`, three barriers, A reports its file) the
checkpoint is complete: `recordCkptFilename` has reset `_numRestartFilenames`
to zero, and the name of A's file is still in `_restartFilenames`, where it
stays until the next `startCheckpoint` clears the accumulators. -/
theorem filename_accounting_fails_after_completion :
    runInputs (Coord.init sampleFlags) soloCheckpoint = .ok (sampleRun soloCheckpoint)
      ∧ (sampleRun soloCheckpoint).restartFilenames = [("hostA", ["/tmp/ckpt_A.dmtcp"])]
      ∧ storedFilenames (sampleRun soloCheckpoint) = 1
      ∧ (sampleRun soloCheckpoint).numRestartFilenames = 0
      ∧ storedFilenames (sampleRun soloCheckpoint)
          ≠ (sampleRun soloCheckpoint).numRestartFilenames :=
  ⟨rfl, rfl, rfl, rfl, by decide⟩

/-- C12.  For a `DMT_CKPT_FILENAME` or `DMT_UNIQUE_CKPT_FILENAME` message that
carries extra bytes with a supported shell type (`""`, `rsh` or `ssh`),
`recordCkptFilename` returns, and it completes the checkpoint (restart script
written from the accumulators, `Ckpt-Complete` recorded,
`workersRunningAndSuspendMsgSent` false, `_numRestartFilenames` and
`_numCkptWorkers` zero, `killAfterCkptOnce` cleared) exactly when
`_numRestartFilenames`, after this name is counted, equals `_numCkptWorkers`;
otherwise it writes no script, records no event and leaves
`workersRunningAndSuspendMsgSent`, `_numCkptWorkers` and `killAfterCkptOnce`
as they were.  The same holds for `onData` on such a message. -/
theorem recordCkptFilename_completes_iff (client : CoordClient) (d : List Char) (s : Coord)
    (hshell : shellTypeOf d = "" ∨ shellTypeOf d = "rsh" ∨ shellTypeOf d = "ssh") :
    (∃ s', recordCkptFilename client (some d) s = .ok s'
        ∧ (completed s s' ↔ s.numRestartFilenames + 1 = s.numCkptWorkers)
        ∧ (s.numRestartFilenames + 1 ≠ s.numCkptWorkers →
            recorded s s'
              ∧ s'.workersRunningAndSuspendMsgSent = s.workersRunningAndSuspendMsgSent))
      ∧ ∀ (now : Int) (msg : DmtcpMessage) (extra : List Char),
          (msg.type = .DMT_CKPT_FILENAME ∨ msg.type = .DMT_UNIQUE_CKPT_FILENAME) →
          msg.extraBytes > 0 → extra.take msg.extraBytes = d →
          ∃ s', onData now client msg extra s = .ok s'
            ∧ (completed s s' ↔ s.numRestartFilenames + 1 = s.numCkptWorkers)
            ∧ (s.numRestartFilenames + 1 ≠ s.numCkptWorkers →
                recorded s s'
                  ∧ s'.workersRunningAndSuspendMsgSent = s.workersRunningAndSuspendMsgSent) := by
  constructor
  · obtain ⟨s', h1, _, _, _, _, h2, h3⟩ := recordCkptFilename_ok client d s hshell
    refine ⟨s', h1, ⟨fun hc => ?_, h2⟩, fun hne => ⟨h3 hne, (h3 hne).2.2.1⟩⟩
    by_contra hne
    exact completed_not_recorded s s' hc (h3 hne)
  · intro now msg extra ht hb hd
    obtain ⟨s', h1, h2, h3⟩ := onData_filename_ok now client msg extra s ht hb (hd ▸ hshell)
    refine ⟨s', h1, ⟨fun hc => ?_, h2⟩, fun hne => ⟨h3 hne, (h3 hne).2.2.1⟩⟩
    by_contra hne
    exact completed_not_recorded s s' hc (h3 hne)

theorem recordCkptFilename_completes_iff_witness :
    (shellTypeOf (filenameBytes "/tmp/ckpt_B.dmtcp" "" "hostA") = ""
      ∧ (sampleRun joinedCheckpoint).numRestartFilenames + 1
          = (sampleRun joinedCheckpoint).numCkptWorkers)
      ∧ ∃ s', recordCkptFilename (sampleClient 2 .CHECKPOINTED "DMT:WriteCkpt")
            (some (filenameBytes "/tmp/ckpt_B.dmtcp" "" "hostA")) (sampleRun joinedCheckpoint)
            = .ok s'
          ∧ (completed (sampleRun joinedCheckpoint) s'
              ↔ (sampleRun joinedCheckpoint).numRestartFilenames + 1
                  = (sampleRun joinedCheckpoint).numCkptWorkers)
          ∧ ((sampleRun joinedCheckpoint).numRestartFilenames + 1
                ≠ (sampleRun joinedCheckpoint).numCkptWorkers →
              recorded (sampleRun joinedCheckpoint) s'
                ∧ s'.workersRunningAndSuspendMsgSent
                    = (sampleRun joinedCheckpoint).workersRunningAndSuspendMsgSent) :=
  ⟨⟨rfl, rfl⟩,
    (recordCkptFilename_completes_iff (sampleClient 2 .CHECKPOINTED "DMT:WriteCkpt")
      (filenameBytes "/tmp/ckpt_B.dmtcp" "" "hostA") (sampleRun joinedCheckpoint)
      (Or.inl rfl)).1⟩

/-- C13 (amended).  For every history that begins with a successful
`startCheckpoint` and runs while the checkpoint is in progress,
`_numRestartFilenames` is the number `n` of checkpoint file names received since
that `startCheckpoint`, and the next file name (with extra bytes and a supported
shell type, from a registered client) is handled and completes the checkpoint
exactly when `n + 1` equals `_numCkptWorkers`.  That variable is not the number
of workers registered at `startCheckpoint`: every release of a barrier sets it
to the number of workers registered at the release. -/
theorem completion_at_numCkptWorkers (now : Int) (s0 : Coord) (ins : List Input) (s : Coord)
    (n : Int) (hstart : (startCheckpoint now s0).1 = true)
    (hrun : runCheckpoint (startCheckpoint now s0).2 ins = some (s, n)) :
    s.numRestartFilenames = n
      ∧ (∀ (now1 : Int) (c : Int) (msg : DmtcpMessage) (extra : List Char),
          (findClient c s).isSome = true →
          (msg.type = .DMT_CKPT_FILENAME ∨ msg.type = .DMT_UNIQUE_CKPT_FILENAME) →
          msg.extraBytes > 0 →
          (shellTypeOf (extra.take msg.extraBytes) = ""
            ∨ shellTypeOf (extra.take msg.extraBytes) = "rsh"
            ∨ shellTypeOf (extra.take msg.extraBytes) = "ssh") →
          ∃ s', react s (.data now1 c msg extra) = .ok s'
            ∧ (completed s s' ↔ n + 1 = s.numCkptWorkers)
            ∧ (n + 1 ≠ s.numCkptWorkers → recorded s s'))
      ∧ (∀ (barrier : String) (t : Coord), released barrier t (releaseBarrier barrier t) →
          (releaseBarrier barrier t).numCkptWorkers = t.clients.length) := by
  obtain ⟨hflag, hzero⟩ := startCheckpoint_started now s0 hstart
  obtain ⟨hcount, _⟩ := runCheckpoint_count _ ins s n hrun hflag
  rw [hzero, zero_add] at hcount
  refine ⟨hcount, ?_, ?_⟩
  · intro now1 c msg extra hc ht hb hshell
    obtain ⟨cl, hcl⟩ := Option.isSome_iff_exists.1 hc
    obtain ⟨s', h1, h2, h3⟩ := onData_filename_ok now1 cl msg extra (freshLogs s) ht hb hshell
    have h2' : s.numRestartFilenames + 1 = s.numCkptWorkers → completed s s' := h2
    have h3' : s.numRestartFilenames + 1 ≠ s.numCkptWorkers → recorded s s' := h3
    rw [hcount] at h2' h3'
    refine ⟨s', ?_, ⟨fun hd => ?_, h2'⟩, h3'⟩
    · simp only [react, hcl]
      exact h1
    · by_contra hne
      exact completed_not_recorded s s' hd (h3' hne)
  · intro barrier t hrel
    have hcond := (releaseBarrier_released_iff barrier t).1 hrel
    rw [releaseBarrier_eq, if_pos hcond]

theorem completion_at_numCkptWorkers_witness :
    ((startCheckpoint 51 (sampleRun (joinedCheckpoint.take 1))).1 = true
      ∧ runCheckpoint (startCheckpoint 51 (sampleRun (joinedCheckpoint.take 1))).2
          (joinedCheckpoint.drop 2) = some (sampleJoined.1, sampleJoined.2)
      ∧ sampleJoined.2 = 1 ∧ sampleJoined.1.numCkptWorkers = 2)
      ∧ sampleJoined.1.numRestartFilenames = sampleJoined.2 :=
  ⟨⟨rfl, rfl, rfl, rfl⟩,
    (completion_at_numCkptWorkers 51 (sampleRun (joinedCheckpoint.take 1))
      (joinedCheckpoint.drop 2) sampleJoined.1 sampleJoined.2 rfl rfl).1⟩

/-- The counterexample to C13 as it is written.  Worker A is alone when the
command `c` starts a checkpoint; worker B connects while the checkpoint is in
progress and takes part in it.  When A has reported its file, one file name has
been received, which is the number of workers registered at
`startCheckpoint`, and the checkpoint is not complete: no script is written and
`workersRunningAndSuspendMsgSent` is still true.  It completes with the second
file name, the one of B. -/
theorem completion_waits_for_joined_worker :
    ((sampleRun (joinedCheckpoint.take 1)).clients.length = 1
        ∧ (sampleRun (joinedCheckpoint.take 2)).events.map Prod.snd
            = ["Initializing-Computation", "Ckpt-Start"]
        ∧ (sampleRun (joinedCheckpoint.take 2)).clients.length = 1)
      ∧ (runInputs (Coord.init sampleFlags) joinedCheckpoint = .ok (sampleRun joinedCheckpoint)
        ∧ storedFilenames (sampleRun joinedCheckpoint) = 1
        ∧ (sampleRun joinedCheckpoint).scripts = []
        ∧ (sampleRun joinedCheckpoint).workersRunningAndSuspendMsgSent = true
        ∧ (sampleRun joinedCheckpoint).numCkptWorkers = 2)
      ∧ (runInputs (Coord.init sampleFlags) (joinedCheckpoint ++ [joinedLast])
            = .ok (sampleRun (joinedCheckpoint ++ [joinedLast]))
        ∧ storedFilenames (sampleRun (joinedCheckpoint ++ [joinedLast])) = 2
        ∧ (sampleRun (joinedCheckpoint ++ [joinedLast])).scripts.length = 1
        ∧ (sampleRun (joinedCheckpoint ++ [joinedLast])).workersRunningAndSuspendMsgSent
            = false) :=
  ⟨⟨rfl, rfl, rfl⟩, ⟨rfl, rfl, rfl, rfl, rfl⟩, ⟨rfl, rfl, rfl, rfl⟩⟩

/-! ## Claims on the flag `workersRunningAndSuspendMsgSent` -/

/-- C14 (amended).  No release of a barrier, whatever its name, changes
`workersRunningAndSuspendMsgSent`: `releaseBarrier` leaves it as it is, and so do
`processBarrier` and `onData` on a `DMT_BARRIER` message.  While the flag is
true it is `recordCkptFilename` that sets it to false, when the file name it
counts brings `_numRestartFilenames` to `_numCkptWorkers`. -/
theorem barrier_release_keeps_flag (barrier : String) (s : Coord) :
    (releaseBarrier barrier s).workersRunningAndSuspendMsgSent
        = s.workersRunningAndSuspendMsgSent
      ∧ (∀ s', processBarrier barrier s = .ok s' →
          s'.workersRunningAndSuspendMsgSent = s.workersRunningAndSuspendMsgSent)
      ∧ (∀ (now : Int) (c : CoordClient) (st : WorkerState) (s' : Coord),
          onData now c (barrierMsg barrier st) [] s = .ok s' →
          s'.workersRunningAndSuspendMsgSent = s.workersRunningAndSuspendMsgSent)
      ∧ (∀ (client : CoordClient) (d : List Char) (s' : Coord),
          recordCkptFilename client (some d) s = .ok s' →
          s.numRestartFilenames + 1 = s.numCkptWorkers →
          s'.workersRunningAndSuspendMsgSent = false) := by
  refine ⟨(aside_releaseBarrier barrier s).flag, fun s' h => (aside_processBarrier _ _ _ h).flag,
    ?_, ?_⟩
  · intro now c st s' h
    rw [onData_barrier] at h
    exact (aside_processBarrier _ _ _ h).flag
  · intro client d s' h hc
    exact (recordCkptFilename_done client (some d) s s' h hc).2.2.1

theorem barrier_release_keeps_flag_witness :
    (sampleRun (soloCheckpoint.take 3)).workersRunningAndSuspendMsgSent = true
      ∧ (releaseBarrier "DMT:CHECKPOINT"
            (sampleRun (soloCheckpoint.take 3))).workersRunningAndSuspendMsgSent
          = (sampleRun (soloCheckpoint.take 3)).workersRunningAndSuspendMsgSent :=
  ⟨rfl, (barrier_release_keeps_flag "DMT:CHECKPOINT" (sampleRun (soloCheckpoint.take 3))).1⟩

/-- The counterexample to C14 as it is written.  In the solo checkpoint, after
the barrier `DMT:SUSPEND`, `workersRunningAndSuspendMsgSent` is true.  Worker A
sends `DMT_BARRIER` for `DMT:CHECKPOINT` (the name the worker uses) and the
barrier is released: `DMT_BARRIER_RELEASED` is written with that name, and the
flag is still true.  The same happens when the barrier is called
`CHECKPOINT`. -/
theorem checkpoint_barrier_release_leaves_flag :
    (sampleRun (soloCheckpoint.take 3)).workersRunningAndSuspendMsgSent = true
      ∧ react (sampleRun (soloCheckpoint.take 3))
            (.data 53 1 (barrierMsg "DMT:CHECKPOINT" .SUSPENDED) [])
          = .ok (sampleRun (soloCheckpoint.take 4))
      ∧ releasedName (sampleRun (soloCheckpoint.take 4)) = some "DMT:CHECKPOINT"
      ∧ (sampleRun (soloCheckpoint.take 4)).workersRunningAndSuspendMsgSent = true
      ∧ ((react (sampleRun (soloCheckpoint.take 3))
              (.data 53 1 (barrierMsg "CHECKPOINT" .SUSPENDED) [])).toOption.map
            fun s' => (releasedName s', s'.workersRunningAndSuspendMsgSent))
          = some (some "CHECKPOINT", true) :=
  ⟨rfl, rfl, rfl, rfl, rfl⟩

/-! ## Claims on connections -/

/-- C15 (amended).  While `killInProgress` is true, every new connection whose
hello message is neither `DMT_NAME_SERVICE_WORKER` nor `DMT_USER_CMD` (so every
`DMT_NEW_WORKER`, every `DMT_RESTART_WORKER` and every unknown kind) is
answered with `DMT_KILL_PEER` and closed, and `onConnect` changes nothing else:
the registry, the virtual-pid map and every other variable are what they
were. -/
theorem onConnect_while_killing (now remote remoteAddr : Int) (hello : DmtcpMessage)
    (extraData : List Char) (s : Coord) (hk : s.killInProgress = true)
    (h1 : hello.type ≠ .DMT_NAME_SERVICE_WORKER) (h2 : hello.type ≠ .DMT_USER_CMD) :
    onConnect now remote remoteAddr hello extraData s
      = .ok { s with
          sent := s.sent ++ [⟨remote, DmtcpMessage.new .DMT_KILL_PEER, []⟩]
          closed := s.closed ++ [remote] } := by
  unfold onConnect
  rw [if_neg h1, if_neg h2, if_pos hk]
  rfl

theorem onConnect_while_killing_witness :
    sampleKilling.killInProgress = true
      ∧ onConnect 52 12 2130706433 (sampleHello 502) [] sampleKilling
          = .ok { sampleKilling with
              sent := sampleKilling.sent ++ [⟨12, DmtcpMessage.new .DMT_KILL_PEER, []⟩]
              closed := sampleKilling.closed ++ [12] } :=
  ⟨rfl, onConnect_while_killing 52 12 2130706433 (sampleHello 502) [] sampleKilling rfl
    (by decide) (by decide)⟩

/-- The counterexample to C15 as it is written.  In the state `sampleKilling`
(a worker connected, `k` was typed) `killInProgress` is true.  A
`DMT_NAME_SERVICE_WORKER` connection is sent nothing and is not closed: it takes
a client number and its socket is added to the data sockets.  A `DMT_USER_CMD`
connection with the command `s` is answered with `DMT_USER_CMD_RESULT`, not
with `DMT_KILL_PEER`. -/
theorem onConnect_while_killing_serves_lookup_and_commands :
    sampleKilling.killInProgress = true
      ∧ (sampleKilling.theNextClientNumber = 2 ∧ sampleKilling.dataSockets = [11])
      ∧ ((react sampleKilling
              (.connect 52 12 2130706433 (DmtcpMessage.new .DMT_NAME_SERVICE_WORKER)
                [])).toOption.map
            fun s' => (s'.sent.map fun m => (m.sock, m.msg.type), s'.closed, s'.dataSockets,
              s'.theNextClientNumber))
          = some ([], [], [11, 12], 3)
      ∧ ((react sampleKilling (.connect 52 12 2130706433 statusHello [])).toOption.map
            fun s' => (s'.sent.map fun m => (m.sock, m.msg.type), s'.closed))
          = some ([(12, .DMT_USER_CMD_RESULT)], [12]) :=
  ⟨rfl, ⟨rfl, rfl⟩, rfl, rfl⟩

/-- C20 (amended).  Foreign restart rejected: while no kill is in progress, the
registry is not empty, `compId` is not the zero group and the minimum state of
the registered workers is RESTARTING, a `DMT_RESTART_WORKER` hello in state
RESTARTING whose `compGroup` differs from `compId` is replied to with
`DMT_REJECT_WRONG_COMP` and its socket is closed; it enters neither the
registry nor the virtual-pid map, and nothing else changes but the next client
number, which the rejected connection has used up. -/
theorem foreign_restart_rejected (now remote remoteAddr : Int) (hello : DmtcpMessage)
    (extraData : List Char) (s : Coord)
    (ht : hello.type = .DMT_RESTART_WORKER) (hst : hello.state = .RESTARTING)
    (hk : s.killInProgress = false) (hne : s.clients ≠ [])
    (hcomp : s.compId ≠ UniquePid.zero) (hmin : minimumState s = .RESTARTING)
    (hg : hello.compGroup ≠ s.compId) :
    onConnect now remote remoteAddr hello extraData s
      = .ok { s with
          theNextClientNumber := s.theNextClientNumber + 1
          sent := s.sent ++ [⟨remote, DmtcpMessage.new .DMT_REJECT_WRONG_COMP, []⟩]
          closed := s.closed ++ [remote] } := by
  have hlen : s.clients.length ≠ 0 := fun h => hne (List.length_eq_zero.1 h)
  have hinit : initializedIfEmpty s = s := by
    unfold initializedIfEmpty
    rw [if_neg hlen]
  have hkill : ¬ s.killInProgress = true := by simp [hk]
  have hmin' : minimumState (CoordClient.new remote remoteAddr hello s).2 = .RESTARTING := hmin
  have hv : validateRestartingWorkerProcess now hello remote remoteAddr
      (CoordClient.new remote remoteAddr hello s).2
      = .ok (false,
          { s with
            theNextClientNumber := s.theNextClientNumber + 1
            sent := s.sent ++ [⟨remote, DmtcpMessage.new .DMT_REJECT_WRONG_COMP, []⟩]
            closed := s.closed ++ [remote] }) := by
    unfold validateRestartingWorkerProcess
    simp only [hst, ne_eq, not_true_eq_false, if_false]
    have hc' : ¬ (CoordClient.new remote remoteAddr hello s).2.compId = UniquePid.zero := hcomp
    have hg' : hello.compGroup ≠ (CoordClient.new remote remoteAddr hello s).2.compId := hg
    rw [if_neg hc', hmin', if_neg (by simp), if_pos hg']
    rfl
  unfold onConnect
  rw [if_neg (by rw [ht]; decide), if_neg (by rw [ht]; decide), if_neg hkill, hinit]
  unfold onConnectWorker
  rw [if_pos ht, hv]
  rfl

theorem foreign_restart_rejected_witness :
    (sampleRestarting.clients.map fun c => (c.clientNumber, c.state)) = [(1, .RESTARTING)]
      ∧ onConnect 53 12 2130706433 foreignHello [] sampleRestarting
          = .ok { sampleRestarting with
              theNextClientNumber := sampleRestarting.theNextClientNumber + 1
              sent := sampleRestarting.sent
                ++ [⟨12, DmtcpMessage.new .DMT_REJECT_WRONG_COMP, []⟩]
              closed := sampleRestarting.closed ++ [12] } :=
  ⟨rfl, foreign_restart_rejected 53 12 2130706433 foreignHello [] sampleRestarting rfl rfl rfl
    (by decide) (by decide) rfl (by decide)⟩

/-- The counterexample to C20 as it is written.  A restarting worker was
accepted, so `compId` is its group and not zero, and the hello message
`foreignHello` is a `DMT_RESTART_WORKER` in state RESTARTING of another group.
Once the accepted worker has resumed (state RUNNING) the foreign worker is
replied to with `DMT_REJECT_NOT_RESTARTING`.  Once the accepted worker has hung
up and left the registry empty, `onConnect` resets the computation and the
foreign worker is accepted: it is replied to with `DMT_ACCEPT`, registered and
entered in the virtual-pid map. -/
theorem foreign_restart_not_always_wrong_comp :
    (foreignHello.type = .DMT_RESTART_WORKER ∧ foreignHello.state = .RESTARTING)
      ∧ (sampleRestarted.compId ≠ UniquePid.zero
        ∧ foreignHello.compGroup ≠ sampleRestarted.compId
        ∧ ((react sampleRestarted (.connect 53 12 2130706433 foreignHello [])).toOption.map
              fun s' => (s'.sent.map fun m => (m.sock, m.msg.type), s'.closed))
            = some ([(12, .DMT_REJECT_NOT_RESTARTING)], [12]))
      ∧ (sampleDeparted.compId ≠ UniquePid.zero
        ∧ foreignHello.compGroup ≠ sampleDeparted.compId
        ∧ ((react sampleDeparted (.connect 53 12 2130706433 foreignHello [])).toOption.map
              fun s' => (s'.sent.map fun m => (m.sock, m.msg.type), s'.closed,
                s'.clients.map fun c => (c.clientNumber, c.virtualPid),
                s'.virtualPidToClientMap))
            = some ([(12, .DMT_ACCEPT)], [], [(2, 45000)], [(45000, 2)])) :=
  ⟨⟨rfl, rfl⟩, ⟨by decide, by decide, rfl⟩, ⟨by decide, by decide, rfl⟩⟩

/-! ## Claims on virtual pids -/

theorem pidInv_init (flags : CoordFlags) : PidInv (Coord.init flags) :=
  ⟨List.nodup_nil, fun _ h => by cases h⟩

/-- C16 (amended).  Virtual pid uniqueness: for every history of inputs
(connections of new and of restarting workers, messages, hang-ups, commands) in
which every restarting worker brings, in `hello.from.pid`, a pid that no
registered client holds at that moment, any two distinct clients in the registry
have distinct `virtualPid`, and each of these pids is a key of the virtual-pid
map. -/
theorem virtual_pid_unique (flags : CoordFlags) (ins : List Input) (s : Coord)
    (h : runFresh (Coord.init flags) ins = some s) :
    s.clients.Pairwise (fun a b => a.virtualPid ≠ b.virtualPid)
      ∧ ∀ c ∈ s.clients, c.virtualPid ∈ mapKeys s.virtualPidToClientMap := by
  obtain ⟨hnd, hkeys⟩ := runFresh_pidInv _ ins s h (pidInv_init flags)
  refine ⟨?_, fun c hc => hkeys _ (List.mem_map_of_mem _ hc)⟩
  unfold registryPids at hnd
  exact (List.pairwise_map.1 hnd)

theorem virtual_pid_unique_witness :
    (runFresh (Coord.init sampleFlags) joinedCheckpoint = some (sampleRun joinedCheckpoint)
      ∧ ((sampleRun joinedCheckpoint).clients.map fun c => c.virtualPid) = [40000, 41000])
      ∧ ((sampleRun joinedCheckpoint).clients.Pairwise (fun a b => a.virtualPid ≠ b.virtualPid)
        ∧ ∀ c ∈ (sampleRun joinedCheckpoint).clients,
            c.virtualPid ∈ mapKeys (sampleRun joinedCheckpoint).virtualPidToClientMap) :=
  ⟨⟨rfl, rfl⟩, virtual_pid_unique sampleFlags joinedCheckpoint (sampleRun joinedCheckpoint) rfl⟩

/-- The counterexample to C16 as it is written.  Two restarting workers of the
same computation connect, and both hello messages carry the pid 41000: both are
accepted, and the registry holds two clients with the virtual pid 41000 (the
map has one entry for it, the second client). -/
theorem virtual_pid_shared_by_restarting_workers :
    runInputs (Coord.init sampleFlags) twinRestart = .ok (sampleRun twinRestart)
      ∧ ((sampleRun twinRestart).clients.map fun c => (c.clientNumber, c.virtualPid))
          = [(1, 41000), (2, 41000)]
      ∧ (sampleRun twinRestart).virtualPidToClientMap = [(41000, 2)]
      ∧ ¬ (sampleRun twinRestart).clients.Pairwise (fun a b => a.virtualPid ≠ b.virtualPid) :=
  ⟨rfl, rfl, rfl, by decide⟩

theorem isCandidate_init (flags : CoordFlags) :
    isCandidate (Coord.init flags).nextVirtualPid := by
  show isCandidate 40000
  decide

theorem isCandidate_range (pid : Int) (h : isCandidate pid) :
    INITIAL_VIRTUAL_PID ≤ pid ∧ pid ≤ MAX_VIRTUAL_PID :=
  ⟨h.1, h.2.1⟩

theorem added_unique {s s' : Coord} {c c' : CoordClient} (h : RegistryAdded s s' c)
    (h' : s'.clients = s.clients ++ [c']) : c = c' := by
  have := h.1.symm.trans h'
  simpa using this

/-- C17 (amended).  Virtual pid range: in every state that the coordinator
reaches from its initial state, by any inputs, the cursor is one of the values
40000, 41000, ..., 1000000; every value that `getNewVirtualPid` returns there,
and so the virtual pid of every new worker that the next connection registers,
satisfies `INITIAL_VIRTUAL_PID <= pid <= MAX_VIRTUAL_PID`: the upper bound is
included. -/
theorem virtual_pid_range (flags : CoordFlags) (ins : List Input) (s : Coord)
    (h : runInputs (Coord.init flags) ins = .ok s) :
    isCandidate s.nextVirtualPid
      ∧ (∀ (pid : Int) (s' : Coord), getNewVirtualPid s = .ok (pid, s') →
          INITIAL_VIRTUAL_PID ≤ pid ∧ pid ≤ MAX_VIRTUAL_PID)
      ∧ (∀ (now remote remoteAddr : Int) (hello : DmtcpMessage) (extraData : List Char)
          (s' : Coord) (c : CoordClient), hello.type = .DMT_NEW_WORKER →
          react s (.connect now remote remoteAddr hello extraData) = .ok s' →
          s'.clients = s.clients ++ [c] →
          INITIAL_VIRTUAL_PID ≤ c.virtualPid ∧ c.virtualPid ≤ MAX_VIRTUAL_PID) := by
  have hc := runInputs_cursor _ ins s h (isCandidate_init flags)
  refine ⟨hc, fun pid s' hp => ?_, ?_⟩
  · exact isCandidate_range _ ((aside_getNewVirtualPid s (pid, s') hp).2.2 hc)
  · intro now remote remoteAddr hello extraData s' c ht hr hcl
    rcases react_registry s _ s' hr with hk | hk | ⟨c', hk, hb⟩
    · have hl := congrArg List.length hk.1
      unfold registryPids at hl
      rw [hcl] at hl
      simp at hl
    · obtain ⟨l, x, hl, hx, hcl', _⟩ := hk
      have h1 := congrArg List.length hl
      unfold registryPids at h1
      have h2 := congrArg List.length hcl'
      rw [hcl, eraseClient_eq_erase, List.length_erase_of_mem hx] at h2
      simp at h1 h2
      omega
    · rw [← added_unique hk hcl]
      rcases hb with ⟨ht', _⟩ | ⟨_, _, hcand⟩
      · rw [ht] at ht'
        cases ht'
      · exact isCandidate_range _ (hcand hc)

theorem virtual_pid_range_witness :
    ((sampleRun joinedCheckpoint).nextVirtualPid = 42000
      ∧ ((getNewVirtualPid (sampleRun joinedCheckpoint)).toOption.map fun r => r.1) = some 42000)
      ∧ isCandidate (sampleRun joinedCheckpoint).nextVirtualPid :=
  ⟨⟨rfl, rfl⟩,
    (virtual_pid_range sampleFlags joinedCheckpoint (sampleRun joinedCheckpoint) rfl).1⟩

set_option maxRecDepth 100000 in
/-- The counterexample to C17 as it is written.  A worker connects and hangs
up, 960 times over, and then a worker connects: the cursor has gone from 40000
to 1000000, which does not exceed `MAX_VIRTUAL_PID`, so it was not wrapped, and
the last worker (client number 961) is given the virtual pid 1000000, which is
not below `MAX_VIRTUAL_PID`.  The `DMT_ACCEPT` reply carries that pid. -/
theorem virtual_pid_reaches_max :
    ((runInputs (Coord.init sampleFlags)
          (churn 960 ++ [.connect 50 11 2130706433 (sampleHello 501) []])).toOption.map
        fun s => (s.clients.map fun c => (c.clientNumber, c.virtualPid),
          s.sent.map fun m => (m.msg.type, m.msg.virtualPid), s.nextVirtualPid))
        = some ([(961, 1000000)], [(.DMT_ACCEPT, 1000000)], 40000)
      ∧ ¬ ((1000000 : Int) < MAX_VIRTUAL_PID) :=
  ⟨rfl, by decide⟩

/-- C18.  The virtual-pid allocator is first-fit: whenever `getNewVirtualPid`
returns, the pid it returns is the first element, in the cyclic candidate
sequence that starts at the cursor `_nextVirtualPid`, that is not a key of the
virtual-pid map (element `k`, while the elements before it are keys); it is
therefore not in the map; and the new cursor is the candidate that follows it,
nothing else having changed.  The allocator is a function of the state, so it
is deterministic. -/
theorem getNewVirtualPid_first_fit (s : Coord) (pid : Int) (s' : Coord)
    (h : getNewVirtualPid s = .ok (pid, s')) :
    ∃ k : Nat, pid = candidate s.nextVirtualPid k
      ∧ (∀ j < k, candidate s.nextVirtualPid j ∈ mapKeys s.virtualPidToClientMap)
      ∧ pid ∉ mapKeys s.virtualPidToClientMap
      ∧ s'.nextVirtualPid = nextCandidate pid
      ∧ s' = { s with nextVirtualPid := nextCandidate pid } := by
  obtain ⟨k, h1, h2, h3, h4⟩ := getNewVirtualPid_spec s pid s' h
  refine ⟨k, h1, h2, h3, ?_, ?_⟩
  · rw [h4, h1]
    rfl
  · rw [h4, h1]
    rfl

theorem getNewVirtualPid_first_fit_witness :
    (getNewVirtualPid sampleWrapping
        = .ok (41000, { sampleWrapping with nextVirtualPid := 42000 })
      ∧ (List.range 3).map (candidate sampleWrapping.nextVirtualPid) = [1000000, 40000, 41000])
      ∧ ∃ k : Nat, (41000 : Int) = candidate sampleWrapping.nextVirtualPid k
        ∧ (∀ j < k, candidate sampleWrapping.nextVirtualPid j
            ∈ mapKeys sampleWrapping.virtualPidToClientMap)
        ∧ (41000 : Int) ∉ mapKeys sampleWrapping.virtualPidToClientMap
        ∧ ({ sampleWrapping with nextVirtualPid := 42000 } : Coord).nextVirtualPid
            = nextCandidate 41000
        ∧ ({ sampleWrapping with nextVirtualPid := 42000 } : Coord)
            = { sampleWrapping with nextVirtualPid := nextCandidate 41000 } :=
  ⟨⟨rfl, rfl⟩,
    getNewVirtualPid_first_fit sampleWrapping 41000 { sampleWrapping with nextVirtualPid := 42000 }
      rfl⟩

/-- C19 (amended).  The virtual-pid allocator cannot fail below saturation: for
every virtual-pid map with fewer than 961 entries, the number of candidates
`(MAX_VIRTUAL_PID - INITIAL_VIRTUAL_PID) / VIRTUAL_PID_STEP + 1`, and every
cursor value the allocator can reach (a candidate), `getNewVirtualPid` passes
its size assertion, terminates and returns a pid. -/
theorem getNewVirtualPid_terminates (s : Coord)
    (hsize : s.virtualPidToClientMap.length < numCandidates)
    (hc : isCandidate s.nextVirtualPid) :
    ∃ (pid : Int) (s' : Coord), getNewVirtualPid s = .ok (pid, s') := by
  have hfree : ∃ x, isCandidate x ∧ x ∉ mapKeys s.virtualPidToClientMap := by
    apply free_candidate
    unfold mapKeys
    rw [List.length_map]
    exact hsize
  have hlt : (s.virtualPidToClientMap.length : Int) < MAX_VIRTUAL_PID := by
    rw [numCandidates_eq] at hsize
    unfold MAX_VIRTUAL_PID
    omega
  obtain ⟨r, hr⟩ := getNewVirtualPid_returns s hfree hlt hc
  exact ⟨r.1, r.2, hr⟩

theorem getNewVirtualPid_terminates_witness :
    (sampleWrapping.virtualPidToClientMap.length = 2 ∧ sampleWrapping.nextVirtualPid = 1000000)
      ∧ ∃ (pid : Int) (s' : Coord), getNewVirtualPid sampleWrapping = .ok (pid, s') :=
  ⟨⟨rfl, rfl⟩, getNewVirtualPid_terminates sampleWrapping (by decide) (by decide)⟩

/-- The counterexample to C19 as it is written.  The map `saturatedMap` has 961
entries, fewer than `MAX_VIRTUAL_PID / VIRTUAL_PID_STEP = 1000` and fewer than
`MAX_VIRTUAL_PID`, so that the size assertion passes; the cursor is 40000, the
value it starts with.  Every candidate is a key of the map, so the loop of
`getNewVirtualPid` has not returned after any number of rounds: the call does
not terminate. -/
theorem getNewVirtualPid_hangs_on_saturated_map :
    (sampleSaturated.virtualPidToClientMap.length = 961
        ∧ ((961 : Nat) : Int) < MAX_VIRTUAL_PID / VIRTUAL_PID_STEP
        ∧ ((961 : Nat) : Int) < MAX_VIRTUAL_PID
        ∧ sampleSaturated.nextVirtualPid = INITIAL_VIRTUAL_PID)
      ∧ (∀ fuel : Nat, getNewVirtualPidLoop fuel sampleSaturated = none)
      ∧ ¬ (∃ (pid : Int) (s' : Coord), getNewVirtualPid sampleSaturated = .ok (pid, s')) := by
  have hmap : sampleSaturated.virtualPidToClientMap = saturatedMap := by
    simp only [sampleSaturated]
  have hcur : sampleSaturated.nextVirtualPid = 40000 := by
    unfold sampleSaturated
    rfl
  have hlen : sampleSaturated.virtualPidToClientMap.length = 961 := by
    rw [hmap]
    unfold saturatedMap
    rw [List.length_map, List.length_range, numCandidates_eq]
  have hloop : ∀ fuel : Nat, getNewVirtualPidLoop fuel sampleSaturated = none :=
    fun fuel => loop_saturated fuel sampleSaturated hmap (by rw [hcur]; decide)
  refine ⟨⟨hlen, by decide, by decide, hcur⟩, hloop, ?_⟩
  rintro ⟨pid, s', h⟩
  unfold getNewVirtualPid at h
  rw [hloop] at h
  split_ifs at h

/-! ## The state aggregator: minimum, maximum and unanimity -/

theorem WorkerState.ofInt_toInt (st : WorkerState) : WorkerState.ofInt st.toInt = st := by
  cases st <;> rfl

theorem WorkerState.toInt_bounds (st : WorkerState) : 0 ≤ st.toInt ∧ st.toInt ≤ 6 := by
  cases st <;> simp [WorkerState.toInt]

theorem WorkerState.toInt_inj {a b : WorkerState} (h : a.toInt = b.toInt) : a = b := by
  rw [← WorkerState.ofInt_toInt a, ← WorkerState.ofInt_toInt b, h]

/-- The minimum that the loop of `getStatus` computes: it is at most the
starting value and at most every state visited, and it is the starting value or
the state of a client visited. -/
theorem getStatusLoop_min (l : List CoordClient) (m M k : Int) (u : Bool) :
    (getStatusLoop l m M k u).1 ≤ m
      ∧ (∀ c ∈ l, (getStatusLoop l m M k u).1 ≤ c.state.toInt)
      ∧ ((getStatusLoop l m M k u).1 = m
          ∨ ∃ c ∈ l, c.state.toInt = (getStatusLoop l m M k u).1) := by
  induction l generalizing m M k u with
  | nil => simp [getStatusLoop]
  | cons c rest ih =>
    simp only [getStatusLoop]
    generalize hm' : (if c.state.toInt < m then c.state.toInt else m) = m'
    generalize (if c.state.toInt > M then c.state.toInt else M) = M'
    generalize (u && (m == c.state.toInt || m == WorkerState.MAX)) = u'
    obtain ⟨h1, h2, h3⟩ := ih m' M' (k + 1) u'
    have hm1 : m' ≤ m ∧ m' ≤ c.state.toInt ∧ (m' = m ∨ m' = c.state.toInt) := by
      rw [← hm']
      split_ifs <;> omega
    refine ⟨by omega, ?_, ?_⟩
    · intro x hx
      rcases List.mem_cons.1 hx with hx | hx
      · subst hx
        omega
      · exact h2 x hx
    · rcases h3 with h3 | ⟨x, hx, hx2⟩
      · rcases hm1.2.2 with e | e
        · exact Or.inl (h3.trans e)
        · exact Or.inr ⟨c, List.mem_cons_self _ _, (h3.trans e).symm⟩
      · exact Or.inr ⟨x, List.mem_cons_of_mem _ hx, hx2⟩

/-- The maximum that the loop of `getStatus` computes. -/
theorem getStatusLoop_max (l : List CoordClient) (m M k : Int) (u : Bool) :
    M ≤ (getStatusLoop l m M k u).2.1
      ∧ (∀ c ∈ l, c.state.toInt ≤ (getStatusLoop l m M k u).2.1)
      ∧ ((getStatusLoop l m M k u).2.1 = M
          ∨ ∃ c ∈ l, c.state.toInt = (getStatusLoop l m M k u).2.1) := by
  induction l generalizing m M k u with
  | nil => simp [getStatusLoop]
  | cons c rest ih =>
    simp only [getStatusLoop]
    generalize (if c.state.toInt < m then c.state.toInt else m) = m'
    generalize hM' : (if c.state.toInt > M then c.state.toInt else M) = M'
    generalize (u && (m == c.state.toInt || m == WorkerState.MAX)) = u'
    obtain ⟨h1, h2, h3⟩ := ih m' M' (k + 1) u'
    have hm1 : M ≤ M' ∧ c.state.toInt ≤ M' ∧ (M' = M ∨ M' = c.state.toInt) := by
      rw [← hM']
      split_ifs <;> omega
    refine ⟨by omega, ?_, ?_⟩
    · intro x hx
      rcases List.mem_cons.1 hx with hx | hx
      · subst hx
        omega
      · exact h2 x hx
    · rcases h3 with h3 | ⟨x, hx, hx2⟩
      · rcases hm1.2.2 with e | e
        · exact Or.inl (h3.trans e)
        · exact Or.inr ⟨c, List.mem_cons_self _ _, (h3.trans e).symm⟩
      · exact Or.inr ⟨x, List.mem_cons_of_mem _ hx, hx2⟩

/-- The flag that the loop of `getStatus` computes: it stays true exactly when
every client visited has the state that the minimum stood at, or, when the
minimum stood at its starting value `_MAX`, when they all have the same
state. -/
theorem getStatusLoop_unanimous (l : List CoordClient) (m M k : Int) (u : Bool) :
    (getStatusLoop l m M k u).2.2.2 = true
      ↔ (u = true
          ∧ (m = WorkerState.MAX → ∀ a ∈ l, ∀ b ∈ l, a.state = b.state)
          ∧ (m ≠ WorkerState.MAX → ∀ c ∈ l, c.state.toInt = m)) := by
  induction l generalizing m M k u with
  | nil => simp [getStatusLoop]
  | cons c rest ih =>
    simp only [getStatusLoop]
    rw [ih]
    have hb := WorkerState.toInt_bounds c.state
    by_cases hm : m = WorkerState.MAX
    · subst hm
      have hlt : c.state.toInt < WorkerState.MAX := by
        unfold WorkerState.MAX
        omega
      have hne : c.state.toInt ≠ WorkerState.MAX := by
        unfold WorkerState.MAX
        omega
      simp only [hlt, if_true, hne, ne_eq, not_false_eq_true, forall_true_left,
        beq_self_eq_true, Bool.or_true, Bool.and_true, IsEmpty.forall_iff, true_and,
        not_true_eq_false, and_true]
      constructor
      · rintro ⟨hu, hall⟩
        refine ⟨hu, ?_⟩
        intro a ha b hb'
        have ea : a.state.toInt = c.state.toInt := by
          rcases List.mem_cons.1 ha with h | h
          · rw [h]
          · exact hall a h
        have eb : b.state.toInt = c.state.toInt := by
          rcases List.mem_cons.1 hb' with h | h
          · rw [h]
          · exact hall b h
        exact WorkerState.toInt_inj (ea.trans eb.symm)
      · rintro ⟨hu, hall⟩
        exact ⟨hu, fun x hx => by
          rw [hall x (List.mem_cons_of_mem _ hx) c (List.mem_cons_self _ _)]⟩
    · by_cases hc : m = c.state.toInt
      · subst hc
        have hlt : ¬ c.state.toInt < c.state.toInt := lt_irrefl _
        simp only [hlt, if_false, hm, ne_eq, not_false_eq_true, forall_true_left,
          beq_self_eq_true, Bool.true_or, Bool.and_true, IsEmpty.forall_iff, true_and,
          List.mem_cons, forall_eq_or_imp, and_true]
      · have hbeq : (m == c.state.toInt || m == WorkerState.MAX) = false := by
          simp [hc, hm]
        rw [hbeq, Bool.and_false]
        constructor
        · rintro ⟨hu, _⟩
          cases hu
        · rintro ⟨_, _, h3⟩
          exact absurd (h3 hm c (List.mem_cons_self _ _)).symm hc

/-- What `getStatus` returns, in terms of the registry. -/
theorem getStatus_spec (s : Coord) :
    (s.clients = [] →
        (getStatus s).minimumState = .UNKNOWN ∧ (getStatus s).maximumState = .UNKNOWN)
      ∧ (s.clients ≠ [] →
          (∃ c ∈ s.clients, c.state = (getStatus s).minimumState)
            ∧ (∀ c ∈ s.clients, (getStatus s).minimumState.toInt ≤ c.state.toInt)
            ∧ (∃ c ∈ s.clients, c.state = (getStatus s).maximumState)
            ∧ (∀ c ∈ s.clients, c.state.toInt ≤ (getStatus s).maximumState.toInt)) := by
  have hmin := getStatusLoop_min s.clients WorkerState.MAX WorkerState.UNKNOWN.toInt 0 true
  have hmax := getStatusLoop_max s.clients WorkerState.MAX WorkerState.UNKNOWN.toInt 0 true
  unfold getStatus
  simp only
  generalize getStatusLoop s.clients WorkerState.MAX WorkerState.UNKNOWN.toInt 0 true = r at *
  obtain ⟨mn, mx, cnt, un⟩ := r
  simp only at hmin hmax ⊢
  obtain ⟨_, hmin2, hmin3⟩ := hmin
  obtain ⟨hmax1, hmax2, hmax3⟩ := hmax
  constructor
  · intro he
    rw [he] at hmin3 hmax3
    have e1 : mn = WorkerState.MAX := by
      rcases hmin3 with h | ⟨c, hc, _⟩
      · exact h
      · cases hc
    have e2 : mx = WorkerState.UNKNOWN.toInt := by
      rcases hmax3 with h | ⟨c, hc, _⟩
      · exact h
      · cases hc
    simp [e1, e2]
  · intro hne
    obtain ⟨c0, hc0⟩ := List.exists_mem_of_ne_nil _ hne
    have hb0 := WorkerState.toInt_bounds c0.state
    have h7 : mn ≠ WorkerState.MAX := by
      have := hmin2 c0 hc0
      unfold WorkerState.MAX
      omega
    obtain ⟨cm, hcm, ecm⟩ : ∃ c ∈ s.clients, c.state.toInt = mn := by
      rcases hmin3 with h | h
      · exact absurd h h7
      · exact h
    have emin : (if mn = WorkerState.MAX then WorkerState.UNKNOWN else WorkerState.ofInt mn)
        = cm.state := by
      rw [if_neg h7, ← ecm, WorkerState.ofInt_toInt]
    have emax : ∃ c ∈ s.clients, c.state.toInt = mx
        ∧ (if mx = WorkerState.UNKNOWN.toInt then WorkerState.UNKNOWN else WorkerState.ofInt mx)
          = c.state := by
      rcases hmax3 with h | ⟨c, hc, ec⟩
      · have hU : WorkerState.UNKNOWN.toInt = 0 := rfl
        have hle := hmax2 c0 hc0
        rw [h, hU] at hle
        refine ⟨c0, hc0, ?_, ?_⟩
        · rw [h, hU]
          omega
        · rw [if_pos h]
          apply WorkerState.toInt_inj
          rw [hU]
          omega
      · refine ⟨c, hc, ec, ?_⟩
        split
        · rename_i h0
          apply WorkerState.toInt_inj
          rw [ec, h0]
        · rw [← ec, WorkerState.ofInt_toInt]
    obtain ⟨cx, hcx, ecx, ecx2⟩ := emax
    rw [emin, ecx2]
    exact ⟨⟨cm, hcm, rfl⟩, fun c hc => ecm ▸ hmin2 c hc, ⟨cx, hcx, rfl⟩,
      fun c hc => ecx ▸ hmax2 c hc⟩

theorem getStatus_unanimous_eq (s : Coord) :
    (getStatus s).minimumStateUnanimous
      = (if (getStatus s).minimumState = WorkerState.RESTARTING
            ∧ (s.clients.length : Int) < s.numRestartPeers then false
         else (getStatusLoop s.clients WorkerState.MAX WorkerState.UNKNOWN.toInt 0 true).2.2.2) := by
  have hc := getStatusLoop_count s.clients WorkerState.MAX WorkerState.UNKNOWN.toInt 0 true
  unfold getStatus
  simp only
  rw [hc, zero_add]

/-- When `getStatus` reports unanimity: all registered clients are in the same
state, and they are not fewer than `numRestartPeers` clients that are all
RESTARTING. -/
theorem getStatus_unanimous_spec (s : Coord) :
    (getStatus s).minimumStateUnanimous = true
      ↔ ((∀ a ∈ s.clients, ∀ b ∈ s.clients, a.state = b.state)
          ∧ ¬ (s.clients ≠ [] ∧ (∀ c ∈ s.clients, c.state = WorkerState.RESTARTING)
                ∧ (s.clients.length : Int) < s.numRestartPeers)) := by
  have hu := getStatusLoop_unanimous s.clients WorkerState.MAX WorkerState.UNKNOWN.toInt 0 true
  simp only [true_and, forall_true_left, ne_eq, not_true_eq_false, IsEmpty.forall_iff,
    and_true] at hu
  have hspec := getStatus_spec s
  rw [getStatus_unanimous_eq]
  by_cases hr : (getStatus s).minimumState = WorkerState.RESTARTING
      ∧ (s.clients.length : Int) < s.numRestartPeers
  · rw [if_pos hr]
    constructor
    · intro h
      cases h
    · rintro ⟨hall, hnot⟩
      exfalso
      have hne : s.clients ≠ [] := by
        intro he
        have := (hspec.1 he).1
        rw [this] at hr
        exact WorkerState.noConfusion hr.1
      obtain ⟨⟨c, hc, ec⟩, _⟩ := hspec.2 hne
      exact hnot ⟨hne, fun x hx => by rw [hall x hx c hc, ec, hr.1], hr.2⟩
  · rw [if_neg hr, hu]
    constructor
    · intro hall
      refine ⟨hall, ?_⟩
      rintro ⟨hne, hrest, hlt⟩
      obtain ⟨⟨c, hc, ec⟩, _⟩ := hspec.2 hne
      exact hr ⟨by rw [← ec, hrest c hc], hlt⟩
    · exact fun h => h.1

/-- C27.  State aggregator minimum and maximum.  For every registry `getStatus`
returns `numPeers` equal to the number of registered clients.  For a registry
that is not empty, `minimumState` is the state of some registered client and
is at most the state of every registered client, and `maximumState` is the
state of some registered client and is at least the state of every registered
client, in the order UNKNOWN < RUNNING < PRESUSPEND < SUSPENDED < CHECKPOINTING
< CHECKPOINTED < RESTARTING (the order of `WorkerState.toInt`).  For the empty
registry both are UNKNOWN. -/
theorem getStatus_min_max (s : Coord) :
    (getStatus s).numPeers = s.clients.length
      ∧ (s.clients ≠ [] →
          (∃ c ∈ s.clients, c.state = (getStatus s).minimumState)
            ∧ (∀ c ∈ s.clients, (getStatus s).minimumState.toInt ≤ c.state.toInt)
            ∧ (∃ c ∈ s.clients, c.state = (getStatus s).maximumState)
            ∧ (∀ c ∈ s.clients, c.state.toInt ≤ (getStatus s).maximumState.toInt))
      ∧ (s.clients = [] →
          (getStatus s).minimumState = .UNKNOWN ∧ (getStatus s).maximumState = .UNKNOWN) :=
  ⟨getStatus_numPeers s, (getStatus_spec s).2, (getStatus_spec s).1⟩

theorem getStatus_min_max_witness :
    sampleMixed.clients ≠ []
      ∧ ((getStatus sampleMixed).minimumState = .RUNNING
          ∧ (getStatus sampleMixed).maximumState = .CHECKPOINTED)
      ∧ ((∃ c ∈ sampleMixed.clients, c.state = (getStatus sampleMixed).minimumState)
          ∧ (∀ c ∈ sampleMixed.clients,
              (getStatus sampleMixed).minimumState.toInt ≤ c.state.toInt)
          ∧ (∃ c ∈ sampleMixed.clients, c.state = (getStatus sampleMixed).maximumState)
          ∧ (∀ c ∈ sampleMixed.clients,
              c.state.toInt ≤ (getStatus sampleMixed).maximumState.toInt)) :=
  ⟨by decide, ⟨rfl, rfl⟩, (getStatus_min_max sampleMixed).2.1 (by decide)⟩

/-- C28.  State aggregator unanimity.  For every registry, in whatever order
its clients stand, `getStatus` returns `minimumStateUnanimous = true` if and
only if all registered clients have the same state and it is not the case that
this state is RESTARTING while fewer than `numRestartPeers` clients are
registered.  For the empty registry it is true. -/
theorem getStatus_unanimous_iff (s : Coord) :
    ((getStatus s).minimumStateUnanimous = true
        ↔ ((∀ a ∈ s.clients, ∀ b ∈ s.clients, a.state = b.state)
            ∧ ¬ (s.clients ≠ [] ∧ (∀ c ∈ s.clients, c.state = WorkerState.RESTARTING)
                  ∧ (s.clients.length : Int) < s.numRestartPeers)))
      ∧ (s.clients = [] → (getStatus s).minimumStateUnanimous = true) := by
  refine ⟨getStatus_unanimous_spec s, fun he => (getStatus_unanimous_spec s).2 ?_⟩
  rw [he]
  exact ⟨fun a ha => absurd ha (List.not_mem_nil a), fun h => h.1 rfl⟩

theorem getStatus_unanimous_iff_witness :
    (Coord.init sampleFlags).clients = []
      ∧ (getStatus (Coord.init sampleFlags)).minimumStateUnanimous = true
      ∧ (getStatus sampleRestarting).minimumStateUnanimous = false
      ∧ (getStatus sampleMixed).minimumStateUnanimous = false
      ∧ (getStatus sampleRestarted).minimumStateUnanimous = true :=
  ⟨rfl, (getStatus_unanimous_iff (Coord.init sampleFlags)).2 rfl, rfl, rfl, rfl⟩

/-! ## Claims on new workers while a checkpoint is in progress -/

theorem helloClient_sock (remote remoteAddr : Int) (hello : DmtcpMessage)
    (extraData : List Char) (s : Coord) :
    (helloClient remote remoteAddr hello extraData s).sock = remote := by
  unfold helloClient CoordClient.readProcessInfo
  split_ifs <;> rfl

/-- The branch of `validateNewWorkerProcess` for a worker that connects while a
checkpoint is in progress: when the allocator returns and the assertions of
`ResendDoCheckpointMsgToWorker` hold, `DMT_ACCEPT` and then `DMT_DO_CHECKPOINT`
are written. -/
theorem validateNewWorkerProcess_resend (now : Int) (hello : DmtcpMessage) (remote : Int)
    (client : CoordClient) (remoteAddr : Int) (t : Coord) (pid : Int) (t2 : Coord)
    (hst : hello.state = .RUNNING ∨ hello.state = .UNKNOWN) (hv : hello.virtualPid = -1)
    (hr : getNewVirtualPid t = .ok (pid, t2))
    (hflag : t2.workersRunningAndSuspendMsgSent = true)
    (hpeers : (getStatus t2).numPeers > 0)
    (hmin : (getStatus t2).minimumState ≠ .SUSPENDED) :
    validateNewWorkerProcess now hello remote client remoteAddr t
      = .ok (true, { client with virtualPid := pid },
          send client.sock { DmtcpMessage.new .DMT_DO_CHECKPOINT with compGroup := t2.compId } []
            (send remote (helloLocal .DMT_ACCEPT pid t2.compId 0 0) [] t2)) := by
  have hstate : ¬ (hello.state ≠ WorkerState.RUNNING ∧ hello.state ≠ WorkerState.UNKNOWN) := by
    rintro ⟨h1, h2⟩
    rcases hst with h | h
    · exact h1 h
    · exact h2 h
  have hv' : ¬ hello.virtualPid ≠ -1 := not_not_intro hv
  have e1 : (send remote (helloLocal .DMT_ACCEPT pid t2.compId 0 0) [] t2).workersRunningAndSuspendMsgSent
      = true := hflag
  have e2 : getStatus (send remote (helloLocal .DMT_ACCEPT pid t2.compId 0 0) [] t2)
      = getStatus t2 := rfl
  have e3 : ResendDoCheckpointMsgToWorker { client with virtualPid := pid }
      (send remote (helloLocal .DMT_ACCEPT pid t2.compId 0 0) [] t2)
      = .ok (send client.sock
          { DmtcpMessage.new .DMT_DO_CHECKPOINT with compGroup := t2.compId } []
          (send remote (helloLocal .DMT_ACCEPT pid t2.compId 0 0) [] t2)) := by
    unfold ResendDoCheckpointMsgToWorker
    rw [e1, e2]
    simp only [Bool.true_eq_false, if_false]
    rw [if_neg (not_not_intro hpeers), if_neg hmin]
    rfl
  unfold validateNewWorkerProcess
  rw [if_neg hstate, if_neg hv', hr]
  simp only
  rw [if_pos hflag, e3]

/-- C21 (amended).  In every reachable state in which
`workersRunningAndSuspendMsgSent` is true, no kill is in progress, the registry
is not empty, the minimum state of the registered workers is not SUSPENDED and
the virtual-pid map has fewer than 961 entries, a `DMT_NEW_WORKER` hello with
state RUNNING or UNKNOWN and `virtualPid == -1` is accepted without any
assertion failing: `DMT_ACCEPT` with a virtual pid that is not in the map and
with the current `compId` is written to it, then `DMT_DO_CHECKPOINT` with the
current `compId`, and the client is added to the registry and to the map with
that pid; nothing else changes but the allocator cursor, the next client number
and the data sockets. -/
theorem new_worker_joins_checkpoint (flags : CoordFlags) (ins : List Input)
    (now remote remoteAddr : Int) (hello : DmtcpMessage) (extraData : List Char) (s : Coord)
    (hrun : runInputs (Coord.init flags) ins = .ok s)
    (hflag : s.workersRunningAndSuspendMsgSent = true)
    (hk : s.killInProgress = false) (hne : s.clients ≠ [])
    (hmin : minimumState s ≠ .SUSPENDED)
    (hsize : s.virtualPidToClientMap.length < numCandidates)
    (ht : hello.type = .DMT_NEW_WORKER)
    (hst : hello.state = .RUNNING ∨ hello.state = .UNKNOWN) (hv : hello.virtualPid = -1) :
    ∃ pid cursor : Int, pid ∉ mapKeys s.virtualPidToClientMap
      ∧ onConnect now remote remoteAddr hello extraData s
          = .ok { s with
              nextVirtualPid := cursor
              theNextClientNumber := s.theNextClientNumber + 1
              sent := s.sent
                ++ [⟨remote, helloLocal .DMT_ACCEPT pid s.compId 0 0, []⟩,
                    ⟨remote, { DmtcpMessage.new .DMT_DO_CHECKPOINT with compGroup := s.compId },
                      []⟩]
              virtualPidToClientMap :=
                mapInsert pid s.theNextClientNumber s.virtualPidToClientMap
              clients := s.clients
                ++ [{ helloClient remote remoteAddr hello extraData s with virtualPid := pid }]
              dataSockets := s.dataSockets ++ [remote] } := by
  have hc : isCandidate s.nextVirtualPid :=
    runInputs_cursor _ ins s hrun (isCandidate_init flags)
  have hlen : s.clients.length ≠ 0 := fun h => hne (List.length_eq_zero.1 h)
  have hinit : initializedIfEmpty s = s := by
    unfold initializedIfEmpty
    rw [if_neg hlen]
  have hkill : ¬ s.killInProgress = true := by simp [hk]
  have hfree : ∃ x, isCandidate x ∧ x ∉ mapKeys s.virtualPidToClientMap := by
    apply free_candidate
    unfold mapKeys
    rw [List.length_map]
    exact hsize
  have hlt : (s.virtualPidToClientMap.length : Int) < MAX_VIRTUAL_PID := by
    rw [numCandidates_eq] at hsize
    unfold MAX_VIRTUAL_PID
    omega
  obtain ⟨⟨pid, s2⟩, hr⟩ := getNewVirtualPid_returns
    (CoordClient.new remote remoteAddr hello s).2 hfree hlt hc
  obtain ⟨k, _, _, hnot, hs2⟩ := getNewVirtualPid_spec _ pid s2 hr
  refine ⟨pid, candidate s.nextVirtualPid (k + 1), hnot, ?_⟩
  have hpeers : (getStatus s2).numPeers > 0 := by
    rw [getStatus_numPeers, hs2]
    have : 0 < s.clients.length := Nat.pos_of_ne_zero hlen
    exact_mod_cast this
  have hflag2 : s2.workersRunningAndSuspendMsgSent = true := by
    rw [hs2]
    exact hflag
  have hmin2 : (getStatus s2).minimumState ≠ .SUSPENDED := by
    rw [hs2]
    exact hmin
  have hval := validateNewWorkerProcess_resend now hello remote
    (helloClient remote remoteAddr hello extraData s) remoteAddr _ pid s2 hst hv hr hflag2 hpeers
    hmin2
  unfold onConnect
  rw [if_neg (by rw [ht]; decide), if_neg (by rw [ht]; decide), if_neg hkill, hinit]
  unfold onConnectWorker
  rw [if_neg (by rw [ht]; decide), if_pos ht, hval, hs2]
  have hnum := (helloClient_number remote remoteAddr hello extraData s).1
  have hsock := helloClient_sock remote remoteAddr hello extraData s
  generalize helloClient remote remoteAddr hello extraData s = cl at hnum hsock ⊢
  obtain ⟨sock, number, identity, realPid, virtualPid, hostname, progname, ip, state, barrier,
    isNSWorker⟩ := cl
  simp only at hnum hsock
  subst hnum hsock
  simp only [if_true, registerClient, send, List.append_assoc, List.cons_append, List.nil_append]
  rfl

theorem new_worker_joins_checkpoint_witness :
    (runInputs (Coord.init sampleFlags) (soloCheckpoint.take 2) = .ok sampleStarted
        ∧ sampleStarted.workersRunningAndSuspendMsgSent = true
        ∧ minimumState sampleStarted = .RUNNING)
      ∧ ∃ pid cursor : Int, pid ∉ mapKeys sampleStarted.virtualPidToClientMap
          ∧ onConnect 52 12 2130706433 (sampleHello 502) [] sampleStarted
              = .ok { sampleStarted with
                  nextVirtualPid := cursor
                  theNextClientNumber := sampleStarted.theNextClientNumber + 1
                  sent := sampleStarted.sent
                    ++ [⟨12, helloLocal .DMT_ACCEPT pid sampleStarted.compId 0 0, []⟩,
                        ⟨12, { DmtcpMessage.new .DMT_DO_CHECKPOINT with
                                compGroup := sampleStarted.compId }, []⟩]
                  virtualPidToClientMap :=
                    mapInsert pid sampleStarted.theNextClientNumber
                      sampleStarted.virtualPidToClientMap
                  clients := sampleStarted.clients
                    ++ [{ helloClient 12 2130706433 (sampleHello 502) [] sampleStarted with
                          virtualPid := pid }]
                  dataSockets := sampleStarted.dataSockets ++ [12] } :=
  ⟨⟨rfl, rfl, rfl⟩,
    new_worker_joins_checkpoint sampleFlags (soloCheckpoint.take 2) 52 12 2130706433
      (sampleHello 502) [] sampleStarted rfl rfl rfl (by decide) (by decide) (by decide) rfl
      (Or.inl rfl) rfl⟩

/-- On a saturated virtual-pid map `onConnect` does not return for a new
worker: the loop of `getNewVirtualPid` finds no free candidate. -/
theorem onConnect_saturated (now remote remoteAddr : Int) (hello : DmtcpMessage)
    (extraData : List Char) (s : Coord) (hmap : s.virtualPidToClientMap = saturatedMap)
    (hcur : isCandidate s.nextVirtualPid) (hk : s.killInProgress = false)
    (hne : s.clients ≠ []) (ht : hello.type = .DMT_NEW_WORKER)
    (hst : hello.state = .RUNNING) (hv : hello.virtualPid = -1) :
    onConnect now remote remoteAddr hello extraData s = .error .diverge := by
  have hlen : s.clients.length ≠ 0 := fun h => hne (List.length_eq_zero.1 h)
  have hinit : initializedIfEmpty s = s := by
    unfold initializedIfEmpty
    rw [if_neg hlen]
  have hkill : ¬ s.killInProgress = true := by simp [hk]
  have hsize : ((CoordClient.new remote remoteAddr hello s).2.virtualPidToClientMap.length : Int)
      < MAX_VIRTUAL_PID := by
    show ((s.virtualPidToClientMap.length : Nat) : Int) < MAX_VIRTUAL_PID
    rw [hmap]
    unfold saturatedMap
    rw [List.length_map, List.length_range, numCandidates_eq]
    decide
  have hg : getNewVirtualPid (CoordClient.new remote remoteAddr hello s).2 = .error .diverge := by
    unfold getNewVirtualPid
    rw [if_neg (not_not_intro hsize),
      loop_saturated _ (CoordClient.new remote remoteAddr hello s).2 hmap hcur]
  have hstate : ¬ (hello.state ≠ WorkerState.RUNNING ∧ hello.state ≠ WorkerState.UNKNOWN) :=
    fun h => h.1 hst
  have hv' : ¬ hello.virtualPid ≠ -1 := not_not_intro hv
  unfold onConnect
  rw [if_neg (by rw [ht]; decide), if_neg (by rw [ht]; decide), if_neg hkill, hinit]
  unfold onConnectWorker
  rw [if_neg (by rw [ht]; decide), if_pos ht]
  unfold validateNewWorkerProcess
  rw [if_neg hstate, if_neg hv', hg]

/-- The counterexample to C21 as it is written.  In each of three reachable
states `workersRunningAndSuspendMsgSent` is true, and the hello message
`sampleHello 502` is a `DMT_NEW_WORKER` in state RUNNING with virtual pid -1.
In `sampleSuspended` the only registered worker has reached SUSPENDED: the
assertion `s.minimumState != WorkerState::SUSPENDED` of
`ResendDoCheckpointMsgToWorker` fails.  After the command `k` a kill is in
progress: the new worker is written `DMT_KILL_PEER`, its socket is closed and it
is not registered.  After worker A has hung up the registry is empty: the new
worker is accepted into a computation that is initialised afresh, and it is
written `DMT_ACCEPT` only, no `DMT_DO_CHECKPOINT`.  And in `sampleFull`, a
checkpoint with 961 registered workers that hold every candidate of the
allocator, `onConnect` does not return. -/
theorem new_worker_not_always_joined :
    ((sampleHello 502).type = .DMT_NEW_WORKER ∧ (sampleHello 502).state = .RUNNING
        ∧ (sampleHello 502).virtualPid = -1)
      ∧ (runInputs (Coord.init sampleFlags) (soloCheckpoint.take 4) = .ok sampleSuspended
        ∧ sampleSuspended.workersRunningAndSuspendMsgSent = true
        ∧ react sampleSuspended (.connect 60 12 2130706433 (sampleHello 502) [])
            = .error (.assertFail "s.minimumState != WorkerState::SUSPENDED"))
      ∧ ((sampleRun (soloCheckpoint.take 2 ++ [.userCommand 52 "k"])).workersRunningAndSuspendMsgSent
            = true
        ∧ ((react (sampleRun (soloCheckpoint.take 2 ++ [.userCommand 52 "k"]))
                (.connect 60 12 2130706433 (sampleHello 502) [])).toOption.map
              fun s' => (s'.sent.map fun m => (m.sock, m.msg.type), s'.closed,
                s'.clients.map fun c => c.clientNumber))
            = some ([(12, .DMT_KILL_PEER)], [12], [1]))
      ∧ ((sampleRun (soloCheckpoint.take 2 ++ [.disconnect 52 1])).workersRunningAndSuspendMsgSent
            = true
        ∧ (sampleRun (soloCheckpoint.take 2 ++ [.disconnect 52 1])).clients = []
        ∧ ((react (sampleRun (soloCheckpoint.take 2 ++ [.disconnect 52 1]))
                (.connect 60 12 2130706433 (sampleHello 502) [])).toOption.map
              fun s' => (s'.sent.map fun m => (m.sock, m.msg.type),
                s'.workersRunningAndSuspendMsgSent))
            = some ([(12, .DMT_ACCEPT)], false))
      ∧ (sampleFull.workersRunningAndSuspendMsgSent = true
        ∧ sampleFull.clients.length = 961
        ∧ sampleFull.virtualPidToClientMap.length = 961
        ∧ onConnect 60 12 2130706433 (sampleHello 502) [] sampleFull = .error .diverge) := by
  have hlen : sampleFull.clients.length = 961 := by
    simp only [sampleFull, List.length_map, List.length_range, numCandidates_eq]
  have hmap : sampleFull.virtualPidToClientMap = saturatedMap := by
    simp only [sampleFull, sampleSaturated]
  have hmlen : sampleFull.virtualPidToClientMap.length = 961 := by
    rw [hmap]
    unfold saturatedMap
    rw [List.length_map, List.length_range, numCandidates_eq]
  have hne : sampleFull.clients ≠ [] := by
    intro he
    rw [he] at hlen
    cases hlen
  have hcur : isCandidate sampleFull.nextVirtualPid := by
    have e : sampleFull.nextVirtualPid = 40000 := by
      simp only [sampleFull, sampleSaturated]
      rfl
    rw [e]
    decide
  have hk : sampleFull.killInProgress = false := by
    simp only [sampleFull, sampleSaturated]
    rfl
  have hflag : sampleFull.workersRunningAndSuspendMsgSent = true := by
    simp only [sampleFull]
  exact ⟨⟨rfl, rfl, rfl⟩, ⟨rfl, rfl, rfl⟩, ⟨rfl, rfl⟩, ⟨rfl, rfl, rfl⟩,
    ⟨hflag, hlen, hmlen,
      onConnect_saturated 60 12 2130706433 (sampleHello 502) [] sampleFull hmap hcur hk hne
        rfl rfl rfl⟩⟩

/-! ## Claims on the computation group -/

/-- C22 (amended).  When the last registered client hangs up and
`--exit-on-last` is not set, `onDisconnect` erases the client, closes its
socket, erases its virtual pid from the map and clears `killInProgress`; it
leaves `compId` and every other variable as they are.  The computation group is
reset when the next worker connects: for a registry that is empty, `onConnect`
handles a worker's hello message in the state that `initializeComputation`
makes, and there `compId` is the zero group. -/
theorem onDisconnect_last_keeps_compId (now : Int) (client : CoordClient) (s : Coord)
    (hns : client.isNSWorker = false) (hlast : eraseClient client s.clients = [])
    (hx : s.flags.exitOnLast = false) :
    onDisconnect now client s
        = .ok { s with
            clients := []
            closed := s.closed ++ [client.sock]
            virtualPidToClientMap := mapErase client.virtualPid s.virtualPidToClientMap
            killInProgress := false }
      ∧ (∀ s', onDisconnect now client s = .ok s' → s'.compId = s.compId)
      ∧ ∀ (now' remote remoteAddr : Int) (hello : DmtcpMessage) (extraData : List Char)
          (e : Coord), e.clients = [] → e.killInProgress = false →
          hello.type ≠ .DMT_NAME_SERVICE_WORKER → hello.type ≠ .DMT_USER_CMD →
          onConnect now' remote remoteAddr hello extraData e
              = onConnectWorker now' remote remoteAddr hello
                  (helloClient remote remoteAddr hello extraData (initializeComputation e))
                  (CoordClient.new remote remoteAddr hello (initializeComputation e)).2
            ∧ (initializeComputation e).compId = UniquePid.zero := by
  have h1 : onDisconnect now client s
      = .ok { s with
          clients := []
          closed := s.closed ++ [client.sock]
          virtualPidToClientMap := mapErase client.virtualPid s.virtualPidToClientMap
          killInProgress := false } := by
    unfold onDisconnect
    simp only [hns, Bool.false_eq_true, if_false, getStatus_numPeers, hlast, List.length_nil, hx]
    rfl
  refine ⟨h1, ?_, ?_⟩
  · intro s' hs'
    rw [h1] at hs'
    injection hs' with hs'
    rw [← hs']
  · intro now' remote remoteAddr hello extraData e he hk ht1 ht2
    refine ⟨?_, rfl⟩
    have hinit : initializedIfEmpty e = initializeComputation e := by
      unfold initializedIfEmpty
      rw [he]
      rfl
    have hk' : ¬ e.killInProgress = true := by simp [hk]
    unfold onConnect
    rw [if_neg ht1, if_neg ht2, if_neg hk', hinit]

theorem onDisconnect_last_keeps_compId_witness :
    (sampleRestarting.compId = ⟨7, 41000, 5, 3⟩
        ∧ (sampleRestarting.clients.map fun c => c.clientNumber) = [1])
      ∧ ∀ s', onDisconnect 51 (sampleClient 1 .RESTARTING "")
            { sampleRestarting with clients := [sampleClient 1 .RESTARTING ""] } = .ok s' →
          s'.compId = ⟨7, 41000, 5, 3⟩ :=
  ⟨⟨rfl, rfl⟩,
    (onDisconnect_last_keeps_compId 51 (sampleClient 1 .RESTARTING "")
      { sampleRestarting with clients := [sampleClient 1 .RESTARTING ""] } rfl rfl rfl).2.1⟩

/-- The counterexample to C22 as it is written.  A restarting worker of the
group `(7, 41000, 5, 3)` is accepted and hangs up; `--exit-on-last` is not set.
After `onDisconnect` has returned the registry is empty and `compId` is still
that group, not the zero group.  It is the next connection of a worker that
resets it. -/
theorem compId_survives_last_disconnect :
    sampleFlags.exitOnLast = false
      ∧ (sampleRun [.connect 50 11 2130706433 (restartHello 41000 1) []]).clients.length = 1
      ∧ react (sampleRun [.connect 50 11 2130706433 (restartHello 41000 1) []]) (.disconnect 51 1)
          = .ok sampleDeparted
      ∧ sampleDeparted.clients = []
      ∧ sampleDeparted.compId = ⟨7, 41000, 5, 3⟩
      ∧ sampleDeparted.compId ≠ UniquePid.zero
      ∧ (sampleRun [.connect 50 11 2130706433 (restartHello 41000 1) [], .disconnect 51 1,
            .connect 52 12 2130706433 (sampleHello 502) []]).compId
          = ⟨7, 40000, 5, 0⟩ :=
  ⟨rfl, rfl, rfl, rfl, rfl, by decide, rfl⟩

/-! ## Claims on messages from registered clients -/

theorem updateClient_states (old new : CoordClient) (l : List CoordClient)
    (h : new.state = old.state) :
    ((updateClient old new l).map fun c => c.state) = l.map fun c => c.state := by
  induction l with
  | nil => rfl
  | cons c rest ih =>
    unfold updateClient
    split
    · rename_i hc
      subst hc
      simp [h]
    · simp only [List.map_cons, ih]

theorem updateClient_length (old new : CoordClient) (l : List CoordClient) :
    (updateClient old new l).length = l.length := by
  induction l with
  | nil => rfl
  | cons c rest ih =>
    unfold updateClient
    split
    · rfl
    · simp only [List.length_cons, ih]

theorem getStatusLoop_congr (l l' : List CoordClient) (m M k : Int) (u : Bool)
    (h : (l.map fun c => c.state) = l'.map fun c => c.state) :
    getStatusLoop l m M k u = getStatusLoop l' m M k u := by
  induction l generalizing l' m M k u with
  | nil =>
    cases l' with
    | nil => rfl
    | cons c rest => cases h
  | cons c rest ih =>
    cases l' with
    | nil => cases h
    | cons c' rest' =>
      simp only [List.map_cons, List.cons.injEq] at h
      simp only [getStatusLoop, h.1]
      exact ih rest' _ _ _ _ h.2

/-- The status `getStatus` returns depends on the registry through the states
of the clients only. -/
theorem getStatus_congr (s t : Coord)
    (hc : (t.clients.map fun c => c.state) = s.clients.map fun c => c.state)
    (hn : t.numRestartPeers = s.numRestartPeers) : getStatus t = getStatus s := by
  unfold getStatus
  simp only
  rw [getStatusLoop_congr t.clients s.clients _ _ _ _ hc, hn]

theorem onDisconnect_finishes (now : Int) (client : CoordClient) (s : Coord) :
    (∃ s', onDisconnect now client s = .ok s')
      ∨ (s.flags.exitOnLast = true ∧ ∃ f, onDisconnect now client s = .error (.exit 0 f)) := by
  by_cases hns : client.isNSWorker = true
  · left
    unfold onDisconnect
    rw [if_pos hns]
    exact ⟨_, rfl⟩
  have hns' : client.isNSWorker = false := by simpa using hns
  by_cases hrem : eraseClient client s.clients = []
  · by_cases hx : s.flags.exitOnLast = true
    · right
      refine ⟨hx, ?_⟩
      unfold onDisconnect
      simp only [hns', Bool.false_eq_true, if_false, getStatus_numPeers, hrem, List.length_nil,
        hx]
      simp [handleUserCommand]
    · left
      unfold onDisconnect
      simp only [hns', Bool.false_eq_true, if_false, getStatus_numPeers, hrem, List.length_nil,
        hx]
      simp
  · left
    rw [onDisconnect_eq now client s hns' hrem]
    split <;> exact ⟨_, rfl⟩

theorem ResendDoCheckpointMsgToWorker_ok (client : CoordClient) (t : Coord)
    (hflag : t.workersRunningAndSuspendMsgSent = true) (hne : t.clients ≠ [])
    (hmin : minimumState t ≠ WorkerState.SUSPENDED) :
    ∃ s', ResendDoCheckpointMsgToWorker client t = .ok s' := by
  have hpeers : (getStatus t).numPeers > 0 := by
    rw [getStatus_numPeers]
    have : 0 < t.clients.length := List.length_pos.2 hne
    exact_mod_cast this
  unfold ResendDoCheckpointMsgToWorker
  rw [if_neg (by rw [hflag]; decide)]
  simp only
  have hmin' : ¬ (getStatus t).minimumState = WorkerState.SUSPENDED := hmin
  rw [if_neg (not_not_intro hpeers), if_neg hmin']
  exact ⟨_, rfl⟩

/-- C23 (amended).  For every coordinator state and every message from a
registered client whose announced trailing bytes are all on the socket,
`onData` returns, or, under `--exit-on-last`, ends the coordinator with
`exit(0)` when the message makes it disconnect the last client; no assertion
fails and no string is read outside the trailing bytes, provided that the
message is none of these: a `DMT_BARRIER` whose name differs from the open
barrier; a `DMT_CKPT_FILENAME` or `DMT_UNIQUE_CKPT_FILENAME` whose trailing
bytes are missing, do not hold three NUL-terminated strings, or hold a shell
type other than "", "rsh" and "ssh"; a `DMT_UPDATE_CKPT_DIR` or a
`DMT_UPDATE_PROCESS_INFO_AFTER_INIT_OR_EXEC` whose trailing bytes are missing or
hold no NUL; a `DMT_UPDATE_PROCESS_INFO_AFTER_INIT_OR_EXEC` that arrives while a
checkpoint is in progress and leaves SUSPENDED as the minimum state of the
registry. -/
theorem onData_finishes (now : Int) (client : CoordClient) (msg : DmtcpMessage)
    (extra : List Char) (s : Coord) (hmem : client ∈ s.clients)
    (ht : Tolerated s client msg extra) :
    (∃ s', onData now client msg extra s = .ok s')
      ∨ (s.flags.exitOnLast = true
          ∧ ∃ f, onData now client msg extra s = .error (.exit 0 f)) := by
  obtain ⟨type, state, src, compGroup, virtualPid, realPid, barrier, extraBytes, numPeers,
    isRunning, coordCmd, coordCmdStatus, coordTimeStamp, theCheckpointInterval, ipAddr,
    exitAfterCkpt⟩ := msg
  have hfile : ∀ (u : Bool), extraBytes > 0
      ∧ threeStrings (extra.take extraBytes)
      ∧ (shellTypeOf (extra.take extraBytes) = "" ∨ shellTypeOf (extra.take extraBytes) = "rsh"
          ∨ shellTypeOf (extra.take extraBytes) = "ssh") →
      ∃ s', recordCkptFilename { client with state := state }
        (if extraBytes > 0 then some (extra.take extraBytes) else none)
        { s with clients := updateClient client { client with state := state } s.clients,
                 uniqueCkptFilenames := u } = .ok s' := by
    intro u hx
    rw [if_pos hx.1]
    obtain ⟨s', hs', _⟩ := recordCkptFilename_ok { client with state := state }
      (extra.take extraBytes)
      { s with clients := updateClient client { client with state := state } s.clients,
               uniqueCkptFilenames := u } hx.2.2
    exact ⟨s', hs'⟩
  cases type
  case DMT_WORKER_RESUMING =>
    simp only [onData]
    split_ifs <;> exact Or.inl ⟨_, rfl⟩
  case DMT_BARRIER =>
    left
    have hb : s.currentBarrier = "" ∨ barrier = s.currentBarrier := ht.2
    simp only [onData]
    rw [processBarrier_eq, if_pos hb]
    exact ⟨_, rfl⟩
  case DMT_CKPT_FILENAME =>
    exact Or.inl (hfile s.uniqueCkptFilenames ht.2)
  case DMT_UNIQUE_CKPT_FILENAME =>
    exact Or.inl (hfile true ht.2)
  case DMT_GET_CKPT_DIR =>
    exact Or.inl ⟨_, rfl⟩
  case DMT_UPDATE_CKPT_DIR =>
    left
    have hx : extraBytes > 0 ∧ terminated (extra.take extraBytes) 0 := ht.2
    simp only [onData, hx.1, if_true]
    split_ifs <;> exact ⟨_, rfl⟩
  case DMT_UPDATE_PROCESS_INFO_AFTER_FORK =>
    exact Or.inl ⟨_, rfl⟩
  case DMT_UPDATE_PROCESS_INFO_AFTER_INIT_OR_EXEC =>
    left
    have hx : extraBytes > 0
      ∧ terminated (extra.take extraBytes) 0
      ∧ (s.workersRunningAndSuspendMsgSent = true →
          minimumState
              { s with clients := updateClient client { client with state := state } s.clients }
            ≠ WorkerState.SUSPENDED) := ht.2
    simp only [onData, hx.1, if_true]
    by_cases hflag : s.workersRunningAndSuspendMsgSent = true
    · rw [if_pos hflag]
      refine ResendDoCheckpointMsgToWorker_ok _ _ ?_ ?_ ?_
      · exact hflag
      · intro he
        have hl := congrArg List.length he
        simp only [updateClient_length, List.length_nil] at hl
        exact absurd hl (Nat.pos_iff_ne_zero.1 (List.length_pos_of_mem hmem))
      · have hm := hx.2.2 hflag
        unfold minimumState at hm ⊢
        refine fun hT => hm (Eq.trans (congrArg ComputationStatus.minimumState ?_) hT)
        apply Eq.symm
        apply getStatus_congr
        · exact updateClient_states _ _ _ rfl
        · rfl
    · rw [if_neg hflag]
      exact ⟨_, rfl⟩
  case DMT_KVDB_REQUEST =>
    exact Or.inl ⟨_, rfl⟩
  all_goals exact onDisconnect_finishes now _ _

/-- The witness of C23: the second worker of `sampleWaiting` sends
`DMT_BARRIER(x)` for the open barrier `x`, and it sends a checkpoint file name
whose 28 trailing bytes hold the three strings with their NULs and the shell
type `ssh`. -/
theorem onData_finishes_witness :
    (secondClient ∈ sampleWaiting.clients ∧ sampleWaiting.currentBarrier = "x"
        ∧ (filenameBytes "/tmp/ckpt_B.dmtcp" "ssh" "hostA").length = 28
        ∧ threeStrings ((filenameBytes "/tmp/ckpt_B.dmtcp" "ssh" "hostA").take 28)
        ∧ shellTypeOf ((filenameBytes "/tmp/ckpt_B.dmtcp" "ssh" "hostA").take 28) = "ssh")
      ∧ ((∃ s', onData 53 secondClient (barrierMsg "x" .RUNNING) [] sampleWaiting = .ok s')
          ∨ (sampleWaiting.flags.exitOnLast = true
              ∧ ∃ f, onData 53 secondClient (barrierMsg "x" .RUNNING) [] sampleWaiting
                  = .error (.exit 0 f)))
      ∧ ((∃ s', onData 53 secondClient (filenameMsg .DMT_CKPT_FILENAME 28)
                  (filenameBytes "/tmp/ckpt_B.dmtcp" "ssh" "hostA") sampleWaiting = .ok s')
          ∨ (sampleWaiting.flags.exitOnLast = true
              ∧ ∃ f, onData 53 secondClient (filenameMsg .DMT_CKPT_FILENAME 28)
                  (filenameBytes "/tmp/ckpt_B.dmtcp" "ssh" "hostA") sampleWaiting
                  = .error (.exit 0 f))) :=
  ⟨⟨by decide, rfl, by decide,
      ⟨by unfold terminated; decide, by unfold terminated; decide,
        by unfold terminated; decide⟩, by decide⟩,
    onData_finishes 53 secondClient (barrierMsg "x" .RUNNING) [] sampleWaiting (by decide)
      ⟨by decide, Or.inr rfl⟩,
    onData_finishes 53 secondClient (filenameMsg .DMT_CKPT_FILENAME 28)
      (filenameBytes "/tmp/ckpt_B.dmtcp" "ssh" "hostA") sampleWaiting (by decide)
      ⟨by decide, by decide,
        ⟨by unfold terminated; decide, by unfold terminated; decide,
          by unfold terminated; decide⟩, Or.inr (Or.inr (by decide))⟩⟩

/-- The counterexample to C23 as it is written.  In `sampleWaiting` two workers
are registered and the barrier `x` is open; in `sampleStarted` a checkpoint is
in progress for worker A.  Each of these messages from a registered worker
ends `onData` in a failed assertion: `DMT_BARRIER` for the barrier `y`
(`barrier == currentBarrier`); `DMT_CKPT_FILENAME` with the shell type `zsh`;
`DMT_CKPT_FILENAME` without trailing bytes (`extraData != NULL`);
`DMT_UPDATE_CKPT_DIR` without trailing bytes (`extraData != 0`); and, while the
checkpoint is in progress, `DMT_UPDATE_PROCESS_INFO_AFTER_INIT_OR_EXEC` from
worker A in state SUSPENDED (`s.minimumState != WorkerState::SUSPENDED`).  The
last kind of message without trailing bytes meets no assertion: `onData`
builds a `std::string` from the null pointer, which C++ leaves undefined. -/
theorem onData_fails_assertion_on_peer_message :
    (secondClient ∈ sampleWaiting.clients ∧ sampleWaiting.currentBarrier = "x")
      ∧ onData 53 secondClient (barrierMsg "y" .RUNNING) [] sampleWaiting
          = .error (.assertFail "barrier == currentBarrier")
      ∧ onData 53 secondClient (filenameMsg .DMT_CKPT_FILENAME 28)
            (filenameBytes "/tmp/ckpt_B.dmtcp" "zsh" "hostA") sampleWaiting
          = .error (.assertFail "Shell command not supported")
      ∧ onData 53 secondClient (filenameMsg .DMT_CKPT_FILENAME 0) [] sampleWaiting
          = .error (.assertFail "extraData != NULL")
      ∧ onData 53 secondClient (DmtcpMessage.new .DMT_UPDATE_CKPT_DIR) [] sampleWaiting
          = .error (.assertFail "extraData != 0")
      ∧ ((sampleStarted.clients.map fun c => c.clientNumber) = [1]
          ∧ sampleStarted.workersRunningAndSuspendMsgSent = true
          ∧ react sampleStarted (.data 53 1 (execMsg .SUSPENDED 6) (c_str "a.out"))
              = .error (.assertFail "s.minimumState != WorkerState::SUSPENDED"))
      ∧ onData 53 secondClient (execMsg .RUNNING 0) [] sampleWaiting
          = .error (.undefined "string progname = extraData, with extraData == 0") :=
  ⟨⟨by decide, rfl⟩, rfl, rfl, rfl, rfl, ⟨rfl, rfl, rfl⟩, rfl⟩

/-! ## Claims on user commands -/

/-- C24 (the code at the failing input).  In the state `sampleRestarting` the
only worker is RESTARTING, so `startCheckpoint` refuses, and
`killAfterCkptOnce` and `blockUntilDone` are false.  The command `kc` (and
likewise `ck` and `K`) leaves `killAfterCkptOnce` true and changes nothing
else; `bc` leaves `blockUntilDone` true; on a command socket the reply carries
`ERROR_NOT_RUNNING_STATE`.  Only the refused `c` leaves the state as it was.
Once the worker runs, a plain `c` after the refused `kc` broadcasts
`DMT_DO_CHECKPOINT` with `exitAfterCkpt` set (it is not set when the refused
command was `c`), and a plain `c` from a command socket after the refused `bc`
is not answered until the checkpoint completes. -/
theorem refused_checkpoint_command_keeps_its_flag :
    ((startCheckpoint 51 sampleRestarting).1 = false
        ∧ sampleRestarting.killAfterCkptOnce = false ∧ sampleRestarting.blockUntilDone = false)
      ∧ handleUserCommand 51 "kc" none sampleRestarting
          = .ok (none, { sampleRestarting with killAfterCkptOnce := true })
      ∧ handleUserCommand 51 "ck" none sampleRestarting
          = .ok (none, { sampleRestarting with killAfterCkptOnce := true })
      ∧ handleUserCommand 51 "K" (some (DmtcpMessage.new .DMT_USER_CMD_RESULT)) sampleRestarting
          = .ok (some { DmtcpMessage.new .DMT_USER_CMD_RESULT with
                        coordCmdStatus := CoordCmdStatus.ERROR_NOT_RUNNING_STATE },
                 { sampleRestarting with killAfterCkptOnce := true })
      ∧ handleUserCommand 51 "bc" none sampleRestarting
          = .ok (none, { sampleRestarting with blockUntilDone := true })
      ∧ handleUserCommand 51 "c" none sampleRestarting = .ok (none, sampleRestarting)
      ∧ (sampleRun ((refusedThenPlain "kc").take 4)).killAfterCkptOnce = true
      ∧ writes (sampleRun (refusedThenPlain "kc")) = [(11, .DMT_DO_CHECKPOINT, 0, true)]
      ∧ writes (sampleRun (refusedThenPlain "c")) = [(11, .DMT_DO_CHECKPOINT, 0, false)]
      ∧ (sampleRun ((refusedThenPlain "bc").take 4)).blockUntilDone = true
      ∧ (writes (sampleRun (heldCheckpoint.take 5)) = [(11, .DMT_DO_CHECKPOINT, 0, false)]
          ∧ (sampleRun (heldCheckpoint.take 5)).closed = []
          ∧ (sampleRun (heldCheckpoint.take 5)).blockUntilDoneRemote = 21)
      ∧ (writes (sampleRun heldCheckpoint) = [(21, .DMT_USER_CMD_RESULT, 0, false)]
          ∧ (sampleRun heldCheckpoint).closed = [21]) :=
  ⟨⟨rfl, rfl, rfl⟩, rfl, rfl, rfl, rfl, rfl, rfl, rfl, rfl, rfl, ⟨rfl, rfl, rfl⟩, ⟨rfl, rfl⟩⟩

/-- C25 (the code at the failing input).  Worker A is registered and RUNNING.
A command socket carries one command character, so the blocking checkpoint
arrives as the prefix `b` and then `c`.  The `b` on socket 20 is answered at
once with `DMT_USER_CMD_RESULT` and the status `ERROR_INVALID_COMMAND`, the
socket is closed, and `blockUntilDone` stays false.  The `c` on socket 21
starts the checkpoint and is answered at once with `DMT_USER_CMD_RESULT`, and
socket 21 is closed while the checkpoint has only begun; no socket is
remembered.  When the checkpoint completes nothing is written to a command
socket. -/
theorem blocking_prefix_answered_at_once :
    (getStatus (sampleRun (socketBlockingCheckpoint.take 1))).minimumState = .RUNNING
      ∧ (writes (sampleRun (socketBlockingCheckpoint.take 2))
            = [(20, .DMT_USER_CMD_RESULT, CoordCmdStatus.ERROR_INVALID_COMMAND, false)]
          ∧ (sampleRun (socketBlockingCheckpoint.take 2)).closed = [20]
          ∧ (sampleRun (socketBlockingCheckpoint.take 2)).blockUntilDone = false)
      ∧ (writes (sampleRun (socketBlockingCheckpoint.take 3))
            = [(11, .DMT_DO_CHECKPOINT, 0, false), (21, .DMT_USER_CMD_RESULT, 0, false)]
          ∧ (sampleRun (socketBlockingCheckpoint.take 3)).closed = [21]
          ∧ (sampleRun (socketBlockingCheckpoint.take 3)).workersRunningAndSuspendMsgSent = true
          ∧ (sampleRun (socketBlockingCheckpoint.take 3)).blockUntilDone = false
          ∧ (sampleRun (socketBlockingCheckpoint.take 3)).blockUntilDoneRemote = -1)
      ∧ ((sampleRun socketBlockingCheckpoint).events.map Prod.snd
            = ["Initializing-Computation", "Ckpt-Start", "Barrier-DMT:SUSPEND",
               "Barrier-DMT:CHECKPOINT", "Barrier-DMT:WriteCkpt", "Ckpt-Complete"]
          ∧ writes (sampleRun socketBlockingCheckpoint) = []
          ∧ (sampleRun socketBlockingCheckpoint).closed = []) :=
  ⟨rfl, ⟨rfl, rfl, rfl⟩, ⟨rfl, rfl, rfl, rfl, rfl⟩, ⟨rfl, rfl, rfl⟩⟩

/-! ## The flag `killInProgress` -/

theorem Hushed.idle (s : Coord) : Hushed s s := ⟨rfl, Or.inl⟩

theorem Hushed.andThen {a b c : Coord} (h1 : Hushed a b) (h2 : Hushed b c) : Hushed a c := by
  refine ⟨h2.size.trans h1.size, fun hk => ?_⟩
  rcases h2.kill hk with h | h
  · exact h1.kill h
  · right
    intro he
    apply h
    apply List.length_eq_zero.1
    rw [h1.size, he]
    rfl

theorem Hushed.of_kept {s s' : Coord} (h1 : s'.clients = s.clients)
    (h2 : s'.killInProgress = s.killInProgress) : Hushed s s' :=
  ⟨by rw [h1], fun hk => Or.inl (h2 ▸ hk)⟩

theorem Hushed.keepsInv {s s' : Coord} (h : Hushed s s') (hi : KillInv s) : KillInv s' := by
  intro hk he
  have hne : s.clients ≠ [] := by
    rcases h.kill hk with h1 | h1
    · exact hi h1
    · exact h1
  apply hne
  apply List.length_eq_zero.1
  rw [← h.size, he]
  rfl

theorem killInv_of_nonempty {s : Coord} (h : s.clients ≠ []) : KillInv s := fun _ => h

theorem killInv_of_false {s : Coord} (h : s.killInProgress = false) : KillInv s := by
  intro hk
  rw [h] at hk
  cases hk

theorem hushed_send (sock : Int) (msg : DmtcpMessage) (extra : List Char) (s : Coord) :
    Hushed s (send sock msg extra s) :=
  Hushed.of_kept rfl rfl

theorem hushed_broadcastMessage (type : DmtcpMessageType) (n : Nat) (d : List Char) (s : Coord) :
    Hushed s (broadcastMessage type n d s) := by
  rw [broadcastMessage_eq]
  refine ⟨rfl, fun hk => ?_⟩
  by_cases hc : type = .DMT_KILL_PEER ∧ s.clients.length > 0
  · right
    intro he
    rw [he] at hc
    exact absurd hc.2 (lt_irrefl 0)
  · left
    simpa [hc] using hk

theorem hushed_startCheckpoint (now : Int) (s : Coord) : Hushed s (startCheckpoint now s).2 := by
  cases h : (startCheckpoint now s).1
  · rw [startCheckpoint_of_false now s h]
    exact Hushed.idle s
  · rw [startCheckpoint_of_true now s h, broadcastMessage_eq]
    refine ⟨rfl, fun hk => Or.inl ?_⟩
    simpa using hk

theorem hushed_handleUserCommand (now : Int) (cmd : String) (reply : Option DmtcpMessage)
    (s : Coord) (r : Option DmtcpMessage × Coord)
    (h : handleUserCommand now cmd reply s = .ok r) : Hushed s r.2 := by
  rcases handleUserCommand_state now cmd reply s r h with h | h | h | h | h | h
  · rw [h]; exact Hushed.idle s
  · rw [h]; exact Hushed.of_kept rfl rfl
  · rw [h]; exact hushed_broadcastMessage _ _ _ _
  · rw [h]; exact hushed_startCheckpoint now _
  · rw [h]
    have h1 : Hushed s { s with blockUntilDone := true } := Hushed.of_kept rfl rfl
    exact h1.andThen (hushed_startCheckpoint now _)
  · rw [h]
    have h1 : Hushed s { s with killAfterCkptOnce := true } := Hushed.of_kept rfl rfl
    exact h1.andThen (hushed_startCheckpoint now _)

theorem hushed_getNewVirtualPid (s : Coord) (r : Int × Coord)
    (h : getNewVirtualPid s = .ok r) : Hushed s r.2 := by
  obtain ⟨pid, s'⟩ := r
  obtain ⟨k, _, _, _, hs'⟩ := getNewVirtualPid_spec s pid s' h
  subst hs'
  exact Hushed.of_kept rfl rfl

theorem hushed_processDmtUserCmd (now : Int) (hello : DmtcpMessage) (remote : Int) (s : Coord)
    (s' : Coord) (h : processDmtUserCmd now hello remote s = .ok s') : Hushed s s' := by
  unfold processDmtUserCmd at h
  split at h
  · split at h
    · cases h
    · rename_i r hr
      injection h with h
      subst h
      have h1 : Hushed s { s with blockUntilDoneRemote := remote } := Hushed.of_kept rfl rfl
      exact h1.andThen (hushed_handleUserCommand _ _ _ _ _ hr)
  split at h
  all_goals
    split at h
    · cases h
    · rename_i r hr
      injection h with h
      subst h
      exact (hushed_handleUserCommand _ _ _ _ _ hr).andThen (Hushed.of_kept rfl rfl)

theorem hushed_validateRestartingWorkerProcess (now : Int) (hello : DmtcpMessage) (remote : Int)
    (remoteAddr : Int) (s : Coord) (r : Bool × Coord)
    (h : validateRestartingWorkerProcess now hello remote remoteAddr s = .ok r) :
    Hushed s r.2 := by
  unfold validateRestartingWorkerProcess at h
  simp only at h
  split_ifs at h
  all_goals
    injection h with h
    subst h
    exact Hushed.of_kept rfl rfl

theorem hushed_ResendDoCheckpointMsgToWorker (client : CoordClient) (s s' : Coord)
    (h : ResendDoCheckpointMsgToWorker client s = .ok s') : Hushed s s' := by
  unfold ResendDoCheckpointMsgToWorker at h
  simp only at h
  split_ifs at h
  injection h with h
  subst h
  exact hushed_send _ _ _ _

theorem hushed_createComputationGroup (now : Int) (hello : DmtcpMessage) (pid : Int)
    (s : Coord) : Hushed s (createComputationGroup now hello pid s) := by
  unfold createComputationGroup
  split
  · exact Hushed.of_kept rfl rfl
  · exact Hushed.idle s

theorem hushed_validateNewWorkerProcess (now : Int) (hello : DmtcpMessage) (remote : Int)
    (client : CoordClient) (remoteAddr : Int) (s : Coord) (r : Bool × CoordClient × Coord)
    (h : validateNewWorkerProcess now hello remote client remoteAddr s = .ok r) :
    Hushed s r.2.2 := by
  unfold validateNewWorkerProcess at h
  split at h
  · injection h with h
    subst h
    exact Hushed.idle s
  split at h
  · injection h with h
    subst h
    exact Hushed.idle s
  split at h
  · cases h
  rename_i pid s1 hg
  have hc := hushed_getNewVirtualPid _ _ hg
  split at h
  · split at h
    · cases h
    · rename_i s3 hr
      injection h with h
      subst h
      exact hc.andThen ((hushed_send _ _ _ _).andThen (hushed_ResendDoCheckpointMsgToWorker _ _ _ hr))
  split at h
  · injection h with h
    subst h
    exact hc.andThen (Hushed.of_kept rfl rfl)
  split at h
  · injection h with h
    subst h
    exact hc.andThen (Hushed.of_kept rfl rfl)
  injection h with h
  subst h
  exact hc.andThen ((hushed_createComputationGroup now hello pid s1).andThen (hushed_send _ _ _ _))

theorem hushed_releaseBarrier (b : String) (s : Coord) : Hushed s (releaseBarrier b s) := by
  rw [releaseBarrier_eq]
  split
  · exact Hushed.of_kept rfl rfl
  · exact Hushed.idle s

theorem hushed_processBarrier (b : String) (s s' : Coord) (h : processBarrier b s = .ok s') :
    Hushed s s' := by
  unfold processBarrier at h
  split_ifs at h
  all_goals
    injection h with h
    subst h
    refine Hushed.andThen ?_ (hushed_releaseBarrier b _)
    exact Hushed.of_kept rfl rfl

theorem hushed_recordCkptFilename (client : CoordClient) (extraData : Option (List Char))
    (m s' : Coord) (h : recordCkptFilename client extraData m = .ok s') : Hushed m s' := by
  cases extraData with
  | none => simp [recordCkptFilename] at h
  | some d =>
    have hfin : ∀ t : Coord, t.clients = updateClient client { client with state := .CHECKPOINTED }
        m.clients → t.killInProgress = m.killInProgress → Hushed m t := by
      intro t h1 h2
      exact ⟨by rw [h1, updateClient_length], fun hk => Or.inl (h2 ▸ hk)⟩
    by_cases hshell : shellTypeOf d = "" ∨ shellTypeOf d = "rsh" ∨ shellTypeOf d = "ssh"
    · unfold shellTypeOf at hshell
      by_cases hc : m.numRestartFilenames + 1 = m.numCkptWorkers
      · by_cases hb : m.blockUntilDone = true
        · rcases hshell with hs | hs | hs
          all_goals
            simp [recordCkptFilename, hs, hc, hb] at h
            subst h
            exact hfin _ rfl rfl
        · rcases hshell with hs | hs | hs
          all_goals
            simp [recordCkptFilename, hs, hc, hb] at h
            subst h
            exact hfin _ rfl rfl
      · rcases hshell with hs | hs | hs
        all_goals
          simp [recordCkptFilename, hs, hc] at h
          subst h
          exact hfin _ rfl rfl
    · unfold shellTypeOf at hshell
      push_neg at hshell
      simp [recordCkptFilename, hshell.1, hshell.2.1, hshell.2.2] at h

theorem onDisconnect_killInv (now : Int) (client : CoordClient) (s s' : Coord)
    (h : onDisconnect now client s = .ok s') (hi : KillInv s) : KillInv s' := by
  by_cases hns : client.isNSWorker = true
  · unfold onDisconnect at h
    rw [if_pos hns] at h
    injection h with h
    subst h
    exact hi
  have hns' : client.isNSWorker = false := by simpa using hns
  by_cases hrem : eraseClient client s.clients = []
  · unfold onDisconnect at h
    simp only [hns', Bool.false_eq_true, if_false, getStatus_numPeers, hrem, List.length_nil] at h
    by_cases hx : s.flags.exitOnLast = true
    · simp [hx, handleUserCommand] at h
    · simp only [hx] at h
      simp at h
      subst h
      exact killInv_of_false rfl
  · rw [onDisconnect_eq now client s hns' hrem] at h
    apply killInv_of_nonempty
    split at h
    · injection h with h
      subst h
      intro he
      have hsz := (hushed_releaseBarrier s.currentBarrier
        { s with
          clients := eraseClient client s.clients
          closed := s.closed ++ [client.sock]
          virtualPidToClientMap := mapErase client.virtualPid s.virtualPidToClientMap
          workersAtCurrentBarrier :=
            s.workersAtCurrentBarrier - (if client.barrier = s.currentBarrier then 1 else 0) }).size
      rw [he] at hsz
      exact hrem (List.length_eq_zero.1 hsz.symm)
    · injection h with h
      subst h
      exact hrem

/-- The disconnect that empties the registry clears `killInProgress`. -/
theorem onDisconnect_clears_kill (now : Int) (client : CoordClient) (s s' : Coord)
    (hns : client.isNSWorker = false) (h : onDisconnect now client s = .ok s')
    (he : s'.clients = []) : s'.killInProgress = false := by
  by_cases hrem : eraseClient client s.clients = []
  · unfold onDisconnect at h
    simp only [hns, Bool.false_eq_true, if_false, getStatus_numPeers, hrem, List.length_nil] at h
    by_cases hx : s.flags.exitOnLast = true
    · simp [hx, handleUserCommand] at h
    · simp only [hx] at h
      simp at h
      subst h
      rfl
  · exfalso
    rw [onDisconnect_eq now client s hns hrem] at h
    split at h
    · injection h with h
      subst h
      have hsz := (hushed_releaseBarrier s.currentBarrier
        { s with
          clients := eraseClient client s.clients
          closed := s.closed ++ [client.sock]
          virtualPidToClientMap := mapErase client.virtualPid s.virtualPidToClientMap
          workersAtCurrentBarrier :=
            s.workersAtCurrentBarrier - (if client.barrier = s.currentBarrier then 1 else 0) }).size
      rw [he] at hsz
      exact hrem (List.length_eq_zero.1 hsz.symm)
    · injection h with h
      subst h
      exact hrem he

theorem onData_killInv (now : Int) (client : CoordClient) (msg : DmtcpMessage)
    (extra : List Char) (s s' : Coord) (h : onData now client msg extra s = .ok s')
    (hi : KillInv s) : KillInv s' := by
  obtain ⟨type, state, src, compGroup, virtualPid, realPid, barrier, extraBytes, numPeers,
    isRunning, coordCmd, coordCmdStatus, coordTimeStamp, theCheckpointInterval, ipAddr,
    exitAfterCkpt⟩ := msg
  have h0 : ∀ (L : List CoordClient) (F : CoordFlags) (u : Bool), L.length = s.clients.length →
      KillInv { s with clients := L, flags := F, uniqueCkptFilenames := u } := by
    intro L F u hL hk he
    have he' : L = [] := he
    rw [he'] at hL
    exact hi hk (List.length_eq_zero.1 hL.symm)
  have hl1 : (updateClient client { client with state := state } s.clients).length
      = s.clients.length := updateClient_length _ _ _
  have hl2 : ∀ c2 : CoordClient, (updateClient { client with state := state } c2
      (updateClient client { client with state := state } s.clients)).length
      = s.clients.length := fun c2 => (updateClient_length _ _ _).trans hl1
  cases type
  case DMT_CKPT_FILENAME =>
    exact (hushed_recordCkptFilename _ _ _ _ h).keepsInv (h0 _ s.flags s.uniqueCkptFilenames hl1)
  case DMT_UNIQUE_CKPT_FILENAME =>
    exact (hushed_recordCkptFilename _ _ _ _ h).keepsInv (h0 _ s.flags true hl1)
  case DMT_WORKER_RESUMING =>
    simp only [onData] at h
    split_ifs at h
    all_goals
      injection h with h
      subst h
      exact (Hushed.of_kept rfl rfl).keepsInv (h0 _ s.flags s.uniqueCkptFilenames (hl2 _))
  case DMT_BARRIER =>
    exact (hushed_processBarrier _ _ _ h).keepsInv (h0 _ s.flags s.uniqueCkptFilenames (hl2 _))
  case DMT_GET_CKPT_DIR =>
    simp only [onData] at h
    injection h with h
    subst h
    exact (hushed_send _ _ _ _).keepsInv (h0 _ s.flags s.uniqueCkptFilenames hl1)
  case DMT_UPDATE_CKPT_DIR =>
    simp only [onData] at h
    split at h
    · cases h
    · split_ifs at h
      all_goals
        injection h with h
        subst h
        exact h0 _ _ s.uniqueCkptFilenames hl1
  case DMT_UPDATE_PROCESS_INFO_AFTER_FORK =>
    simp only [onData] at h
    injection h with h
    subst h
    exact h0 _ s.flags s.uniqueCkptFilenames (hl2 _)
  case DMT_UPDATE_PROCESS_INFO_AFTER_INIT_OR_EXEC =>
    simp only [onData] at h
    split at h
    · cases h
    · split_ifs at h
      · exact (hushed_ResendDoCheckpointMsgToWorker _ _ _ h).keepsInv
          (h0 _ s.flags s.uniqueCkptFilenames (hl2 _))
      · injection h with h
        subst h
        exact h0 _ s.flags s.uniqueCkptFilenames (hl2 _)
  case DMT_KVDB_REQUEST =>
    simp only [onData] at h
    injection h with h
    subst h
    exact h0 _ s.flags s.uniqueCkptFilenames hl1
  all_goals exact onDisconnect_killInv now _ _ s' h (h0 _ s.flags s.uniqueCkptFilenames hl1)

theorem onConnectWorker_hushed (now remote remoteAddr : Int) (hello : DmtcpMessage)
    (client : CoordClient) (s s' : Coord)
    (h : onConnectWorker now remote remoteAddr hello client s = .ok s') :
    ∃ m : Coord, Hushed s m ∧ (s' = m ∨ ∃ c : CoordClient, s' = registerClient c m) := by
  unfold onConnectWorker at h
  split at h
  · split at h
    · cases h
    · rename_i r hr
      have hc := hushed_validateRestartingWorkerProcess _ _ _ _ _ _ hr
      split at h
      · injection h with h
        exact ⟨r.2, hc, Or.inr ⟨_, h.symm⟩⟩
      · injection h with h
        exact ⟨r.2, hc, Or.inl h.symm⟩
  split at h
  · split at h
    · cases h
    · rename_i r hr
      have hc := hushed_validateNewWorkerProcess _ _ _ _ _ _ _ hr
      split at h
      · injection h with h
        exact ⟨r.2.2, hc, Or.inr ⟨_, h.symm⟩⟩
      · injection h with h
        exact ⟨r.2.2, hc, Or.inl h.symm⟩
  · injection h with h
    exact ⟨s', h ▸ Hushed.of_kept rfl rfl, Or.inl rfl⟩

theorem onConnect_killInv (now remote remoteAddr : Int) (hello : DmtcpMessage)
    (extraData : List Char) (s s' : Coord)
    (h : onConnect now remote remoteAddr hello extraData s = .ok s') (hi : KillInv s) :
    KillInv s' := by
  unfold onConnect at h
  split at h
  · injection h with h
    subst h
    exact hi
  split at h
  · exact (hushed_processDmtUserCmd _ _ _ _ _ h).keepsInv hi
  split at h
  · injection h with h
    subst h
    exact hi
  obtain ⟨m, hm, hs'⟩ := onConnectWorker_hushed _ _ _ _ _ _ _ h
  have h0 : KillInv (CoordClient.new remote remoteAddr hello (initializedIfEmpty s)).2 := by
    unfold initializedIfEmpty
    split
    · exact killInv_of_false rfl
    · exact hi
  rcases hs' with rfl | ⟨c, rfl⟩
  · exact hm.keepsInv h0
  · apply killInv_of_nonempty
    simp [registerClient]

theorem react_killInv (s : Coord) (i : Input) (s' : Coord) (h : react s i = .ok s')
    (hi : KillInv s) : KillInv s' := by
  have hf : KillInv (freshLogs s) := hi
  cases i with
  | connect now remote remoteAddr hello extraData =>
    exact onConnect_killInv _ _ _ _ _ _ _ h hf
  | data now n msg extra =>
    simp only [react] at h
    split at h
    · exact onData_killInv _ _ _ _ _ _ h hf
    · injection h with h
      subst h
      exact hf
  | disconnect now n =>
    simp only [react] at h
    split at h
    · exact onDisconnect_killInv _ _ _ _ h hf
    · injection h with h
      subst h
      exact hf
  | userCommand now cmd =>
    simp only [react] at h
    split_ifs at h
    · split at h
      · cases h
      · rename_i r hr
        injection h with h
        subst h
        exact (hushed_handleUserCommand _ _ _ _ _ hr).keepsInv hf
    · injection h with h
      subst h
      exact hf
  | queuedCheckpoint now =>
    simp only [react] at h
    injection h with h
    subst h
    have h1 : Hushed s { freshLogs s with checkpointQueued := false } :=
      Hushed.of_kept rfl rfl
    exact (h1.andThen (hushed_startCheckpoint now _)).keepsInv hi

theorem runInputs_killInv (s : Coord) (ins : List Input) (s' : Coord)
    (h : runInputs s ins = .ok s') (hi : KillInv s) : KillInv s' := by
  induction ins generalizing s with
  | nil =>
    injection h with h
    exact h ▸ hi
  | cons i rest ih =>
    simp only [runInputs] at h
    split at h
    · rename_i t ht
      exact ih t h (react_killInv s i t ht hi)
    · cases h

/-- C26.  In every reachable coordinator state, if `killInProgress` is true
then at least one client is registered; so with an empty registry
`killInProgress` is false and `onConnect` does not turn a worker away with
`DMT_KILL_PEER`.  The mechanism: `broadcastMessage` sets the flag only for
`DMT_KILL_PEER` and only when the registry is not empty, and the disconnect
that empties the registry clears it.  The property is also kept by every
message and every hang-up that `onData` and `onDisconnect` handle for the
object of any data socket, registered or not: the traffic of name-service
connections, which is no input of `react`, cannot break it. -/
theorem killInProgress_implies_registered (flags : CoordFlags) (ins : List Input) (s : Coord)
    (hrun : runInputs (Coord.init flags) ins = .ok s) :
    (s.killInProgress = true → s.clients ≠ [])
      ∧ (s.clients = [] → s.killInProgress = false)
      ∧ (∀ (type : DmtcpMessageType) (n : Nat) (d : List Char) (t : Coord),
          (broadcastMessage type n d t).killInProgress = true →
          t.killInProgress = true ∨ (type = .DMT_KILL_PEER ∧ t.clients ≠ []))
      ∧ (∀ (now : Int) (client : CoordClient) (t t' : Coord), client.isNSWorker = false →
          onDisconnect now client t = .ok t' → t'.clients = [] → t'.killInProgress = false)
      ∧ (∀ (now : Int) (client : CoordClient) (msg : DmtcpMessage) (extra : List Char)
          (t t' : Coord), (t.killInProgress = true → t.clients ≠ []) →
          onData now client msg extra t = .ok t' → t'.killInProgress = true → t'.clients ≠ [])
      ∧ (∀ (now : Int) (client : CoordClient) (t t' : Coord),
          (t.killInProgress = true → t.clients ≠ []) →
          onDisconnect now client t = .ok t' → t'.killInProgress = true → t'.clients ≠ []) := by
  have hi : KillInv s := runInputs_killInv _ ins s hrun (killInv_of_false rfl)
  refine ⟨hi, ?_, ?_, ?_, fun now client msg extra t t' ht h =>
      onData_killInv now client msg extra t t' h ht,
    fun now client t t' ht h => onDisconnect_killInv now client t t' h ht⟩
  · intro he
    cases hk : s.killInProgress
    · rfl
    · exact absurd he (hi hk)
  · intro type n d t hk
    rw [broadcastMessage_eq] at hk
    by_cases hc : type = .DMT_KILL_PEER ∧ t.clients.length > 0
    · right
      refine ⟨hc.1, fun he => ?_⟩
      rw [he] at hc
      exact absurd hc.2 (lt_irrefl 0)
    · left
      simpa [hc] using hk
  · intro now client t t' hns h he
    exact onDisconnect_clears_kill now client t t' hns h he

theorem killInProgress_implies_registered_witness :
    (runInputs (Coord.init sampleFlags)
          [.connect 50 11 2130706433 (sampleHello 501) [], .userCommand 51 "k"]
        = .ok sampleKilling
      ∧ sampleKilling.killInProgress = true)
      ∧ sampleKilling.clients ≠ [] :=
  ⟨⟨rfl, rfl⟩,
    (killInProgress_implies_registered sampleFlags
      [.connect 50 11 2130706433 (sampleHello 501) [], .userCommand 51 "k"] sampleKilling rfl).1
      rfl⟩

/-! ## Command lines typed on the terminal -/

theorem ltrimLoop_spec (l : List Char) :
    ltrimLoop l = if l.all isspace then none else some (l.dropWhile isspace) := by
  induction l with
  | nil => rfl
  | cons c rest ih =>
    unfold ltrimLoop
    cases hc : isspace c
    · simp [hc, List.dropWhile]
    · simp [hc, List.dropWhile, ih]

/-- What `ltrim` does to every string: a string with a character that is not
whitespace loses its leading whitespace; a string of whitespace only, like the
empty string, is left as it is. -/
theorem ltrim_spec (s : String) :
    ltrim s = if s.toList.all isspace then s else String.mk (s.toList.dropWhile isspace) := by
  unfold ltrim
  rw [ltrimLoop_spec]
  split_ifs <;> rfl

/-- C29 (the code at the failing input).  The line of three spaces: `ltrim`
leaves it as it is, because it erases only once it has found a character that
is not whitespace.  So the command that `eventLoop` makes of the line is not
empty, and the line is passed to `handleUserCommand` (which finds no command of
that name).  The same holds for a line of a space, a tab and a space, and for every line
of whitespace only; a line with
another character in it does lose its leading whitespace. -/
theorem ltrim_keeps_whitespace_line :
    ltrim "   " = "   "
      ∧ stdinCommand "   " ≠ ""
      ∧ (∀ (now : Int) (s : Coord),
          stdinLine now "   " s
            = match handleUserCommand now "   " none s with
              | .error h => .error h
              | .ok r => .ok r.2)
      ∧ stdinCommand (String.mk [' ', Char.ofNat 9, ' ']) = String.mk [' ', Char.ofNat 9, ' ']
      ∧ stdinCommand "  C" = "c"
      ∧ ∀ s : String,
          ltrim s
            = if s.toList.all isspace then s else String.mk (s.toList.dropWhile isspace) :=
  ⟨by decide, by decide, fun _ _ => rfl, by decide, by decide, ltrim_spec⟩

/-! ## Claims on the barrier counter -/

theorem Hist.inv_init (flags : CoordFlags) : (Hist.init flags).Inv := by
  refine ⟨?_, ?_, ?_, ?_, ?_⟩
  · intro c hc
    cases hc
  · exact List.nodup_nil
  · intro p hp
    cases hp
  · intro hne
    exact absurd rfl hne
  · intro c hc
    cases hc

/-- C30 (amended).  Start the coordinator with an empty registry and let it
handle any sequence of connections (of workers, of name-service connections
and of command sockets), `DMT_BARRIER` messages, hang-ups (of workers and of
name-service connections) and terminal commands (`k` and `c` among them) in
which every `DMT_BARRIER` message names a non-empty barrier, comes from a
client that has not sent one since the last release, and does not come from a
name-service connection.  In every state reached in which the registry is not
empty, `workersAtCurrentBarrier` is at most the number of registered
clients. -/
theorem barrier_counter_at_most_registry (flags : CoordFlags) (evs : List Event) (h : Hist)
    (hrun : Hist.run (Hist.init flags) evs = some h) (hne : h.coord.clients ≠ []) :
    h.coord.workersAtCurrentBarrier ≤ h.coord.clients.length := by
  have hi := Hist.run_inv (Hist.inv_init flags) evs hrun
  have h1 := hi.counted hne
  have h2 : ((h.coord.clients.countP
      fun c => decide (c.clientNumber ∈ h.arrived.map Prod.fst) : Nat) : Int)
      ≤ (h.coord.clients.length : Nat) := by
    exact_mod_cast List.countP_le_length _
  exact le_trans h1 h2

/-- The witness of C30: two workers and a name-service connection connect and
client 1 sends `DMT_BARRIER(x)`; the counter is 1 with two clients
registered. -/
theorem barrier_counter_at_most_registry_witness :
    (Hist.run (Hist.init ⟨false, false, false, "/tmp", 7779⟩) sampleLookupEvents
          = some sampleLookupHist
        ∧ sampleLookupHist.coord.clients ≠ [])
      ∧ sampleLookupHist.coord.workersAtCurrentBarrier ≤ sampleLookupHist.coord.clients.length :=
  ⟨⟨rfl, by decide⟩,
    barrier_counter_at_most_registry ⟨false, false, false, "/tmp", 7779⟩ sampleLookupEvents
      sampleLookupHist rfl (by decide)⟩

/-- The counterexample to C30 as it is written.  Two workers connect, client 1
sends `DMT_BARRIER(x)` and is counted, and the command `k` is typed:
`broadcastMessage` sets the counter to zero while the barrier `x` stays open.
Client 1 hangs up and `onDisconnect` takes it off the counter once more: one
client is registered and `workersAtCurrentBarrier` is -1.  The same happens
with the command `c`.  The counter also exceeds the size of the registry: a
restarting worker that waits alone for its peer at the barrier `x` is counted,
and when it hangs up the registry is empty and the counter is still 1; when it
sends `DMT_BARRIER(x)` a second time instead, the counter is 2 with one client
registered; and so it is when the second `DMT_BARRIER(x)` comes from a
name-service connection, whose object is in no registry. -/
theorem barrier_counter_leaves_its_bounds :
    ((sampleRun ((departAfterCommand "k").take 3)).workersAtCurrentBarrier = 1
        ∧ (sampleRun ((departAfterCommand "k").take 4)).workersAtCurrentBarrier = 0
        ∧ (sampleRun ((departAfterCommand "k").take 4)).currentBarrier = "x"
        ∧ (sampleRun (departAfterCommand "k")).workersAtCurrentBarrier = -1
        ∧ (sampleRun (departAfterCommand "k")).clients.length = 1)
      ∧ ((sampleRun (departAfterCommand "c")).workersAtCurrentBarrier = -1
        ∧ (sampleRun (departAfterCommand "c")).clients.length = 1)
      ∧ ((sampleRun loneRestart).workersAtCurrentBarrier = 1
        ∧ (sampleRun (loneRestart ++ [.disconnect 52 1])).workersAtCurrentBarrier = 1
        ∧ (sampleRun (loneRestart ++ [.disconnect 52 1])).clients.length = 0)
      ∧ ((sampleRun (loneRestart ++ [.data 52 1 (barrierMsg "x" .RESTARTING) []])).workersAtCurrentBarrier
            = 2
        ∧ (sampleRun (loneRestart ++ [.data 52 1 (barrierMsg "x" .RESTARTING) []])).clients.length
            = 1)
      ∧ (((runEvents (Coord.init sampleFlags) sampleLookupRestart).toOption.map fun s =>
              (s.workersAtCurrentBarrier, s.clients.map fun c => c.clientNumber,
                s.lookupClients.map fun c => c.clientNumber))
            = some (1, [1], [2])
        ∧ ((runEvents (Coord.init sampleFlags)
                (sampleLookupRestart ++ [.barrier 53 2 "x" .RESTARTING])).toOption.map fun s =>
              (s.workersAtCurrentBarrier, s.clients.map fun c => c.clientNumber,
                s.lookupClients.map fun c => c.clientNumber))
            = some (2, [1], [2])) :=
  ⟨⟨rfl, rfl, rfl, rfl, rfl⟩, ⟨rfl, rfl⟩, ⟨rfl, rfl, rfl⟩, ⟨rfl, rfl⟩, ⟨rfl, rfl⟩⟩

end Dmtcp
